import Mathlib

/-!
# OpenCanopy: clipping, damage queue, interpolation, pointer events and blitter

A shallow embedding of the compositor core of `Platform/OpenCanopy/OpenCanopy.c`.
Machine integers are `Nat`/`Int` with explicit reductions at every place where the
C code narrows or may wrap.  Callbacks (`Draw`, `PtrEvent`, the blend primitives) are
parameters that transform an explicit state; instantiating the state with a log gives the
sequence of invocations.
-/

namespace OpenCanopy

/-! ## Machine integers -/

/-- Conversion of a mathematical integer to `UINT32` (reduction modulo `2^32`). -/
def toUINT32 (z : Int) : Nat := (z % 4294967296).toNat

/-- Conversion of a mathematical integer to `INT64` (two's complement wrap). -/
def toINT64 (z : Int) : Int := (z + 9223372036854775808) % 18446744073709551616 - 9223372036854775808

/-- Conversion of a mathematical integer to `INT32` (two's complement wrap). -/
def toINT32 (z : Int) : Int := (z + 2147483648) % 4294967296 - 2147483648

/-- Addition of two `UINT32` values. -/
def add32 (a b : Nat) : Nat := (a + b) % 4294967296

/-- Subtraction of two `UINT32` values. -/
def sub32 (a b : Nat) : Nat := (a + 4294967296 - b % 4294967296) % 4294967296

/-- Multiplication of two `UINT32` values. -/
def mul32 (a b : Nat) : Nat := (a * b) % 4294967296

/-! ## Geometry / clipping -/

/-- Second half of `GuiClipChildBounds` (from `NewOffset = *ReqOffset` on), with the
values of `PosChildOffset`, `NegChildOffset` and the visible `ChildLength` that the
first half has computed.  `none` is the return value `FALSE` (nothing is written
back), `some (NewOffset, NewLength)` is `TRUE` with the written-back values. -/
def GuiClipChildBoundsReq (PosChildOffset NegChildOffset ChildLength : Nat)
    (ReqOffset ReqLength : Nat) : Option (Nat × Nat) :=
  if PosChildOffset ≤ ReqOffset then
    -- The requested offset starts within or past the child.
    if ChildLength ≤ sub32 ReqOffset PosChildOffset then
      none
    else
      some (add32 (sub32 ReqOffset PosChildOffset) NegChildOffset, ReqLength)
  else
    -- The requested offset ends within or before the child.
    if ReqLength ≤ sub32 PosChildOffset ReqOffset then
      none
    else
      some (NegChildOffset, sub32 ReqLength (sub32 PosChildOffset ReqOffset))

/-- The function `GuiClipChildBounds`: `ChildOffset` is an `INT64`, the other three
arguments are `UINT32`; the in/out parameters `ReqOffset`, `ReqLength` are passed by
value and their new values are returned. -/
def GuiClipChildBounds (ChildOffset : Int) (ChildLength ReqOffset ReqLength : Nat) :
    Option (Nat × Nat) :=
  if 0 ≤ ChildOffset then
    GuiClipChildBoundsReq (toUINT32 ChildOffset) 0 ChildLength ReqOffset ReqLength
  else if toINT64 (ChildOffset + ChildLength) ≤ 0 then
    none
  else
    GuiClipChildBoundsReq 0 (toUINT32 (-ChildOffset)) (toUINT32 (ChildOffset + ChildLength))
      ReqOffset ReqLength

/-- Valid arguments of `GuiClipChildBounds`: an `INT64` child offset below `2^32`,
`UINT32` lengths and request offset, and positive lengths. -/
def ClipValid (ChildOffset : Int) (ChildLength ReqOffset ReqLength : Nat) : Prop :=
  -9223372036854775808 ≤ ChildOffset ∧ ChildOffset < 4294967296 ∧
  0 < ChildLength ∧ ChildLength < 4294967296 ∧
  ReqOffset < 4294967296 ∧ 0 < ReqLength ∧ ReqLength < 4294967296

instance (ChildOffset : Int) (ChildLength ReqOffset ReqLength : Nat) :
    Decidable (ClipValid ChildOffset ChildLength ReqOffset ReqLength) := by
  unfold ClipValid; infer_instance

/-- The request interval `[ReqOffset, ReqOffset+ReqLength)` and the child interval
`[ChildOffset, ChildOffset+ChildLength)` have no point in common. -/
def IntervalsDisjoint (ChildOffset : Int) (ChildLength ReqOffset ReqLength : Nat) : Prop :=
  ∀ p : Int, ¬ (((ReqOffset : Int) ≤ p ∧ p < ReqOffset + ReqLength) ∧
                (ChildOffset ≤ p ∧ p < ChildOffset + ChildLength))

/-! ## Damage queue -/

/-- The C type `GUI_DRAW_REQUEST`: four `UINT32` fields. -/
structure GUI_DRAW_REQUEST where
  X : Nat
  Y : Nat
  Width : Nat
  Height : Nat
  deriving DecidableEq, Repr, Inhabited

/-- The two globals of the damage queue: the counter `mNumValidDrawReqs` and the array
`mDrawRequests[4]`, held as a list whose index `i` is the array element `i`. -/
structure DrawQueue where
  mNumValidDrawReqs : Nat
  mDrawRequests : List GUI_DRAW_REQUEST
  deriving DecidableEq, Repr

/-- Array read `mDrawRequests[Index]`. -/
def DrawQueue.entry (q : DrawQueue) (Index : Nat) : GUI_DRAW_REQUEST :=
  q.mDrawRequests.getD Index default

/-- The rectangle `(CombX, CombY, CombWidth, CombHeight)` that one iteration of the loop
of `GuiRequestDraw` computes from the queue entry `E` and the request, in `UINT32`
arithmetic. -/
def GuiRequestDrawComb (E : GUI_DRAW_REQUEST) (PosX PosY Width Height : Nat) :
    GUI_DRAW_REQUEST :=
  let ThisMaxX := sub32 (add32 PosX Width) 1
  let ThisMaxY := sub32 (add32 PosY Height) 1
  let ReqMaxX := sub32 (add32 E.X E.Width) 1
  let ReqMaxY := sub32 (add32 E.Y E.Height) 1
  let CombX := if E.X < PosX then E.X else PosX
  let CombWidth :=
    if ReqMaxX > ThisMaxX then add32 (sub32 ReqMaxX CombX) 1 else add32 (sub32 ThisMaxX CombX) 1
  let CombY := if E.Y < PosY then E.Y else PosY
  let CombHeight :=
    if ReqMaxY > ThisMaxY then add32 (sub32 ReqMaxY CombY) 1 else add32 (sub32 ThisMaxY CombY) 1
  { X := CombX, Y := CombY, Width := CombWidth, Height := CombHeight }

/-- The test `ThisArea + ReqArea >= CombArea` of `GuiRequestDraw`, in `UINT32`
arithmetic. -/
def GuiRequestDrawMerges (E : GUI_DRAW_REQUEST) (PosX PosY Width Height : Nat) : Bool :=
  let ThisArea := mul32 Width Height
  let ReqArea := mul32 E.Width E.Height
  let Comb := GuiRequestDrawComb E PosX PosY Width Height
  let CombArea := mul32 Comb.Width Comb.Height
  decide (add32 ThisArea ReqArea ≥ CombArea)

/-- The loop `for (Index = 0; Index < mNumValidDrawReqs; ++Index)` of `GuiRequestDraw`,
started at `Index` with `Remaining = mNumValidDrawReqs - Index` iterations to go.  The
result is the queue after a merge (the loop body returned), or `none` when the loop ran
to its end. -/
def GuiRequestDrawLoop (q : DrawQueue) (PosX PosY Width Height : Nat) :
    (Remaining : Nat) → (Index : Nat) → Option DrawQueue
  | 0, _ => none
  | Remaining + 1, Index =>
    if GuiRequestDrawMerges (q.entry Index) PosX PosY Width Height then
      some { q with mDrawRequests :=
        q.mDrawRequests.set Index (GuiRequestDrawComb (q.entry Index) PosX PosY Width Height) }
    else
      GuiRequestDrawLoop q PosX PosY Width Height Remaining (Index + 1)

/-- The function `GuiRequestDraw`.  The result is the queue after the call together
with a flag that is `true` when `ASSERT (FALSE)` was reached. -/
def GuiRequestDraw (q : DrawQueue) (PosX PosY Width Height : Nat) : DrawQueue × Bool :=
  match GuiRequestDrawLoop q PosX PosY Width Height q.mNumValidDrawReqs 0 with
  | some q1 => (q1, false)
  | none =>
    if q.mNumValidDrawReqs ≥ 4 then
      (q, true)
    else
      ({ mNumValidDrawReqs := (q.mNumValidDrawReqs + 1) % 256,
         mDrawRequests := q.mDrawRequests.set q.mNumValidDrawReqs
           { X := PosX, Y := PosY, Width := Width, Height := Height } }, false)

/-- The function `GuiRequestDrawCrop`; `ScreenWidth` and `ScreenHeight` are
`DrawContext->Screen->Width` and `DrawContext->Screen->Height`, `X` and `Y` are `INT64`,
`Width` and `Height` are `UINT32`. -/
def GuiRequestDrawCrop (ScreenWidth ScreenHeight : Nat) (q : DrawQueue) (X Y : Int)
    (Width Height : Nat) : DrawQueue × Bool :=
  let PosX : Nat := if 0 ≤ X then toUINT32 X else 0
  let EffWidth0 : Int := if 0 ≤ X then (Width : Int) else toINT64 (Width + X)
  let PosY : Nat := if 0 ≤ Y then toUINT32 Y else 0
  let EffHeight0 : Int := if 0 ≤ Y then (Height : Int) else toINT64 (Height + Y)
  let EffWidth : Int := min EffWidth0 (toINT64 ((ScreenWidth : Int) - PosX))
  let EffHeight : Int := min EffHeight0 (toINT64 ((ScreenHeight : Int) - PosY))
  if EffWidth ≤ 0 ∨ EffHeight ≤ 0 then
    (q, false)
  else
    GuiRequestDraw q PosX PosY (toUINT32 EffWidth) (toUINT32 EffHeight)

/-- A rectangle with positive width and height that lies inside a screen of
`ScreenWidth` by `ScreenHeight` pixels. -/
def InScreen (ScreenWidth ScreenHeight : Nat) (R : GUI_DRAW_REQUEST) : Prop :=
  0 < R.Width ∧ 0 < R.Height ∧ R.X + R.Width ≤ ScreenWidth ∧ R.Y + R.Height ≤ ScreenHeight

instance (ScreenWidth ScreenHeight : Nat) (R : GUI_DRAW_REQUEST) :
    Decidable (InScreen ScreenWidth ScreenHeight R) := by
  unfold InScreen; infer_instance

/-- Area of a rectangle, as a natural number. -/
def Area (R : GUI_DRAW_REQUEST) : Nat := R.Width * R.Height

/-- The smallest rectangle that contains both `E` and `R`. -/
def Bounding (E R : GUI_DRAW_REQUEST) : GUI_DRAW_REQUEST :=
  { X := min E.X R.X
    Y := min E.Y R.Y
    Width := max (E.X + E.Width) (R.X + R.Width) - min E.X R.X
    Height := max (E.Y + E.Height) (R.Y + R.Height) - min E.Y R.Y }

/-- The merge criterion over the natural numbers:
`area(E) + area(R) >= area(bounding(E, R))`. -/
def MergeCriterion (E R : GUI_DRAW_REQUEST) : Prop :=
  Area E + Area R ≥ Area (Bounding E R)

instance (E R : GUI_DRAW_REQUEST) : Decidable (MergeCriterion E R) := by
  unfold MergeCriterion; infer_instance

/-- The pixel `(px, py)` lies in the rectangle `[X, X+Width) x [Y, Y+Height)`, with
`INT64` position and `UINT32` size. -/
def RectHasPixel (X Y : Int) (Width Height : Nat) (px py : Int) : Prop :=
  X ≤ px ∧ px < X + Width ∧ Y ≤ py ∧ py < Y + Height

/-- The pixel `(px, py)` lies on the screen `[0, ScreenWidth) x [0, ScreenHeight)`. -/
def OnScreen (ScreenWidth ScreenHeight : Nat) (px py : Int) : Prop :=
  0 ≤ px ∧ px < ScreenWidth ∧ 0 ≤ py ∧ py < ScreenHeight

/-- The empty damage queue: counter `0`, four zeroed array elements. -/
def emptyQueue : DrawQueue :=
  { mNumValidDrawReqs := 0, mDrawRequests := List.replicate 4 default }

/-! ## Animation interpolator -/

/-- The enumeration `GUI_INTERPOL_TYPE`. -/
inductive GUI_INTERPOL_TYPE where
  | GuiInterpolTypeLinear
  | GuiInterpolTypeSmooth
  deriving DecidableEq, Repr

/-- Modelled from the spec: the structure `GUI_INTERPOLATION` is declared in
`OpenCanopy.h`, which is not among the sources.  Its fields are the interpolation
descriptor `(startTime, duration, startValue, endValue, curveKind)`; times are `UINT64`
and values are `UINT32`, as `GuiGetInterpolatedValue` uses them; the field `Type` is
named `InterpolType` here. -/
structure GUI_INTERPOLATION where
  InterpolType : GUI_INTERPOL_TYPE
  StartTime : Nat
  Duration : Nat
  StartValue : Nat
  EndValue : Nat
  deriving DecidableEq, Repr

/-- A valid descriptor: 64-bit times, a positive duration (`ASSERT (Interpol->Duration >
0)`), 32-bit values. -/
def GUI_INTERPOLATION.Valid (I : GUI_INTERPOLATION) : Prop :=
  I.StartTime < 18446744073709551616 ∧ 0 < I.Duration ∧ I.Duration < 18446744073709551616 ∧
  I.StartValue < 4294967296 ∧ I.EndValue < 4294967296

instance (I : GUI_INTERPOLATION) : Decidable I.Valid := by
  unfold GUI_INTERPOLATION.Valid; infer_instance

/-- The function `isin_S3` on `INT32`: `x << 17`, the quadrant test on the sign of
`x ^ (x << 1)`, the reflection `(1 << 31) - x`, `x >> 17` (arithmetic), and the cubic
`x * ((3 << 15) - (x * x >> 11)) >> 17`. -/
def isin_S3 (x : Int) : Int :=
  let x1 := toINT32 (x * 131072)
  let x2 := if Int.xor x1 (toINT32 (x1 * 2)) < 0 then toINT32 (toINT32 2147483648 - x1) else x1
  let x3 := x2 / 131072
  toINT32 (x3 * toINT32 (98304 - toINT32 (x3 * x3) / 2048)) / 131072

/-- The fixed-point time `AnimTime` that `GuiGetInterpolatedValue` blends with, from the
quotient `Quot = InterpolFpTimeFactor * DeltaTime / Duration`: unchanged for the linear
kind, `isin_S3 (4 * AnimTime / 2)` squared and divided by `InterpolFpTimeFactor` for the
smooth kind. -/
def GuiInterpolAnimTime (InterpolType : GUI_INTERPOL_TYPE) (Quot : Nat) : Int :=
  let AnimTime := toINT32 Quot
  match InterpolType with
  | GUI_INTERPOL_TYPE.GuiInterpolTypeSmooth =>
    let S := isin_S3 (Int.tdiv (toINT32 (4 * AnimTime)) 2)
    toINT32 (toUINT32 (toINT32 (S * S)) / 4096)
  | GUI_INTERPOL_TYPE.GuiInterpolTypeLinear => AnimTime

/-- The function `GuiGetInterpolatedValue`; `CurrentTime` is a `UINT64`. -/
def GuiGetInterpolatedValue (Interpol : GUI_INTERPOLATION) (CurrentTime : Nat) : Nat :=
  if CurrentTime ≤ Interpol.StartTime then
    Interpol.StartValue
  else
    let DeltaTime := (CurrentTime - Interpol.StartTime) % 4294967296
    if DeltaTime ≥ Interpol.Duration then
      Interpol.EndValue
    else
      let Quot := (4096 * DeltaTime % 18446744073709551616) / Interpol.Duration
      let AnimTime := toUINT32 (GuiInterpolAnimTime Interpol.InterpolType Quot)
      add32 (mul32 Interpol.EndValue AnimTime) (mul32 Interpol.StartValue (sub32 4096 AnimTime))
        / 4096

/-- The cubic `x * ((3 << 15) - (x * x >> 11))` of `isin_S3`, over the naturals. -/
def isinCubic (n : Nat) : Nat := n * (98304 - n * n / 2048)

/-- The eased fraction of the smooth curve over the naturals: the sine approximation of
twice the fixed-point fraction, squared and divided by `4096`. -/
def easedFraction (a : Nat) : Nat :=
  (isinCubic (2 * a) / 131072) * (isinCubic (2 * a) / 131072) / 4096

/-- The fixed-point fraction that the smooth curve blends with at time `CurrentTime`,
when the elapsed time is not truncated: `0` up to the start, `4096` from the end on, the
eased fraction of `4096 * elapsed / Duration` in between. -/
def smoothFraction (I : GUI_INTERPOLATION) (CurrentTime : Nat) : Nat :=
  if CurrentTime ≤ I.StartTime then 0
  else if I.Duration ≤ CurrentTime - I.StartTime then 4096
  else easedFraction (4096 * (CurrentTime - I.StartTime) / I.Duration)

/-! ## Scene graph: draw delegation -/

/-- Modelled from the spec: the structure `GUI_OBJ` is declared in `OpenCanopy.h`, which
is not among the sources.  A scene object has a signed offset relative to its parent
(`INT64`) and an unsigned size (`UINT32`); `Id` stands for the identity of the object,
under which its `Draw` and `PtrEvent` function pointers are looked up. -/
structure GUI_OBJ where
  Id : Nat
  OffsetX : Int
  OffsetY : Int
  Width : Nat
  Height : Nat
  deriving DecidableEq, Repr, Inhabited

/-- One invocation of a `Draw` callback: the object and the six position arguments. -/
structure DrawCall where
  Obj : GUI_OBJ
  BaseX : Int
  BaseY : Int
  OffsetX : Nat
  OffsetY : Nat
  Width : Nat
  Height : Nat
  deriving DecidableEq, Repr

/-- Body of the loop of `GuiObjDrawDelegate` for one child: the two clips, and the call
of `Child->Obj.Draw` when both succeed.  `Draw Child s ...` is the state after the
callback of `Child` has run in state `s`. -/
def GuiObjDrawDelegateChild {σ : Type} (Draw : GUI_OBJ → σ → Int → Int → Nat → Nat → Nat → Nat → σ)
    (Child : GUI_OBJ) (s : σ) (BaseX BaseY : Int) (OffsetX OffsetY Width Height : Nat) : σ :=
  match GuiClipChildBounds Child.OffsetX Child.Width OffsetX Width with
  | none => s
  | some (ChildDrawOffsetX, ChildDrawWidth) =>
    match GuiClipChildBounds Child.OffsetY Child.Height OffsetY Height with
    | none => s
    | some (ChildDrawOffsetY, ChildDrawHeight) =>
      Draw Child s (toINT64 (BaseX + Child.OffsetX)) (toINT64 (BaseY + Child.OffsetY))
        ChildDrawOffsetX ChildDrawOffsetY ChildDrawWidth ChildDrawHeight

/-- The loop of `GuiObjDrawDelegate`.  `Children` is the list `This->Children` in list
order; the cursor `ChildEntry` is given by the number `k` of nodes up to and including
it, so `k = 0` is the list head (`IsNull`), the first value `GetPreviousNode (head)` is
`k = length`, and `GetPreviousNode` takes `k + 1` to `k`. -/
def GuiObjDrawDelegateLoop {σ : Type} (Draw : GUI_OBJ → σ → Int → Int → Nat → Nat → Nat → Nat → σ)
    (Children : List GUI_OBJ) (BaseX BaseY : Int) (OffsetX OffsetY Width Height : Nat) :
    (k : Nat) → σ → σ
  | 0, s => s
  | k + 1, s =>
    GuiObjDrawDelegateLoop Draw Children BaseX BaseY OffsetX OffsetY Width Height k
      (GuiObjDrawDelegateChild Draw (Children.getD k default) s BaseX BaseY
        OffsetX OffsetY Width Height)

/-- The function `GuiObjDrawDelegate` of the object `This` with child list `Children`. -/
def GuiObjDrawDelegate {σ : Type} (Draw : GUI_OBJ → σ → Int → Int → Nat → Nat → Nat → Nat → σ)
    (This : GUI_OBJ) (Children : List GUI_OBJ) (s : σ) (BaseX BaseY : Int)
    (OffsetX OffsetY Width Height : Nat) : σ :=
  GuiObjDrawDelegateLoop Draw Children BaseX BaseY OffsetX OffsetY
    (min Width (sub32 This.Width OffsetX)) (min Height (sub32 This.Height OffsetY))
    Children.length s

/-- The callback that records its own invocation at the end of a trace. -/
def recordDraw (Child : GUI_OBJ) (t : List DrawCall) (BaseX BaseY : Int)
    (OffsetX OffsetY Width Height : Nat) : List DrawCall :=
  t ++ [{ Obj := Child, BaseX := BaseX, BaseY := BaseY, OffsetX := OffsetX,
          OffsetY := OffsetY, Width := Width, Height := Height }]

/-- The call of `Draw` that `GuiObjDrawDelegate` makes for `Child`, if any. -/
def childDrawCall (Child : GUI_OBJ) (BaseX BaseY : Int) (OffsetX OffsetY Width Height : Nat) :
    Option DrawCall :=
  (GuiObjDrawDelegateChild (fun C _ bx by_ ox oy w h =>
      some { Obj := C, BaseX := bx, BaseY := by_, OffsetX := ox, OffsetY := oy,
             Width := w, Height := h })
    Child none BaseX BaseY OffsetX OffsetY Width Height)

/-- A screen buffer that remembers, for every pixel, the object that painted it last. -/
def PaintBuffer : Type := Int → Int → Option Nat

/-- An opaque `Draw` callback: the object overwrites every pixel of the region it is
asked to draw, `[BaseX+OffsetX, +Width) x [BaseY+OffsetY, +Height)`, with its own mark. -/
def paintOpaque (Child : GUI_OBJ) (b : PaintBuffer) (BaseX BaseY : Int)
    (OffsetX OffsetY Width Height : Nat) : PaintBuffer :=
  fun px py =>
    if BaseX + OffsetX ≤ px ∧ px < BaseX + OffsetX + Width ∧
       BaseY + OffsetY ≤ py ∧ py < BaseY + OffsetY + Height then
      some Child.Id
    else
      b px py

/-! ## Scene graph: pointer events -/

/-- The enumeration `GUI_PTR_EVENT` (declared in `OpenCanopy.h`); the three values that
`OpenCanopy.c` uses. -/
inductive GUI_PTR_EVENT where
  | GuiPointerPrimaryDown
  | GuiPointerPrimaryHold
  | GuiPointerPrimaryUp
  deriving DecidableEq, Repr

/-- A pointer to a scene object together with the chain of `Parent` pointers that
`GuiGetBaseCoords` follows from it: either the screen object (`DrawContext->Screen`) or
an object `Obj` embedded in a `GUI_OBJ_CHILD` whose `Parent` is the next reference. -/
inductive GUI_OBJ_REF where
  | Screen
  | Child (Obj : GUI_OBJ) (Parent : GUI_OBJ_REF)
  deriving DecidableEq, Repr

/-- The function `GuiObjDelegatePtrEvent` of the object `This`, over its child list in
list order (`GetFirstNode`, `GetNextNode`).  `PtrEvent Ref s ...` runs the `PtrEvent`
callback of the object `Ref` in state `s` and gives the new state and the returned
object pointer (`none` is `NULL`).  All position arguments are `INT64`. -/
def GuiObjDelegatePtrEvent {σ : Type}
    (PtrEvent : GUI_OBJ_REF → σ → GUI_PTR_EVENT → Int → Int → Int → Int → σ × Option GUI_OBJ_REF)
    (This : GUI_OBJ_REF) :
    (Children : List GUI_OBJ) → σ → GUI_PTR_EVENT → Int → Int → Int → Int →
      σ × Option GUI_OBJ_REF
  | [], s, _, _, _, _, _ => (s, none)
  | Child :: Rest, s, Event, BaseX, BaseY, OffsetX, OffsetY =>
    if OffsetX < Child.OffsetX
        ∨ OffsetX ≥ toINT64 (Child.OffsetX + Child.Width)
        ∨ OffsetY < Child.OffsetY
        ∨ OffsetY ≥ toINT64 (Child.OffsetY + Child.Height) then
      GuiObjDelegatePtrEvent PtrEvent This Rest s Event BaseX BaseY OffsetX OffsetY
    else
      match PtrEvent (GUI_OBJ_REF.Child Child This) s Event
          (toINT64 (BaseX + Child.OffsetX)) (toINT64 (BaseY + Child.OffsetY))
          (toINT64 (OffsetX - Child.OffsetX)) (toINT64 (OffsetY - Child.OffsetY)) with
      | (s1, some Obj) => (s1, some Obj)
      | (s1, none) =>
        GuiObjDelegatePtrEvent PtrEvent This Rest s1 Event BaseX BaseY OffsetX OffsetY

/-- One invocation of a `PtrEvent` callback: the object, the event, the four position
arguments and the returned object pointer. -/
structure PtrCall where
  Obj : GUI_OBJ_REF
  Event : GUI_PTR_EVENT
  BaseX : Int
  BaseY : Int
  OffsetX : Int
  OffsetY : Int
  Result : Option GUI_OBJ_REF
  deriving DecidableEq, Repr

/-- A `PtrEvent` callback instrumented with a log: it runs the callback and appends its
invocation, with the returned pointer, to the log. -/
def recordPtr {σ : Type}
    (PtrEvent : GUI_OBJ_REF → σ → GUI_PTR_EVENT → Int → Int → Int → Int → σ × Option GUI_OBJ_REF)
    (Ref : GUI_OBJ_REF) (st : σ × List PtrCall) (Event : GUI_PTR_EVENT)
    (BaseX BaseY OffsetX OffsetY : Int) : (σ × List PtrCall) × Option GUI_OBJ_REF :=
  ((( PtrEvent Ref st.1 Event BaseX BaseY OffsetX OffsetY).1,
    st.2 ++ [{ Obj := Ref, Event := Event, BaseX := BaseX, BaseY := BaseY,
               OffsetX := OffsetX, OffsetY := OffsetY,
               Result := (PtrEvent Ref st.1 Event BaseX BaseY OffsetX OffsetY).2 }]),
   (PtrEvent Ref st.1 Event BaseX BaseY OffsetX OffsetY).2)

/-- The bounds of `Child` contain the point `(OffsetX, OffsetY)`:
`Child.Offset <= Offset < Child.Offset + Child.Size` on both axes. -/
def ChildContains (OffsetX OffsetY : Int) (Child : GUI_OBJ) : Prop :=
  Child.OffsetX ≤ OffsetX ∧ OffsetX < Child.OffsetX + Child.Width ∧
  Child.OffsetY ≤ OffsetY ∧ OffsetY < Child.OffsetY + Child.Height

instance (OffsetX OffsetY : Int) (Child : GUI_OBJ) :
    Decidable (ChildContains OffsetX OffsetY Child) := by
  unfold ChildContains; infer_instance

/-- A mathematical integer is representable as `INT64`. -/
def InINT64 (z : Int) : Prop := -9223372036854775808 ≤ z ∧ z < 9223372036854775808

instance (z : Int) : Decidable (InINT64 z) := by
  unfold InINT64; infer_instance

/-- No `INT64` computation of `GuiObjDelegatePtrEvent` for `Child` overflows. -/
def PtrEventInRange (BaseX BaseY OffsetX OffsetY : Int) (Child : GUI_OBJ) : Prop :=
  InINT64 (Child.OffsetX + Child.Width) ∧ InINT64 (Child.OffsetY + Child.Height) ∧
  InINT64 (BaseX + Child.OffsetX) ∧ InINT64 (BaseY + Child.OffsetY) ∧
  InINT64 (OffsetX - Child.OffsetX) ∧ InINT64 (OffsetY - Child.OffsetY)

instance (BaseX BaseY OffsetX OffsetY : Int) (Child : GUI_OBJ) :
    Decidable (PtrEventInRange BaseX BaseY OffsetX OffsetY Child) := by
  unfold PtrEventInRange; infer_instance

/-- The invocation that `GuiObjDelegatePtrEvent` makes for a child that contains the
point, without the returned pointer: the base is increased and the offset is reduced by
the child's own offset. -/
def childPtrArgs (This : GUI_OBJ_REF) (Event : GUI_PTR_EVENT) (BaseX BaseY OffsetX OffsetY : Int)
    (Child : GUI_OBJ) : GUI_OBJ_REF × GUI_PTR_EVENT × Int × Int × Int × Int :=
  (GUI_OBJ_REF.Child Child This, Event, BaseX + Child.OffsetX, BaseY + Child.OffsetY,
   OffsetX - Child.OffsetX, OffsetY - Child.OffsetY)

/-- The arguments of a logged invocation. -/
def PtrCall.args (c : PtrCall) : GUI_OBJ_REF × GUI_PTR_EVENT × Int × Int × Int × Int :=
  (c.Obj, c.Event, c.BaseX, c.BaseY, c.OffsetX, c.OffsetY)

/-- The loop of `GuiGetBaseCoords`: `X` and `Y` accumulate the offsets of the object and
of its ancestors while `Obj != DrawContext->Screen`, following `ChildObj->Parent`. -/
def GuiGetBaseCoordsLoop : GUI_OBJ_REF → Int → Int → Int × Int
  | GUI_OBJ_REF.Screen, X, Y => (X, Y)
  | GUI_OBJ_REF.Child Obj Parent, X, Y =>
    GuiGetBaseCoordsLoop Parent (toINT64 (X + Obj.OffsetX)) (toINT64 (Y + Obj.OffsetY))

/-- The function `GuiGetBaseCoords`: the pair `(*BaseX, *BaseY)`. -/
def GuiGetBaseCoords (This : GUI_OBJ_REF) : Int × Int :=
  GuiGetBaseCoordsLoop This 0 0

/-- Modelled from the spec: the structure `GUI_POINTER_STATE` is declared in `GuiIo.h`,
which is not among the sources.  The pointer device reports `(x, y,
primaryButtonDown)`; `X` and `Y` are `UINT32`. -/
structure GUI_POINTER_STATE where
  X : Nat
  Y : Nat
  PrimaryDown : Bool
  deriving DecidableEq, Repr

/-- The pointer part of one iteration of `GuiDrawLoop`, from the poll
`GuiPointerGetState` (whose result is `PointerState`) to the end of the
`mPointerContext != NULL` block.  `HoldObject` is the local variable of that name
(`none` is `NULL`); the result is the state after the callbacks and the new value of
`HoldObject`. -/
def GuiDrawLoopPointer {σ : Type}
    (PtrEvent : GUI_OBJ_REF → σ → GUI_PTR_EVENT → Int → Int → Int → Int → σ × Option GUI_OBJ_REF)
    (ScreenChildren : List GUI_OBJ) (s : σ) (HoldObject : Option GUI_OBJ_REF)
    (PointerState : GUI_POINTER_STATE) : σ × Option GUI_OBJ_REF :=
  let r : σ × Option GUI_OBJ_REF :=
    if PointerState.PrimaryDown = true ∧ HoldObject = none then
      GuiObjDelegatePtrEvent PtrEvent GUI_OBJ_REF.Screen ScreenChildren s
        GUI_PTR_EVENT.GuiPointerPrimaryDown 0 0 PointerState.X PointerState.Y
    else
      (s, HoldObject)
  match r.2 with
  | none => (r.1, none)
  | some Hold =>
    let HoldObjBase := GuiGetBaseCoords Hold
    let s2 := (PtrEvent Hold r.1
      (if PointerState.PrimaryDown = false then GUI_PTR_EVENT.GuiPointerPrimaryUp
       else GUI_PTR_EVENT.GuiPointerPrimaryHold)
      HoldObjBase.1 HoldObjBase.2
      (toINT64 (PointerState.X - HoldObjBase.1))
      (toINT64 (PointerState.Y - HoldObjBase.2))).1
    (s2, if PointerState.PrimaryDown = false then none else some Hold)

/-- The pointer parts of successive iterations of `GuiDrawLoop`, one for every polled
pointer state of the list. -/
def GuiDrawLoopPointerRun {σ : Type}
    (PtrEvent : GUI_OBJ_REF → σ → GUI_PTR_EVENT → Int → Int → Int → Int → σ × Option GUI_OBJ_REF)
    (ScreenChildren : List GUI_OBJ) :
    List GUI_POINTER_STATE → σ → Option GUI_OBJ_REF → σ × Option GUI_OBJ_REF
  | [], s, HoldObject => (s, HoldObject)
  | PointerState :: Rest, s, HoldObject =>
    GuiDrawLoopPointerRun PtrEvent ScreenChildren Rest
      (GuiDrawLoopPointer PtrEvent ScreenChildren s HoldObject PointerState).1
      (GuiDrawLoopPointer PtrEvent ScreenChildren s HoldObject PointerState).2

/-- A `PtrEvent` callback without state of its own whose object claims every event: it
returns the object itself. -/
def claimPtr (Ref : GUI_OBJ_REF) (s : Unit) (_Event : GUI_PTR_EVENT)
    (_BaseX _BaseY _OffsetX _OffsetY : Int) : Unit × Option GUI_OBJ_REF :=
  (s, some Ref)

/-- The log entry of the event that `GuiDrawLoop` delivers to the held object `Hold` in
state `s`: the object's base coordinates from `GuiGetBaseCoords` and the offset `pointer
position - base`. -/
def heldPtrCall {σ : Type}
    (PtrEvent : GUI_OBJ_REF → σ → GUI_PTR_EVENT → Int → Int → Int → Int → σ × Option GUI_OBJ_REF)
    (Hold : GUI_OBJ_REF) (s : σ) (Event : GUI_PTR_EVENT) (PointerState : GUI_POINTER_STATE) :
    PtrCall :=
  { Obj := Hold, Event := Event,
    BaseX := (GuiGetBaseCoords Hold).1, BaseY := (GuiGetBaseCoords Hold).2,
    OffsetX := PointerState.X - (GuiGetBaseCoords Hold).1,
    OffsetY := PointerState.Y - (GuiGetBaseCoords Hold).2,
    Result := (PtrEvent Hold s Event (GuiGetBaseCoords Hold).1 (GuiGetBaseCoords Hold).2
      (PointerState.X - (GuiGetBaseCoords Hold).1)
      (PointerState.Y - (GuiGetBaseCoords Hold).2)).2 }

/-- The state after the event that `GuiDrawLoop` delivers to the held object `Hold` in
state `s`. -/
def heldPtrState {σ : Type}
    (PtrEvent : GUI_OBJ_REF → σ → GUI_PTR_EVENT → Int → Int → Int → Int → σ × Option GUI_OBJ_REF)
    (Hold : GUI_OBJ_REF) (s : σ) (Event : GUI_PTR_EVENT) (PointerState : GUI_POINTER_STATE) : σ :=
  (PtrEvent Hold s Event (GuiGetBaseCoords Hold).1 (GuiGetBaseCoords Hold).2
    (PointerState.X - (GuiGetBaseCoords Hold).1)
    (PointerState.Y - (GuiGetBaseCoords Hold).2)).1

/-- The request `R` is merged by `GuiRequestDraw` into slot `i` of the queue `q`: entry
`i` is the first of the valid entries that passes the test of the loop. -/
def MergesInto (q : DrawQueue) (R : GUI_DRAW_REQUEST) (i : Nat) : Prop :=
  i < q.mNumValidDrawReqs ∧
  GuiRequestDrawMerges (q.entry i) R.X R.Y R.Width R.Height = true ∧
  ∀ j, j < i → GuiRequestDrawMerges (q.entry j) R.X R.Y R.Width R.Height = false

instance (q : DrawQueue) (R : GUI_DRAW_REQUEST) (i : Nat) : Decidable (MergesInto q R i) := by
  unfold MergesInto; infer_instance

/-! ## Pixel blitter -/

/-- The UEFI type `EFI_GRAPHICS_OUTPUT_BLT_PIXEL`: four `UINT8` channels, in memory
order. -/
structure EFI_GRAPHICS_OUTPUT_BLT_PIXEL where
  Blue : Nat
  Green : Nat
  Red : Nat
  Reserved : Nat
  deriving DecidableEq, Repr, Inhabited

/-- Every channel of the pixel is a `UINT8`. -/
def EFI_GRAPHICS_OUTPUT_BLT_PIXEL.Valid (p : EFI_GRAPHICS_OUTPUT_BLT_PIXEL) : Prop :=
  p.Blue < 256 ∧ p.Green < 256 ∧ p.Red < 256 ∧ p.Reserved < 256

instance (p : EFI_GRAPHICS_OUTPUT_BLT_PIXEL) : Decidable p.Valid := by
  unfold EFI_GRAPHICS_OUTPUT_BLT_PIXEL.Valid; infer_instance

/-- A pixel buffer (`mScreenBuffer`, `Image->Buffer`) as the map from the index of a cell
to the pixel stored there. -/
def PixelBuffer : Type := Nat → EFI_GRAPHICS_OUTPUT_BLT_PIXEL

/-- Modelled from the spec: the structure `GUI_IMAGE` is declared in `OpenCanopy.h`, which
is not among the sources.  A pixel image is a rectangular buffer of pixels with `Width`
and `Height` (`UINT32`), stored row by row. -/
structure GUI_IMAGE where
  Width : Nat
  Height : Nat
  Buffer : PixelBuffer

/-- The macro `PIXEL_TO_UINT32`: `SIGNATURE_32 (Blue, Green, Red, Reserved)`, which puts
the four `UINT8` channels into the four bytes of a `UINT32`, `Blue` lowest. -/
def PIXEL_TO_UINT32 (Pixel : EFI_GRAPHICS_OUTPUT_BLT_PIXEL) : Nat :=
  (Pixel.Blue + Pixel.Green * 256 + Pixel.Red * 65536 + Pixel.Reserved * 16777216) % 4294967296

/-- The pixel that a buffer cell holds after the 32-bit value `Value` has been stored in
it (little-endian byte order). -/
def UINT32_TO_PIXEL (Value : Nat) : EFI_GRAPHICS_OUTPUT_BLT_PIXEL :=
  { Blue := Value % 256, Green := Value / 256 % 256, Red := Value / 65536 % 256,
    Reserved := Value / 16777216 % 256 }

/-- The library function `SetMem32 (Buffer, Length, Value)` on a pixel buffer: it fills
the `Length / 4` cells from the cell `Start` on with the 32-bit value `Value`. -/
def SetMem32 (b : PixelBuffer) (Start Length Value : Nat) : PixelBuffer :=
  fun k => if Start ≤ k ∧ k < Start + Length / 4 then UINT32_TO_PIXEL Value else b k

/-- The loop of `GuiDrawToBufferFill` over the rows, with `Remaining = Height - RowIndex`
iterations to go. -/
def GuiDrawToBufferFillRows (Image : GUI_IMAGE) (ScreenWidth PosX Width : Nat) :
    (Remaining : Nat) → (TargetRowOffset : Nat) → PixelBuffer → PixelBuffer
  | 0, _, b => b
  | Remaining + 1, TargetRowOffset, b =>
    GuiDrawToBufferFillRows Image ScreenWidth PosX Width Remaining
      (add32 TargetRowOffset ScreenWidth)
      (SetMem32 b (add32 TargetRowOffset PosX) (Width * 4 % 18446744073709551616)
        (PIXEL_TO_UINT32 (Image.Buffer 0)))

/-- The function `GuiDrawToBufferFill`; `ScreenWidth` is `DrawContext->Screen->Width` and
`b` is the screen buffer `mScreenBuffer`. -/
def GuiDrawToBufferFill (Image : GUI_IMAGE) (ScreenWidth : Nat) (b : PixelBuffer)
    (PosX PosY Width Height : Nat) : PixelBuffer :=
  GuiDrawToBufferFillRows Image ScreenWidth PosX Width Height (mul32 PosY ScreenWidth) b

/-- The inner loop of `GuiDrawToBuffer` over the columns of one row, with `Remaining`
iterations to go.  `Blend s Target Source` is the state after the blend primitive has
run on the screen cell of index `Target` and the image cell of index `Source`. -/
def GuiDrawToBufferRow {σ : Type} (Blend : σ → Nat → Nat → σ)
    (TargetRowOffset SourceRowOffset : Nat) :
    (Remaining : Nat) → (TargetColumnOffset SourceColumnOffset : Nat) → σ → σ
  | 0, _, _, s => s
  | Remaining + 1, TargetColumnOffset, SourceColumnOffset, s =>
    GuiDrawToBufferRow Blend TargetRowOffset SourceRowOffset Remaining
      (add32 TargetColumnOffset 1) (add32 SourceColumnOffset 1)
      (Blend s (add32 TargetRowOffset TargetColumnOffset)
        (add32 SourceRowOffset SourceColumnOffset))

/-- The outer loop of `GuiDrawToBuffer` over the rows, with `Remaining = Height -
RowIndex` iterations to go; `Columns` is the number of iterations of the inner loop. -/
def GuiDrawToBufferRows {σ : Type} (Blend : σ → Nat → Nat → σ)
    (ImageWidth ScreenWidth PosX OffsetX Columns : Nat) :
    (Remaining : Nat) → (SourceRowOffset TargetRowOffset : Nat) → σ → σ
  | 0, _, _, s => s
  | Remaining + 1, SourceRowOffset, TargetRowOffset, s =>
    GuiDrawToBufferRows Blend ImageWidth ScreenWidth PosX OffsetX Columns Remaining
      (add32 SourceRowOffset ImageWidth) (add32 TargetRowOffset ScreenWidth)
      (GuiDrawToBufferRow Blend TargetRowOffset SourceRowOffset Columns PosX OffsetX s)

/-- The function `GuiDrawToBuffer` over a state `s` that holds the screen buffer.
`GuiBlendPixelSolid s Target Source` and `GuiBlendPixelOpaque s Target Source Opacity`
are the two blend primitives applied to the screen cell `Target` and the image cell
`Source`; `ImageWidth`, `ImageHeight` are the dimensions of `Image` and `ScreenWidth` is
`DrawContext->Screen->Width`.  `Opacity` is a `UINT8`, `BaseX`, `BaseY` are `INT64`. -/
def GuiDrawToBuffer {σ : Type} (GuiBlendPixelSolid : σ → Nat → Nat → σ)
    (GuiBlendPixelOpaque : σ → Nat → Nat → Nat → σ)
    (ImageWidth ImageHeight Opacity ScreenWidth : Nat) (s : σ) (BaseX BaseY : Int)
    (OffsetX OffsetY Width Height : Nat) : σ :=
  let PosX := toUINT32 (toINT64 (BaseX + OffsetX))
  let PosY := toUINT32 (toINT64 (BaseY + OffsetY))
  if Opacity = 0 then
    s
  else
    let Width := min Width (sub32 ImageWidth OffsetX)
    let Height := min Height (sub32 ImageHeight OffsetY)
    if Width = 0 ∨ Height = 0 then
      s
    else if Opacity = 255 then
      GuiDrawToBufferRows GuiBlendPixelSolid ImageWidth ScreenWidth PosX OffsetX
        (add32 PosX Width - PosX) Height (mul32 OffsetY ImageWidth) (mul32 PosY ScreenWidth) s
    else
      GuiDrawToBufferRows (fun s Target Source => GuiBlendPixelOpaque s Target Source Opacity)
        ImageWidth ScreenWidth PosX OffsetX
        (add32 PosX Width - PosX) Height (mul32 OffsetY ImageWidth) (mul32 PosY ScreenWidth) s

/-- A blend primitive on pixel buffers: the screen cell `Target` becomes the blend of its
old pixel with the image pixel of index `Source`; `BlendPixel` is the blend of two
pixels. -/
def blendAt (BlendPixel : EFI_GRAPHICS_OUTPUT_BLT_PIXEL → EFI_GRAPHICS_OUTPUT_BLT_PIXEL →
      EFI_GRAPHICS_OUTPUT_BLT_PIXEL)
    (Image : GUI_IMAGE) (b : PixelBuffer) (Target Source : Nat) : PixelBuffer :=
  fun k => if k = Target then BlendPixel (b Target) (Image.Buffer Source) else b k

/-- The function `GuiDrawToBuffer` on the screen buffer `b`, for given blends of two
pixels `BlendSolid` (`GuiBlendPixelSolid`) and `BlendOpaque` (`GuiBlendPixelOpaque`). -/
def GuiDrawToBufferPixels
    (BlendSolid : EFI_GRAPHICS_OUTPUT_BLT_PIXEL → EFI_GRAPHICS_OUTPUT_BLT_PIXEL →
      EFI_GRAPHICS_OUTPUT_BLT_PIXEL)
    (BlendOpaque : EFI_GRAPHICS_OUTPUT_BLT_PIXEL → EFI_GRAPHICS_OUTPUT_BLT_PIXEL → Nat →
      EFI_GRAPHICS_OUTPUT_BLT_PIXEL)
    (Image : GUI_IMAGE) (Opacity ScreenWidth : Nat) (b : PixelBuffer) (BaseX BaseY : Int)
    (OffsetX OffsetY Width Height : Nat) : PixelBuffer :=
  GuiDrawToBuffer (blendAt BlendSolid Image)
    (fun b Target Source Opacity =>
      blendAt (fun p q => BlendOpaque p q Opacity) Image b Target Source)
    Image.Width Image.Height Opacity ScreenWidth b BaseX BaseY OffsetX OffsetY Width Height

/-- The indices of the image cells that `GuiDrawToBuffer` reads, in the order of the
reads: both blend primitives record the index `Source` they are given. -/
def GuiDrawToBufferReads (ImageWidth ImageHeight Opacity ScreenWidth : Nat) (BaseX BaseY : Int)
    (OffsetX OffsetY Width Height : Nat) : List Nat :=
  GuiDrawToBuffer (fun l _ Source => l ++ [Source]) (fun l _ Source _ => l ++ [Source])
    ImageWidth ImageHeight Opacity ScreenWidth [] BaseX BaseY OffsetX OffsetY Width Height

/-- The reference compositor of the spec: the blend of two pixels that `DrawImage` uses
for a given opacity, solid for `255` and uniform-opacity otherwise. -/
def referenceBlend
    (BlendSolid : EFI_GRAPHICS_OUTPUT_BLT_PIXEL → EFI_GRAPHICS_OUTPUT_BLT_PIXEL →
      EFI_GRAPHICS_OUTPUT_BLT_PIXEL)
    (BlendOpaque : EFI_GRAPHICS_OUTPUT_BLT_PIXEL → EFI_GRAPHICS_OUTPUT_BLT_PIXEL → Nat →
      EFI_GRAPHICS_OUTPUT_BLT_PIXEL)
    (Opacity : Nat) (p q : EFI_GRAPHICS_OUTPUT_BLT_PIXEL) : EFI_GRAPHICS_OUTPUT_BLT_PIXEL :=
  if Opacity = 255 then BlendSolid p q else BlendOpaque p q Opacity

/-! ## Draw delegation: preconditions -/


/-- The preconditions under which `GuiObjDrawDelegate` is called: the request starts
inside the object (`ASSERT (This->Width > OffsetX)`, `ASSERT (This->Height > OffsetY)`) and
has positive `UINT32` width and height, every child has a positive `UINT32` size and an
`INT64` offset below `2^32`, and the base coordinates of the children are representable
as `INT64`. -/
def DrawDelegateValid (This : GUI_OBJ) (Children : List GUI_OBJ) (BaseX BaseY : Int)
    (OffsetX OffsetY Width Height : Nat) : Prop :=
  OffsetX < This.Width ∧ This.Width < 4294967296 ∧
  OffsetY < This.Height ∧ This.Height < 4294967296 ∧
  0 < Width ∧ Width < 4294967296 ∧ 0 < Height ∧ Height < 4294967296 ∧
  ∀ Child ∈ Children,
    -9223372036854775808 ≤ Child.OffsetX ∧ Child.OffsetX < 4294967296 ∧
    0 < Child.Width ∧ Child.Width < 4294967296 ∧
    -9223372036854775808 ≤ Child.OffsetY ∧ Child.OffsetY < 4294967296 ∧
    0 < Child.Height ∧ Child.Height < 4294967296 ∧
    InINT64 (BaseX + Child.OffsetX) ∧ InINT64 (BaseY + Child.OffsetY)

instance (This : GUI_OBJ) (Children : List GUI_OBJ) (BaseX BaseY : Int)
    (OffsetX OffsetY Width Height : Nat) :
    Decidable (DrawDelegateValid This Children BaseX BaseY OffsetX OffsetY Width Height) := by
  unfold DrawDelegateValid; infer_instance

/-! ## Damage queue: tiling and coverage -/

/-- The rectangles `E` and `R` are edge-adjacent with equal extent along the shared
edge: side by side with the same rows, or one above the other with the same columns. -/
def TilesBounding (E R : GUI_DRAW_REQUEST) : Prop :=
  (E.Y = R.Y ∧ E.Height = R.Height ∧ (E.X + E.Width = R.X ∨ R.X + R.Width = E.X)) ∨
  (E.X = R.X ∧ E.Width = R.Width ∧ (E.Y + E.Height = R.Y ∨ R.Y + R.Height = E.Y))

instance (E R : GUI_DRAW_REQUEST) : Decidable (TilesBounding E R) := by
  unfold TilesBounding; infer_instance

/-- The pixel `(px, py)` lies in the rectangle `R`. -/
def GUI_DRAW_REQUEST.HasPixel (R : GUI_DRAW_REQUEST) (px py : Int) : Prop :=
  RectHasPixel R.X R.Y R.Width R.Height px py

/-- The pixel `(px, py)` is covered by one of the valid entries of the queue. -/
def DrawQueue.Covers (q : DrawQueue) (px py : Int) : Prop :=
  ∃ i, i < q.mNumValidDrawReqs ∧ (q.entry i).HasPixel px py

/-! ## Frame flush and pacing -/

/-- Addition of `UINT64` values. -/
def add64 (a b : Nat) : Nat := (a + b) % 18446744073709551616

/-- Subtraction of `UINT64` values. -/
def sub64 (a b : Nat) : Nat :=
  (a + 18446744073709551616 - b % 18446744073709551616) % 18446744073709551616

/-- Modelled from the spec: `AsmReadTsc` is a processor intrinsic, not among the sources.
The cycle counter is the list of the readings still to come; a read returns the first of
them, and `none` when the list is exhausted. -/
def AsmReadTsc : List Nat → Option (Nat × List Nat)
  | [] => none
  | Tsc :: Rest => some (Tsc, Rest)

/-- The loop `while ((Tsc = AsmReadTsc ()) < Ticks) CpuPause ();` of
`InternalCpuDelayTsc`; the result is the reading that ended the loop and the readings
still to come, or `none` when the readings are exhausted before the loop ends. -/
def InternalCpuDelayTscWait (Ticks : Nat) : List Nat → Option (Nat × List Nat)
  | [] => none
  | Tsc :: Rest =>
    if Tsc < Ticks then InternalCpuDelayTscWait Ticks Rest else some (Tsc, Rest)

/-- The function `InternalCpuDelayTsc`. -/
def InternalCpuDelayTsc (Delay : Nat) (Readings : List Nat) : Option (Nat × List Nat) :=
  match AsmReadTsc Readings with
  | none => none
  | some (Tsc, Rest) => InternalCpuDelayTscWait (add64 Tsc Delay) Rest

/-- The pacing part of `GuiFlushScreen`: the value of `EndTsc` after the optional
busy-wait, and the readings still to come. -/
def GuiFlushScreenTiming (mStartTsc mDeltaTscTarget : Nat) (Readings : List Nat) :
    Option (Nat × List Nat) :=
  match AsmReadTsc Readings with
  | none => none
  | some (EndTsc, Rest) =>
    let DeltaTsc := sub64 EndTsc mStartTsc
    if DeltaTsc < mDeltaTscTarget then
      InternalCpuDelayTsc (sub64 mDeltaTscTarget DeltaTsc) Rest
    else
      some (EndTsc, Rest)

/-- The globals that `GuiFlushScreen` and `GuiOverlayPointer` read and write: the damage
queue, `mStartTsc`, `mDeltaTscTarget`, `mCursorOldX` and `mCursorOldY`. -/
structure FlushGlobals where
  Queue : DrawQueue
  mStartTsc : Nat
  mDeltaTscTarget : Nat
  mCursorOldX : Nat
  mCursorOldY : Nat
  deriving DecidableEq, Repr

/-- Modelled from the spec: the UEFI type `EFI_GRAPHICS_OUTPUT_BLT_OPERATION` is declared
in the firmware headers, which are not among the sources. -/
inductive EFI_GRAPHICS_OUTPUT_BLT_OPERATION where
  | EfiBltVideoFill
  | EfiBltVideoToBltBuffer
  | EfiBltBufferToVideo
  | EfiBltVideoToVideo
  deriving DecidableEq, Repr

/-- The function `GuiOverlayPointer`.  `CursorWidth` and `CursorHeight` are the
dimensions of the image returned by `GetCursorImage`, `PointerState` is the state
reported by `GuiPointerGetState`, and the two blend primitives are those of
`GuiDrawToBuffer`.  The Boolean of the result is the `ASSERT (FALSE)` flag of
`GuiRequestDraw`. -/
def GuiOverlayPointer {σ : Type} (GuiBlendPixelSolid : σ → Nat → Nat → σ)
    (GuiBlendPixelOpaque : σ → Nat → Nat → Nat → σ)
    (CursorWidth CursorHeight ScreenWidth ScreenHeight : Nat)
    (PointerState : GUI_POINTER_STATE) (s : σ) (g : FlushGlobals) :
    σ × FlushGlobals × Bool :=
  let MaxWidth := min CursorWidth (sub32 ScreenWidth PointerState.X)
  let MaxHeight := min CursorHeight (sub32 ScreenHeight PointerState.Y)
  let s1 := GuiDrawToBuffer GuiBlendPixelSolid GuiBlendPixelOpaque CursorWidth CursorHeight
    255 ScreenWidth s PointerState.X PointerState.Y 0 0 MaxWidth MaxHeight
  let r := GuiRequestDraw g.Queue PointerState.X PointerState.Y MaxWidth MaxHeight
  (s1, { g with Queue := r.1, mCursorOldX := PointerState.X, mCursorOldY := PointerState.Y },
    r.2)

/-- The first loop of `GuiFlushScreen`: the root object's `Draw` is called for the queue
entries `Index`, `Index + 1`, ... with `Remaining` iterations to go.  `Draw s BaseX BaseY
OffsetX OffsetY Width Height` is the state after the call. -/
def GuiFlushScreenDraw {σ : Type} (Draw : σ → Int → Int → Nat → Nat → Nat → Nat → σ)
    (q : DrawQueue) : (Remaining : Nat) → (Index : Nat) → σ → σ
  | 0, _, s => s
  | Remaining + 1, Index, s =>
    GuiFlushScreenDraw Draw q Remaining (Index + 1)
      (Draw s 0 0 (q.entry Index).X (q.entry Index).Y (q.entry Index).Width
        (q.entry Index).Height)

/-- The second loop of `GuiFlushScreen`.  `GuiOutputBlt s BltOperation SourceX SourceY
DestinationX DestinationY Width Height` is the state after the call. -/
def GuiFlushScreenBlt {σ : Type}
    (GuiOutputBlt : σ → EFI_GRAPHICS_OUTPUT_BLT_OPERATION → Nat → Nat → Nat → Nat → Nat →
      Nat → σ)
    (q : DrawQueue) : (Remaining : Nat) → (Index : Nat) → σ → σ
  | 0, _, s => s
  | Remaining + 1, Index, s =>
    GuiFlushScreenBlt GuiOutputBlt q Remaining (Index + 1)
      (GuiOutputBlt s EFI_GRAPHICS_OUTPUT_BLT_OPERATION.EfiBltBufferToVideo
        (q.entry Index).X (q.entry Index).Y (q.entry Index).X (q.entry Index).Y
        (q.entry Index).Width (q.entry Index).Height)

/-- What a call of `GuiFlushScreen` leaves: the state of the callbacks, the globals, the
counter readings still to come and the `ASSERT (FALSE)` flag of `GuiRequestDraw`. -/
structure FlushResult (σ : Type) where
  State : σ
  Globals : FlushGlobals
  Readings : List Nat
  Asserted : Bool

/-- The function `GuiFlushScreen`.  The callbacks act on the state `s` and have no access
to the globals; `mPointerContext` is `none` for `NULL` and otherwise holds the state that
`GuiPointerGetState` reports; raising the task priority and masking interrupts are not
modelled.  The result is `none` when the counter readings are exhausted before the
busy-wait ends. -/
def GuiFlushScreen {σ : Type} (Draw : σ → Int → Int → Nat → Nat → Nat → Nat → σ)
    (GuiBlendPixelSolid : σ → Nat → Nat → σ)
    (GuiBlendPixelOpaque : σ → Nat → Nat → Nat → σ)
    (GuiOutputBlt : σ → EFI_GRAPHICS_OUTPUT_BLT_OPERATION → Nat → Nat → Nat → Nat → Nat →
      Nat → σ)
    (CursorWidth CursorHeight ScreenWidth ScreenHeight : Nat)
    (mPointerContext : Option GUI_POINTER_STATE) (s : σ) (g : FlushGlobals)
    (Readings : List Nat) : Option (FlushResult σ) :=
  let s1 := GuiFlushScreenDraw Draw g.Queue g.Queue.mNumValidDrawReqs 0 s
  match GuiFlushScreenTiming g.mStartTsc g.mDeltaTscTarget Readings with
  | none => none
  | some (EndTsc, Rest) =>
    let o : σ × FlushGlobals × Bool :=
      match mPointerContext with
      | some PointerState =>
        GuiOverlayPointer GuiBlendPixelSolid GuiBlendPixelOpaque CursorWidth CursorHeight
          ScreenWidth ScreenHeight PointerState s1 g
      | none => (s1, g, false)
    let s2 := GuiFlushScreenBlt GuiOutputBlt o.2.1.Queue o.2.1.Queue.mNumValidDrawReqs 0 o.1
    some { State := s2
           Globals :=
             { Queue := { mNumValidDrawReqs := 0, mDrawRequests := o.2.1.Queue.mDrawRequests }
               mStartTsc := EndTsc
               mDeltaTscTarget := o.2.1.mDeltaTscTarget
               mCursorOldX := o.2.1.mCursorOldX
               mCursorOldY := o.2.1.mCursorOldY }
           Readings := Rest
           Asserted := o.2.2 }

/-- One call made by `GuiFlushScreen`: a `Draw` of the root object or a `GuiOutputBlt`. -/
inductive FlushEvent where
  | Draw (BaseX BaseY : Int) (OffsetX OffsetY Width Height : Nat)
  | Blt (BltOperation : EFI_GRAPHICS_OUTPUT_BLT_OPERATION)
      (SourceX SourceY DestinationX DestinationY Width Height : Nat)
  deriving DecidableEq, Repr

/-- The `Draw` callback that appends its arguments to a log. -/
def recordFlushDraw (l : List FlushEvent) (BaseX BaseY : Int)
    (OffsetX OffsetY Width Height : Nat) : List FlushEvent :=
  l ++ [FlushEvent.Draw BaseX BaseY OffsetX OffsetY Width Height]

/-- The `GuiOutputBlt` callback that appends its arguments to a log. -/
def recordFlushBlt (l : List FlushEvent) (BltOperation : EFI_GRAPHICS_OUTPUT_BLT_OPERATION)
    (SourceX SourceY DestinationX DestinationY Width Height : Nat) : List FlushEvent :=
  l ++ [FlushEvent.Blt BltOperation SourceX SourceY DestinationX DestinationY Width Height]

/-- The valid entries of the queue, in index order. -/
def DrawQueue.valid (q : DrawQueue) : List GUI_DRAW_REQUEST :=
  (List.range q.mNumValidDrawReqs).map q.entry

/-- The call `Draw (Screen, 0, 0, R.X, R.Y, R.Width, R.Height)`. -/
def drawEvent (R : GUI_DRAW_REQUEST) : FlushEvent :=
  FlushEvent.Draw 0 0 R.X R.Y R.Width R.Height

/-- The buffer-to-video blit of the rectangle `R` with source = destination. -/
def bltEvent (R : GUI_DRAW_REQUEST) : FlushEvent :=
  FlushEvent.Blt EFI_GRAPHICS_OUTPUT_BLT_OPERATION.EfiBltBufferToVideo R.X R.Y R.X R.Y
    R.Width R.Height

/-! ## Animation pass -/

/-- Modelled from the spec: the structure `GUI_ANIMATION` is declared in `OpenCanopy.h`,
which is not among the sources.  An animation registration is `(state, perFrameCallback,
opaque context)` placed in an ordered list; `Id` stands for the registration, that is its
list node, its callback and its context. -/
structure GUI_ANIMATION where
  Id : Nat
  deriving DecidableEq, Repr

/-- The loop over `DrawContext->Animations` in `GuiDrawLoop`.  The first list holds the
nodes from `AnimEntry` to the end of the list, `Kept` the nodes before `AnimEntry` that
are still linked.  `Animate Animation s FrameTime` is the state after the call
`Animation->Animate (Animation->Context, DrawContext, FrameTime)` together with its
result; the callbacks act on the state `s` and have no access to the list.  The result
is the state and the list after the loop. -/
def GuiDrawLoopAnimateLoop {σ : Type} (Animate : GUI_ANIMATION → σ → Nat → σ × Bool)
    (FrameTime : Nat) : List GUI_ANIMATION → List GUI_ANIMATION → σ → σ × List GUI_ANIMATION
  | [], Kept, s => (s, Kept)
  | Animation :: Rest, Kept, s =>
    let r := Animate Animation s FrameTime
    if r.2 then
      GuiDrawLoopAnimateLoop Animate FrameTime Rest Kept r.1
    else
      GuiDrawLoopAnimateLoop Animate FrameTime Rest (Kept ++ [Animation]) r.1

/-- The animation pass of one iteration of `GuiDrawLoop`: the loop over the list followed
by `++FrameTime` on the `UINT64` counter.  The result is the state, the list and the
counter after the pass. -/
def GuiDrawLoopAnimate {σ : Type} (Animate : GUI_ANIMATION → σ → Nat → σ × Bool)
    (Animations : List GUI_ANIMATION) (FrameTime : Nat) (s : σ) :
    σ × List GUI_ANIMATION × Nat :=
  let r := GuiDrawLoopAnimateLoop Animate FrameTime Animations [] s
  (r.1, r.2, add64 FrameTime 1)

/-- One call of an `Animate` callback: the animation, the frame counter it was given and
the result it returned. -/
structure AnimateCall where
  Animation : GUI_ANIMATION
  FrameTime : Nat
  Result : Bool
  deriving DecidableEq, Repr

/-- The callback `Animate` made to append each of its calls to a log. -/
def recordAnimate {σ : Type} (Animate : GUI_ANIMATION → σ → Nat → σ × Bool)
    (Animation : GUI_ANIMATION) (s : σ × List AnimateCall) (FrameTime : Nat) :
    (σ × List AnimateCall) × Bool :=
  let r := Animate Animation s.1 FrameTime
  ((r.1, s.2 ++ [{ Animation := Animation, FrameTime := FrameTime, Result := r.2 }]), r.2)

/-! ## Library construction -/

/-- Modelled from the spec: the output context is declared in `GuiIo.h`, which is not
among the sources.  Of the output device only the mode information returned by
`GuiOutputGetInfo` is used. -/
structure GUI_OUTPUT_CONTEXT where
  HorizontalResolution : Nat
  VerticalResolution : Nat
  deriving DecidableEq, Repr

/-- Modelled from the spec: the pointer context is declared in `GuiIo.h`, which is not
among the sources; `Id` stands for the device. -/
structure GUI_POINTER_CONTEXT where
  Id : Nat
  deriving DecidableEq, Repr

/-- Modelled from the spec: the key context is declared in `GuiIo.h`, which is not among
the sources; `Id` stands for the device. -/
structure GUI_KEY_CONTEXT where
  Id : Nat
  deriving DecidableEq, Repr

/-- The three I/O devices, to name the destructor that was called. -/
inductive LibDevice where
  | Output
  | Pointer
  | Key
  deriving DecidableEq, Repr

/-- The globals that `GuiLibConstruct` and `GuiLibDestruct` write; `none` is `NULL`.
`Destructed` is the log of the destructor calls made so far. -/
structure LibGlobals where
  mOutputContext : Option GUI_OUTPUT_CONTEXT
  mPointerContext : Option GUI_POINTER_CONTEXT
  mKeyContext : Option GUI_KEY_CONTEXT
  mScreenBuffer : Option Nat
  mScreenBufferDelta : Nat
  mDeltaTscTarget : Nat
  Destructed : List LibDevice
  deriving DecidableEq, Repr

/-- The function `GuiLibDestruct`. -/
def GuiLibDestruct (g : LibGlobals) : LibGlobals :=
  let g1 :=
    match g.mOutputContext with
    | some _ => { g with mOutputContext := none, Destructed := g.Destructed ++ [LibDevice.Output] }
    | none => g
  let g2 :=
    match g1.mPointerContext with
    | some _ =>
      { g1 with mPointerContext := none, Destructed := g1.Destructed ++ [LibDevice.Pointer] }
    | none => g1
  match g2.mKeyContext with
  | some _ => { g2 with mKeyContext := none, Destructed := g2.Destructed ++ [LibDevice.Key] }
  | none => g2

/-- The destructor calls that tear down the devices held by the globals `g`. -/
def LibGlobals.devices (g : LibGlobals) : List LibDevice :=
  (if g.mOutputContext.isSome then [LibDevice.Output] else []) ++
  (if g.mPointerContext.isSome then [LibDevice.Pointer] else []) ++
  (if g.mKeyContext.isSome then [LibDevice.Key] else [])

/-! ## Smooth curve: symmetry check -/

/-- The two sums of eased fractions at mirrored fixed-point fractions, `n` with
`4096 - n` and `n` with `4095 - n`, lie between `3867` and `4096`. -/
def easedSymAt (n : Nat) : Bool :=
  decide (easedFraction n + easedFraction (4096 - n) ≤ 4096) &&
  decide (3867 ≤ easedFraction n + easedFraction (4096 - n)) &&
  decide (easedFraction n + easedFraction (4095 - n) ≤ 4096) &&
  decide (3867 ≤ easedFraction n + easedFraction (4095 - n))

/-- The check `easedSymAt` on the `2^k` fractions from `lo` on, by halving. -/
def easedSymRange : Nat → Nat → Bool
  | 0, lo => easedSymAt lo
  | k + 1, lo => easedSymRange k lo && easedSymRange k (lo + 2 ^ k)

/-! ## Damage queue: invariant -/

/-- The invariant of the damage queue on a screen of `ScreenWidth` by `ScreenHeight`
pixels: the array has its 4 elements, at most 4 of them are valid, and every valid entry
has positive width and height and lies inside the screen. -/
def QueueInScreen (ScreenWidth ScreenHeight : Nat) (q : DrawQueue) : Prop :=
  q.mDrawRequests.length = 4 ∧ q.mNumValidDrawReqs ≤ 4 ∧
  ∀ i, i < q.mNumValidDrawReqs → InScreen ScreenWidth ScreenHeight (q.entry i)

instance (ScreenWidth ScreenHeight : Nat) (q : DrawQueue) :
    Decidable (QueueInScreen ScreenWidth ScreenHeight q) := by
  unfold QueueInScreen; infer_instance

/-- The assertions `Screen->Width >= PosX`, `Screen->Height >= PosY`, `PosX + Width <=
Screen->Width`, `PosY + Height <= Screen->Height`, `Width > 0` and `Height > 0` that
`GuiDrawToBuffer` and `GuiDrawToBufferFill` make, for the rectangle `R` drawn at base
`(0, 0)`. -/
def DrawAssertions (ScreenWidth ScreenHeight : Nat) (R : GUI_DRAW_REQUEST) : Prop :=
  ScreenWidth ≥ R.X ∧ ScreenHeight ≥ R.Y ∧ R.X + R.Width ≤ ScreenWidth ∧
  R.Y + R.Height ≤ ScreenHeight ∧ R.Width > 0 ∧ R.Height > 0

instance (ScreenWidth ScreenHeight : Nat) (R : GUI_DRAW_REQUEST) :
    Decidable (DrawAssertions ScreenWidth ScreenHeight R) := by
  unfold DrawAssertions; infer_instance

/-! ## Kernel patch selection -/

/-- Modelled from the spec: the blob types `OC_DATA` and `OC_STRING` are declared in the
configuration headers, which are not among the sources.  A blob has the `Size` field that
`OcKernelApplyPatches` tests and the bytes that `OC_BLOB_GET` points to. -/
structure OC_BLOB where
  Size : Nat
  Data : List Nat
  deriving DecidableEq, Repr

/-- Modelled from the spec: the structure `OC_KERNEL_PATCH_ENTRY` is declared in the
configuration headers, which are not among the sources.  These are the fields that
`OcKernelApplyPatches` reads. -/
structure OC_KERNEL_PATCH_ENTRY where
  Disabled : Bool
  Identifier : OC_BLOB
  MatchKernel : OC_BLOB
  Base : OC_BLOB
  Find : OC_BLOB
  Replace : OC_BLOB
  Mask : OC_BLOB
  ReplaceMask : OC_BLOB
  Count : Nat
  Skip : Nat
  Limit : Nat
  deriving DecidableEq, Repr

/-- Modelled from the spec: the structure `PATCHER_GENERIC_PATCH` is declared in the
kernel library headers, which are not among the sources.  These are the fields that
`OcKernelApplyPatches` writes after `ZeroMem`; a pointer field is `none` when it is left
`NULL`. -/
structure PATCHER_GENERIC_PATCH where
  Base : Option (List Nat)
  Find : Option (List Nat)
  Replace : List Nat
  Mask : Option (List Nat)
  ReplaceMask : Option (List Nat)
  Size : Nat
  Count : Nat
  Skip : Nat
  Limit : Nat
  deriving DecidableEq, Repr

/-- The test of `OcKernelApplyPatches` under the comment `Ignore patch if:`; `true` when
the patch is ignored. -/
def OcKernelPatchIsBorked (UserPatch : OC_KERNEL_PATCH_ENTRY) : Bool :=
  decide (UserPatch.Replace.Size = 0) ||
  (decide (UserPatch.Base.Size = 0) && decide (UserPatch.Find.Size ≠ UserPatch.Replace.Size)) ||
  (decide (UserPatch.Mask.Size > 0) && decide (UserPatch.Find.Size ≠ UserPatch.Mask.Size)) ||
  (decide (UserPatch.ReplaceMask.Size > 0) &&
    decide (UserPatch.Find.Size ≠ UserPatch.ReplaceMask.Size))

/-- The generic patch that `OcKernelApplyPatches` builds from a user patch, from
`ZeroMem (&Patch, sizeof (Patch))` to `Patch.Limit = UserPatch->Limit`. -/
def OcKernelBuildPatch (UserPatch : OC_KERNEL_PATCH_ENTRY) : PATCHER_GENERIC_PATCH :=
  { Base := if UserPatch.Base.Size > 0 then some UserPatch.Base.Data else none
    Find := if UserPatch.Find.Size > 0 then some UserPatch.Find.Data else none
    Replace := UserPatch.Replace.Data
    Mask := if UserPatch.Mask.Size > 0 then some UserPatch.Mask.Data else none
    ReplaceMask :=
      if UserPatch.ReplaceMask.Size > 0 then some UserPatch.ReplaceMask.Data else none
    Size := UserPatch.Replace.Size
    Count := UserPatch.Count
    Skip := UserPatch.Skip
    Limit := UserPatch.Limit }

/-- One iteration of the loop of `OcKernelApplyPatches` over the user patches.
`TargetIsKernel Target` is the result of `AsciiStrCmp (Target, "kernel") == 0`,
`VersionDiffers MatchKernel` the result of `AsciiStrnCmp (DarwinVersion, MatchKernel,
MatchKernel.Size) != 0`, `PatcherInitContextFromPrelinked Target` the patcher context for
the kext `Target` or `none` on error, `Patcher` the context initialised from the kernel
buffer when `IsKernelPatch`, and `PatcherApplyGenericPatch s Patcher Patch` the state
after the call of that name.  These functions are defined outside the sources. -/
def OcKernelApplyPatchesStep {σ κ : Type}
    (TargetIsKernel : List Nat → Bool) (VersionDiffers : OC_BLOB → Bool)
    (PatcherInitContextFromPrelinked : List Nat → Option κ)
    (PatcherApplyGenericPatch : σ → κ → PATCHER_GENERIC_PATCH → σ)
    (IsKernelPatch : Bool) (Patcher : Option κ) (s : σ) (UserPatch : OC_KERNEL_PATCH_ENTRY) :
    σ :=
  let Target := UserPatch.Identifier.Data
  if UserPatch.Disabled || (TargetIsKernel Target != IsKernelPatch) then
    s
  else if VersionDiffers UserPatch.MatchKernel then
    s
  else
    let Context := if !IsKernelPatch then PatcherInitContextFromPrelinked Target else Patcher
    match Context with
    | none => s
    | some Patcher1 =>
      if OcKernelPatchIsBorked UserPatch then
        s
      else
        PatcherApplyGenericPatch s Patcher1 (OcKernelBuildPatch UserPatch)

/-- Modelled from the spec: the quirk patches that `OcKernelApplyPatches` applies to the
prelinked context after the loop are defined outside the sources. -/
inductive KernelQuirk where
  | AppleCpuPmCfgLock
  | ExternalDiskIcons
  | ThirdPartyTrim
  | XhciPortLimit
  deriving DecidableEq, Repr

/-- Modelled from the spec: the structure behind `Config->Kernel.Quirks` is declared in
the configuration headers, which are not among the sources.  These are the four flags
that `OcKernelApplyPatches` tests. -/
structure OC_KERNEL_QUIRKS where
  AppleCpuPmCfgLock : Bool
  ExternalDiskIcons : Bool
  ThirdPartyTrim : Bool
  XhciPortLimit : Bool
  deriving DecidableEq, Repr

/-- The four quirk tests at the end of `OcKernelApplyPatches`; `ApplyQuirk s Quirk` is
the state after the quirk patch of that name. -/
def OcKernelApplyQuirks {σ : Type} (ApplyQuirk : σ → KernelQuirk → σ)
    (Quirks : OC_KERNEL_QUIRKS) (s : σ) : σ :=
  let s1 := if Quirks.AppleCpuPmCfgLock then ApplyQuirk s KernelQuirk.AppleCpuPmCfgLock else s
  let s2 := if Quirks.ExternalDiskIcons then ApplyQuirk s1 KernelQuirk.ExternalDiskIcons else s1
  let s3 := if Quirks.ThirdPartyTrim then ApplyQuirk s2 KernelQuirk.ThirdPartyTrim else s2
  if Quirks.XhciPortLimit then ApplyQuirk s3 KernelQuirk.XhciPortLimit else s3

/-- The function `OcKernelApplyPatches`.  `IsKernelPatch` is `Context == NULL`,
`PatcherInitContextFromBuffer` the patcher context for the kernel buffer or `none` on
error, `Patches` the array `Config->Kernel.Patch.Values` and `Quirks` the flags
`Config->Kernel.Quirks`.  The lookup of a kext by `PatcherInitContextFromPrelinked` is
taken not to depend on the patches applied so far. -/
def OcKernelApplyPatches {σ κ : Type}
    (TargetIsKernel : List Nat → Bool) (VersionDiffers : OC_BLOB → Bool)
    (PatcherInitContextFromBuffer : Option κ)
    (PatcherInitContextFromPrelinked : List Nat → Option κ)
    (PatcherApplyGenericPatch : σ → κ → PATCHER_GENERIC_PATCH → σ)
    (ApplyQuirk : σ → KernelQuirk → σ)
    (IsKernelPatch : Bool) (Patches : List OC_KERNEL_PATCH_ENTRY) (Quirks : OC_KERNEL_QUIRKS)
    (s : σ) : σ :=
  if IsKernelPatch && PatcherInitContextFromBuffer.isNone then
    s
  else
    let s1 := Patches.foldl
      (OcKernelApplyPatchesStep TargetIsKernel VersionDiffers PatcherInitContextFromPrelinked
        PatcherApplyGenericPatch IsKernelPatch
        (if IsKernelPatch then PatcherInitContextFromBuffer else none)) s
    if !IsKernelPatch then OcKernelApplyQuirks ApplyQuirk Quirks s1 else s1

/-- The callback `PatcherApplyGenericPatch` that appends the patch it is given to a
log. -/
def recordPatch {κ : Type} (l : List PATCHER_GENERIC_PATCH) (_Patcher : κ)
    (Patch : PATCHER_GENERIC_PATCH) : List PATCHER_GENERIC_PATCH :=
  l ++ [Patch]

/-- An enabled user patch whose target and version match, and for which a patcher
context is available. -/
def OcKernelPatchSelected {κ : Type}
    (TargetIsKernel : List Nat → Bool) (VersionDiffers : OC_BLOB → Bool)
    (PatcherInitContextFromPrelinked : List Nat → Option κ)
    (IsKernelPatch : Bool) (UserPatch : OC_KERNEL_PATCH_ENTRY) : Bool :=
  !UserPatch.Disabled && (TargetIsKernel UserPatch.Identifier.Data == IsKernelPatch) &&
  !VersionDiffers UserPatch.MatchKernel &&
  (IsKernelPatch || (PatcherInitContextFromPrelinked UserPatch.Identifier.Data).isSome)

/-- The rejection conditions in the words of the comment in `OcKernelApplyPatches`,
taken each on its own: nothing to replace; neither symbolic base nor find data; find and
replace mismatch in size; mask or replace mask present with a size other than that of
find. -/
def DocumentedRejection (UserPatch : OC_KERNEL_PATCH_ENTRY) : Prop :=
  UserPatch.Replace.Size = 0 ∨
  (UserPatch.Base.Size = 0 ∧ UserPatch.Find.Size = 0) ∨
  UserPatch.Find.Size ≠ UserPatch.Replace.Size ∨
  (UserPatch.Mask.Size > 0 ∧ UserPatch.Find.Size ≠ UserPatch.Mask.Size) ∨
  (UserPatch.ReplaceMask.Size > 0 ∧ UserPatch.Find.Size ≠ UserPatch.ReplaceMask.Size)

instance (UserPatch : OC_KERNEL_PATCH_ENTRY) : Decidable (DocumentedRejection UserPatch) := by
  unfold DocumentedRejection; infer_instance
/-! ## Kernel version string -/

/-- The bytes of the string literal `"Darwin Kernel Version "`, without its terminator;
their number is `L_STR_LEN ("Darwin Kernel Version ")`, that is `22`. -/
def DarwinKernelVersionPattern : List Nat :=
  [68, 97, 114, 119, 105, 110, 32, 75, 101, 114, 110, 101, 108, 32, 86, 101, 114, 115, 105,
    111, 110, 32]

/-- The loop of `OcKernelReadDarwinVersion`, with `Remaining = (DarwinVersionSize - 1) -
Index` iterations to go.  `Offset` is an `INT32`, compared with the `UINT32` `KernelSize`
after conversion to `UINT32`; `58` is `':'`.  The result is the buffer `DarwinVersion`
and the value of `Index` after the loop. -/
def OcKernelReadDarwinVersionLoop (Kernel : List Nat) (KernelSize : Nat) :
    (Remaining : Nat) → (Index : Nat) → (Offset : Int) → (DarwinVersion : List Nat) →
      List Nat × Nat
  | 0, Index, _, DarwinVersion => (DarwinVersion, Index)
  | Remaining + 1, Index, Offset, DarwinVersion =>
    if toUINT32 Offset ≥ KernelSize ∨ Kernel.getD Offset.toNat 0 = 58 then
      (DarwinVersion, Index)
    else
      OcKernelReadDarwinVersionLoop Kernel KernelSize Remaining (add32 Index 1)
        (toINT32 (Offset + 1)) (DarwinVersion.set Index (Kernel.getD Offset.toNat 0))

/-- The function `OcKernelReadDarwinVersion`.  `FindPattern Pattern PatternMask
PatternSize Data DataSize DataOff` is the library function of that name, defined outside
the sources, with its `INT32` result; `DarwinVersion` is the output buffer before the
call and the result is the buffer after it. -/
def OcKernelReadDarwinVersion
    (FindPattern : List Nat → Option (List Nat) → Nat → List Nat → Nat → Int → Int)
    (Kernel : List Nat) (KernelSize : Nat) (DarwinVersion : List Nat)
    (DarwinVersionSize : Nat) : List Nat :=
  let Offset := FindPattern DarwinKernelVersionPattern none 22 Kernel KernelSize 0
  if Offset < 0 then
    DarwinVersion.set 0 0
  else
    let r := OcKernelReadDarwinVersionLoop Kernel KernelSize (sub32 DarwinVersionSize 1) 0
      Offset DarwinVersion
    r.1.set r.2 0

/-- The characters expected in the output buffer: none when `FindPattern` reports
no match, otherwise the kernel bytes from the offset of the match on, cut at the first
`':'`, at the end of the kernel, or after `DarwinVersionSize - 1` characters. -/
def DarwinVersionExpected
    (FindPattern : List Nat → Option (List Nat) → Nat → List Nat → Nat → Int → Int)
    (Kernel : List Nat) (KernelSize DarwinVersionSize : Nat) : List Nat :=
  if FindPattern DarwinKernelVersionPattern none 22 Kernel KernelSize 0 < 0 then
    []
  else
    ((Kernel.drop
        (FindPattern DarwinKernelVersionPattern none 22 Kernel KernelSize 0).toNat).takeWhile
      (fun c => decide (c ≠ 58))).take (DarwinVersionSize - 1)

/-- The string held by a buffer of characters: the characters before the first NUL. -/
def AsciiString (Buffer : List Nat) : List Nat :=
  Buffer.takeWhile (fun c => decide (c ≠ 0))

/-! ### Facts about the machine-integer helpers -/

theorem toUINT32_of_range (z : Int) (h0 : 0 ≤ z) (h1 : z < 4294967296) :
    (toUINT32 z : Int) = z := by
  unfold toUINT32
  rw [Int.emod_eq_of_lt h0 h1]
  exact Int.toNat_of_nonneg h0

theorem toINT64_of_range (z : Int) (h0 : -9223372036854775808 ≤ z)
    (h1 : z < 9223372036854775808) : toINT64 z = z := by
  unfold toINT64
  rw [Int.emod_eq_of_lt (by omega) (by omega)]
  omega

theorem sub32_of_le (a b : Nat) (hb : b ≤ a) (ha : a < 4294967296) : sub32 a b = a - b := by
  unfold sub32
  rw [Nat.mod_eq_of_lt (by omega : b < 4294967296)]
  omega

theorem add32_of_lt (a b : Nat) (h : a + b < 4294967296) : add32 a b = a + b := by
  unfold add32
  exact Nat.mod_eq_of_lt h

/-! ### `GuiClipChildBounds` -/

/-- Closed form of `GuiClipChildBounds` on valid arguments. -/
theorem GuiClipChildBounds_eq (ChildOffset : Int) (ChildLength ReqOffset ReqLength : Nat)
    (hv : ClipValid ChildOffset ChildLength ReqOffset ReqLength) :
    GuiClipChildBounds ChildOffset ChildLength ReqOffset ReqLength =
      if ChildOffset + ChildLength ≤ ReqOffset ∨ (ReqOffset : Int) + ReqLength ≤ ChildOffset then
        none
      else if ChildOffset ≤ ReqOffset then
        some ((ReqOffset - ChildOffset).toNat, ReqLength)
      else
        some (0, (ReqOffset + ReqLength - ChildOffset).toNat) := by
  obtain ⟨hlo, hhi, hcl, hcl32, hro, hrl, hrl32⟩ := hv
  unfold GuiClipChildBounds
  by_cases hc : 0 ≤ ChildOffset
  · have hP : (toUINT32 ChildOffset : Int) = ChildOffset := toUINT32_of_range _ hc hhi
    generalize toUINT32 ChildOffset = P at hP
    rw [if_pos hc]
    unfold GuiClipChildBoundsReq
    by_cases h1 : P ≤ ReqOffset
    · rw [if_pos h1, sub32_of_le _ _ h1 hro, add32_of_lt _ _ (by omega)]
      by_cases h2 : ChildLength ≤ ReqOffset - P
      · rw [if_pos h2, if_pos (by omega)]
      · rw [if_neg h2, if_neg (by omega), if_pos (by omega)]
        congr 2
        omega
    · rw [if_neg h1, sub32_of_le _ _ (by omega) (by omega)]
      by_cases h2 : ReqLength ≤ P - ReqOffset
      · rw [if_pos h2, if_pos (by omega)]
      · rw [if_neg h2, if_neg (by omega), if_neg (by omega),
          sub32_of_le _ _ (by omega) hrl32]
        congr 2
        omega
  · rw [if_neg hc]
    have hsum : toINT64 (ChildOffset + ChildLength) = ChildOffset + ChildLength :=
      toINT64_of_range _ (by omega) (by omega)
    rw [hsum]
    by_cases h0 : ChildOffset + (ChildLength : Int) ≤ 0
    · rw [if_pos h0, if_pos (by omega)]
    · rw [if_neg h0]
      have hN : (toUINT32 (-ChildOffset) : Int) = -ChildOffset :=
        toUINT32_of_range _ (by omega) (by omega)
      have hL : (toUINT32 (ChildOffset + ChildLength) : Int) = ChildOffset + ChildLength :=
        toUINT32_of_range _ (by omega) (by omega)
      generalize toUINT32 (-ChildOffset) = N at hN
      generalize toUINT32 (ChildOffset + ChildLength) = L at hL
      unfold GuiClipChildBoundsReq
      rw [if_pos (Nat.zero_le _), sub32_of_le _ _ (Nat.zero_le _) hro]
      by_cases h2 : L ≤ ReqOffset - 0
      · rw [if_pos h2, if_pos (by omega)]
      · rw [if_neg h2, if_neg (by omega), if_pos (by omega), add32_of_lt _ _ (by omega)]
        congr 2
        omega

/-- Disjointness of the two intervals in terms of their end points. -/
theorem IntervalsDisjoint_iff (ChildOffset : Int) (ChildLength ReqOffset ReqLength : Nat)
    (hcl : 0 < ChildLength) (hrl : 0 < ReqLength) :
    IntervalsDisjoint ChildOffset ChildLength ReqOffset ReqLength ↔
      (ChildOffset + ChildLength ≤ ReqOffset ∨ (ReqOffset : Int) + ReqLength ≤ ChildOffset) := by
  unfold IntervalsDisjoint
  constructor
  · intro h
    by_contra hn
    by_cases hc : ChildOffset ≤ ReqOffset
    · exact h ReqOffset ⟨⟨le_refl _, by omega⟩, ⟨hc, by omega⟩⟩
    · exact h ChildOffset ⟨⟨by omega, by omega⟩, ⟨le_refl _, by omega⟩⟩
  · intro h p hp
    omega

/-- C1: on every valid input `GuiClipChildBounds` returns `FALSE` exactly when the
request interval and the child interval are disjoint; in particular it returns `FALSE`
when the child offset is negative and the child ends at or before the origin. -/
theorem GuiClipChildBounds_false_iff_disjoint (ChildOffset : Int)
    (ChildLength ReqOffset ReqLength : Nat)
    (hv : ClipValid ChildOffset ChildLength ReqOffset ReqLength) :
    (GuiClipChildBounds ChildOffset ChildLength ReqOffset ReqLength = none ↔
      IntervalsDisjoint ChildOffset ChildLength ReqOffset ReqLength) ∧
    (ChildOffset < 0 → ChildOffset + ChildLength ≤ 0 →
      GuiClipChildBounds ChildOffset ChildLength ReqOffset ReqLength = none) := by
  have hcl : 0 < ChildLength := hv.2.2.1
  have hrl : 0 < ReqLength := hv.2.2.2.2.2.1
  rw [IntervalsDisjoint_iff _ _ _ _ hcl hrl, GuiClipChildBounds_eq _ _ _ _ hv]
  constructor
  · constructor
    · intro h
      by_contra hn
      rw [if_neg hn] at h
      split at h <;> exact Option.noConfusion h
    · intro h
      rw [if_pos h]
  · intro _ h0
    rw [if_pos (Or.inl (by omega))]

/-- Witness for C1: a child `[-10, 0)` left of the origin against the request `[2, 6)`:
the call returns `FALSE` and the intervals are disjoint. -/
theorem GuiClipChildBounds_false_iff_disjoint_witness :
    ClipValid (-10) 10 2 4 ∧ GuiClipChildBounds (-10) 10 2 4 = none ∧
    IntervalsDisjoint (-10) 10 2 4 :=
  ⟨by decide,
   (GuiClipChildBounds_false_iff_disjoint (-10) 10 2 4 (by decide)).2 (by decide) (by decide),
   (GuiClipChildBounds_false_iff_disjoint (-10) 10 2 4 (by decide)).1.1 (by decide)⟩

/-- C2 as stated fails: for the child `[0, 10)` and the request `[5, 25)` the call
returns `TRUE` and writes back offset `5`, length `20`, whose end `25` is not the end
`10` of the intersection. -/
theorem GuiClipChildBounds_not_exact_intersection :
    ¬ (∀ (ChildOffset : Int) (ChildLength ReqOffset ReqLength o l : Nat),
        ClipValid ChildOffset ChildLength ReqOffset ReqLength →
        GuiClipChildBounds ChildOffset ChildLength ReqOffset ReqLength = some (o, l) →
        (o : Int) = max (ReqOffset : Int) ChildOffset - ChildOffset ∧
        (o : Int) + l =
          min ((ReqOffset : Int) + ReqLength) (ChildOffset + ChildLength) - ChildOffset) := by
  intro h
  have h1 := h 0 10 5 20 5 20 (by decide) (by decide)
  exact absurd h1.2 (by decide)

/-- C2 (amended): when `GuiClipChildBounds` returns `TRUE`, the written-back interval is
the request with its start clipped to the child's start, re-based to the child's origin:
the new offset is `max(ReqOffset, ChildOffset) - ChildOffset` and the new end is
`ReqOffset + ReqLength - ChildOffset`; the end is not clipped to the child, so it is the
end of the intersection exactly when the request ends within the child. -/
theorem GuiClipChildBounds_written_interval (ChildOffset : Int)
    (ChildLength ReqOffset ReqLength o l : Nat)
    (hv : ClipValid ChildOffset ChildLength ReqOffset ReqLength)
    (hr : GuiClipChildBounds ChildOffset ChildLength ReqOffset ReqLength = some (o, l)) :
    (o : Int) = max (ReqOffset : Int) ChildOffset - ChildOffset ∧
    (o : Int) + l = (ReqOffset : Int) + ReqLength - ChildOffset ∧
    ((o : Int) + l =
        min ((ReqOffset : Int) + ReqLength) (ChildOffset + ChildLength) - ChildOffset ↔
      (ReqOffset : Int) + ReqLength ≤ ChildOffset + ChildLength) := by
  rw [GuiClipChildBounds_eq _ _ _ _ hv] at hr
  obtain ⟨hlo, hhi, hcl, hcl32, hro, hrl, hrl32⟩ := hv
  split at hr
  · exact Option.noConfusion hr
  · rename_i hd
    split at hr
    · rename_i hc
      simp only [Option.some.injEq, Prod.mk.injEq] at hr
      obtain ⟨ho, hl⟩ := hr
      subst hl
      have ho2 : (o : Int) = ReqOffset - ChildOffset := by omega
      rw [max_eq_left hc]
      refine ⟨ho2, by omega, ?_⟩
      rcases le_total ((ReqOffset : Int) + ReqLength) (ChildOffset + ChildLength) with hm | hm
      · rw [min_eq_left hm]; omega
      · rw [min_eq_right hm]; omega
    · rename_i hc
      simp only [Option.some.injEq, Prod.mk.injEq] at hr
      obtain ⟨ho, hl⟩ := hr
      have hl2 : (l : Int) = ReqOffset + ReqLength - ChildOffset := by omega
      rw [max_eq_right (by omega)]
      refine ⟨by omega, by omega, ?_⟩
      rcases le_total ((ReqOffset : Int) + ReqLength) (ChildOffset + ChildLength) with hm | hm
      · rw [min_eq_left hm]; omega
      · rw [min_eq_right hm]; omega

/-- Witness for amended C2: child `[0, 10)`, request `[5, 25)`, written back `(5, 20)`. -/
theorem GuiClipChildBounds_written_interval_witness :
    ClipValid 0 10 5 20 ∧ GuiClipChildBounds 0 10 5 20 = some (5, 20) ∧
    (((5 : Nat) : Int) = max ((5 : Nat) : Int) 0 - 0 ∧
     ((5 : Nat) : Int) + (20 : Nat) = ((5 : Nat) : Int) + (20 : Nat) - 0 ∧
     (((5 : Nat) : Int) + (20 : Nat) =
        min (((5 : Nat) : Int) + (20 : Nat)) (0 + (10 : Nat)) - 0 ↔
      ((5 : Nat) : Int) + (20 : Nat) ≤ 0 + (10 : Nat))) :=
  ⟨by decide, by decide, GuiClipChildBounds_written_interval 0 10 5 20 5 20 (by decide) (by decide)⟩

/-! ### The damage queue -/

theorem mul32_of_lt (a b : Nat) (h : a * b < 4294967296) : mul32 a b = a * b := by
  unfold mul32
  exact Nat.mod_eq_of_lt h

/-- Without wrap-around the rectangle computed by the loop body of `GuiRequestDraw` is
the bounding rectangle of the entry and the request. -/
theorem GuiRequestDrawComb_eq_Bounding (E : GUI_DRAW_REQUEST) (PosX PosY Width Height : Nat)
    (hEw : 0 < E.Width) (hEh : 0 < E.Height) (hw : 0 < Width) (hh : 0 < Height)
    (hEx : E.X + E.Width < 4294967296) (hEy : E.Y + E.Height < 4294967296)
    (hx : PosX + Width < 4294967296) (hy : PosY + Height < 4294967296) :
    GuiRequestDrawComb E PosX PosY Width Height =
      Bounding E { X := PosX, Y := PosY, Width := Width, Height := Height } := by
  have e1 : sub32 (add32 PosX Width) 1 = PosX + Width - 1 := by
    rw [add32_of_lt _ _ hx, sub32_of_le _ _ (by omega) hx]
  have e2 : sub32 (add32 PosY Height) 1 = PosY + Height - 1 := by
    rw [add32_of_lt _ _ hy, sub32_of_le _ _ (by omega) hy]
  have e3 : sub32 (add32 E.X E.Width) 1 = E.X + E.Width - 1 := by
    rw [add32_of_lt _ _ hEx, sub32_of_le _ _ (by omega) hEx]
  have e4 : sub32 (add32 E.Y E.Height) 1 = E.Y + E.Height - 1 := by
    rw [add32_of_lt _ _ hEy, sub32_of_le _ _ (by omega) hEy]
  have span : ∀ a la b lb : Nat, 0 < la → 0 < lb → a + la < 4294967296 →
      b + lb < 4294967296 →
      (if a + la - 1 > b + lb - 1 then add32 (sub32 (a + la - 1) (min a b)) 1
        else add32 (sub32 (b + lb - 1) (min a b)) 1) =
        max (a + la) (b + lb) - min a b := by
    intro a la b lb h1 h2 h3 h4
    have hmin : min a b ≤ a ∧ min a b ≤ b := ⟨min_le_left _ _, min_le_right _ _⟩
    generalize min a b = m at hmin
    by_cases hm : a + la - 1 > b + lb - 1
    · rw [if_pos hm, sub32_of_le _ _ (by omega) (by omega), add32_of_lt _ _ (by omega),
        max_eq_left (by omega)]
      omega
    · rw [if_neg hm, sub32_of_le _ _ (by omega) (by omega), add32_of_lt _ _ (by omega),
        max_eq_right (by omega)]
      omega
  have mn : ∀ a b : Nat, (if a < b then a else b) = min a b := by
    intro a b
    by_cases hab : a < b
    · rw [if_pos hab, min_eq_left (by omega)]
    · rw [if_neg hab, min_eq_right (by omega)]
  simp only [GuiRequestDrawComb, Bounding, e1, e2, e3, e4,
    span E.X E.Width PosX Width hEw hw hEx hx, span E.Y E.Height PosY Height hEh hh hEy hy, mn]

/-- The bounding rectangle of two in-screen rectangles is in-screen. -/
theorem InScreen_Bounding (ScreenWidth ScreenHeight : Nat) (E R : GUI_DRAW_REQUEST)
    (hE : InScreen ScreenWidth ScreenHeight E) (hR : InScreen ScreenWidth ScreenHeight R) :
    InScreen ScreenWidth ScreenHeight (Bounding E R) := by
  unfold InScreen at *
  simp only [Bounding]
  omega

/-- An in-screen rectangle has at most the area of the screen. -/
theorem Area_le_of_InScreen (ScreenWidth ScreenHeight : Nat) (R : GUI_DRAW_REQUEST)
    (hR : InScreen ScreenWidth ScreenHeight R) : Area R ≤ ScreenWidth * ScreenHeight := by
  unfold InScreen at hR
  unfold Area
  exact Nat.mul_le_mul (by omega) (by omega)

/-- Bounds of an in-screen rectangle when the screen area is below `2^31`. -/
theorem InScreen_bounds (ScreenWidth ScreenHeight : Nat) (R : GUI_DRAW_REQUEST)
    (hs : ScreenWidth * ScreenHeight < 2147483648)
    (hR : InScreen ScreenWidth ScreenHeight R) :
    R.X + R.Width < 2147483648 ∧ R.Y + R.Height < 2147483648 := by
  unfold InScreen at hR
  have hW : 0 < ScreenWidth := by omega
  have hH : 0 < ScreenHeight := by omega
  have h1 : ScreenWidth ≤ ScreenWidth * ScreenHeight := Nat.le_mul_of_pos_right _ hH
  have h2 : ScreenHeight ≤ ScreenWidth * ScreenHeight := Nat.le_mul_of_pos_left _ hW
  omega

/-- For in-screen rectangles on a screen of area below `2^31` the test of
`GuiRequestDraw` decides the merge criterion over the natural numbers, and the rectangle
it stores is the bounding rectangle. -/
theorem GuiRequestDrawMerges_iff (ScreenWidth ScreenHeight : Nat) (E : GUI_DRAW_REQUEST)
    (PosX PosY Width Height : Nat)
    (hs : ScreenWidth * ScreenHeight < 2147483648)
    (hE : InScreen ScreenWidth ScreenHeight E)
    (hR : InScreen ScreenWidth ScreenHeight
      { X := PosX, Y := PosY, Width := Width, Height := Height }) :
    (GuiRequestDrawMerges E PosX PosY Width Height = true ↔
      MergeCriterion E { X := PosX, Y := PosY, Width := Width, Height := Height }) ∧
    GuiRequestDrawComb E PosX PosY Width Height =
      Bounding E { X := PosX, Y := PosY, Width := Width, Height := Height } := by
  have hEb := InScreen_bounds _ _ E hs hE
  have hRb := InScreen_bounds _ _ _ hs hR
  have hB := Area_le_of_InScreen _ _ _ (InScreen_Bounding _ _ E _ hE hR)
  have hEa := Area_le_of_InScreen _ _ E hE
  have hRa := Area_le_of_InScreen _ _ _ hR
  have hcomb : GuiRequestDrawComb E PosX PosY Width Height =
      Bounding E { X := PosX, Y := PosY, Width := Width, Height := Height } :=
    GuiRequestDrawComb_eq_Bounding E PosX PosY Width Height hE.1 hE.2.1 hR.1 hR.2.1
      (by have := hEb.1; omega) (by have := hEb.2; omega)
      (by have := hRb.1; simp only at this; omega) (by have := hRb.2; simp only at this; omega)
  refine ⟨?_, hcomb⟩
  unfold GuiRequestDrawMerges MergeCriterion
  simp only [hcomb, decide_eq_true_eq]
  unfold Area at *
  simp only at hRa
  rw [mul32_of_lt _ _ (by omega), mul32_of_lt _ _ (by omega), mul32_of_lt _ _ (by omega),
    add32_of_lt _ _ (by omega)]
  constructor <;> intro h <;> simp only at h ⊢ <;> omega

/-- The loop of `GuiRequestDraw` runs to its end when no scanned entry passes the test. -/
theorem GuiRequestDrawLoop_none (q : DrawQueue) (PosX PosY Width Height : Nat)
    (Remaining Index : Nat)
    (h : ∀ j, Index ≤ j → j < Index + Remaining →
      GuiRequestDrawMerges (q.entry j) PosX PosY Width Height = false) :
    GuiRequestDrawLoop q PosX PosY Width Height Remaining Index = none := by
  induction Remaining generalizing Index with
  | zero => rfl
  | succ n ih =>
    rw [GuiRequestDrawLoop, h Index (le_refl _) (by omega)]
    simp only [Bool.false_eq_true, if_false]
    exact ih (Index + 1) (fun j h1 h2 => h j (by omega) (by omega))

/-- The loop of `GuiRequestDraw` merges into the first scanned entry that passes the
test. -/
theorem GuiRequestDrawLoop_some (q : DrawQueue) (PosX PosY Width Height : Nat)
    (Remaining Index i : Nat) (hi1 : Index ≤ i) (hi2 : i < Index + Remaining)
    (hm : GuiRequestDrawMerges (q.entry i) PosX PosY Width Height = true)
    (h : ∀ j, Index ≤ j → j < i →
      GuiRequestDrawMerges (q.entry j) PosX PosY Width Height = false) :
    GuiRequestDrawLoop q PosX PosY Width Height Remaining Index =
      some { q with mDrawRequests :=
        q.mDrawRequests.set i (GuiRequestDrawComb (q.entry i) PosX PosY Width Height) } := by
  induction Remaining generalizing Index with
  | zero => omega
  | succ n ih =>
    rw [GuiRequestDrawLoop]
    by_cases hI : Index = i
    · subst hI
      rw [hm]
      simp only [if_true]
    · rw [h Index (le_refl _) (by omega)]
      simp only [Bool.false_eq_true, if_false]
      exact ih (Index + 1) (by omega) (by omega) (fun j h1 h2 => h j (by omega) h2)

/-- C3: on a queue of `n <= 4` in-screen entries (screen area below `2^31`, so that no
32-bit area computation wraps) `GuiRequestDraw` of an in-screen request `R` replaces the
entry of least index `i` that satisfies `area(E) + area(R) >= area(bounding(E, R))` by
that bounding rectangle and changes nothing else; when no entry satisfies the criterion
and `n < 4`, it stores `R` as entry `n` and the count becomes `n + 1`. -/
theorem GuiRequestDraw_merge_or_append (ScreenWidth ScreenHeight : Nat) (q : DrawQueue)
    (PosX PosY Width Height : Nat)
    (hs : ScreenWidth * ScreenHeight < 2147483648)
    (hn : q.mNumValidDrawReqs ≤ 4) (hlen : q.mDrawRequests.length = 4)
    (hq : ∀ i, i < q.mNumValidDrawReqs → InScreen ScreenWidth ScreenHeight (q.entry i))
    (hR : InScreen ScreenWidth ScreenHeight
      { X := PosX, Y := PosY, Width := Width, Height := Height }) :
    (∀ i, i < q.mNumValidDrawReqs →
      MergeCriterion (q.entry i) { X := PosX, Y := PosY, Width := Width, Height := Height } →
      (∀ j, j < i → ¬ MergeCriterion (q.entry j)
        { X := PosX, Y := PosY, Width := Width, Height := Height }) →
      GuiRequestDraw q PosX PosY Width Height =
        ({ mNumValidDrawReqs := q.mNumValidDrawReqs,
           mDrawRequests := q.mDrawRequests.set i
             (Bounding (q.entry i) { X := PosX, Y := PosY, Width := Width, Height := Height }) },
         false) ∧
      (GuiRequestDraw q PosX PosY Width Height).1.entry i =
        Bounding (q.entry i) { X := PosX, Y := PosY, Width := Width, Height := Height } ∧
      ∀ j, j ≠ i → (GuiRequestDraw q PosX PosY Width Height).1.entry j = q.entry j) ∧
    ((∀ i, i < q.mNumValidDrawReqs → ¬ MergeCriterion (q.entry i)
        { X := PosX, Y := PosY, Width := Width, Height := Height }) →
      q.mNumValidDrawReqs < 4 →
      GuiRequestDraw q PosX PosY Width Height =
        ({ mNumValidDrawReqs := q.mNumValidDrawReqs + 1,
           mDrawRequests := q.mDrawRequests.set q.mNumValidDrawReqs
             { X := PosX, Y := PosY, Width := Width, Height := Height } }, false) ∧
      (GuiRequestDraw q PosX PosY Width Height).1.entry q.mNumValidDrawReqs =
        { X := PosX, Y := PosY, Width := Width, Height := Height } ∧
      ∀ j, j ≠ q.mNumValidDrawReqs →
        (GuiRequestDraw q PosX PosY Width Height).1.entry j = q.entry j) := by
  constructor
  · intro i hi hm hleast
    have hloop := GuiRequestDrawLoop_some q PosX PosY Width Height q.mNumValidDrawReqs 0 i
      (Nat.zero_le _) (by omega)
      ((GuiRequestDrawMerges_iff _ _ _ _ _ _ _ hs (hq i hi) hR).1.2 hm)
      (fun j _ hj => by
        have := (GuiRequestDrawMerges_iff _ _ (q.entry j) PosX PosY Width Height hs
          (hq j (by omega)) hR).1
        have hnm := hleast j hj
        cases hb : GuiRequestDrawMerges (q.entry j) PosX PosY Width Height
        · rfl
        · exact absurd (this.1 hb) hnm)
    rw [(GuiRequestDrawMerges_iff _ _ _ _ _ _ _ hs (hq i hi) hR).2] at hloop
    have heq : GuiRequestDraw q PosX PosY Width Height =
        ({ mNumValidDrawReqs := q.mNumValidDrawReqs,
           mDrawRequests := q.mDrawRequests.set i
             (Bounding (q.entry i) { X := PosX, Y := PosY, Width := Width, Height := Height }) },
         false) := by
      unfold GuiRequestDraw
      rw [hloop]
    refine ⟨heq, ?_, ?_⟩
    · rw [heq]
      simp only [DrawQueue.entry]
      rw [List.getD_eq_getElem _ _ (by rw [List.length_set]; omega)]
      simp
    · intro j hj
      rw [heq]
      simp only [DrawQueue.entry, List.getD_eq_getElem?_getD]
      rw [List.getElem?_set_ne (Ne.symm hj)]
  · intro hnone hlt
    have hloop := GuiRequestDrawLoop_none q PosX PosY Width Height q.mNumValidDrawReqs 0
      (fun j _ hj => by
        have := (GuiRequestDrawMerges_iff _ _ (q.entry j) PosX PosY Width Height hs
          (hq j (by omega)) hR).1
        have hnm := hnone j (by omega)
        cases hb : GuiRequestDrawMerges (q.entry j) PosX PosY Width Height
        · rfl
        · exact absurd (this.1 hb) hnm)
    have heq : GuiRequestDraw q PosX PosY Width Height =
        ({ mNumValidDrawReqs := q.mNumValidDrawReqs + 1,
           mDrawRequests := q.mDrawRequests.set q.mNumValidDrawReqs
             { X := PosX, Y := PosY, Width := Width, Height := Height } }, false) := by
      unfold GuiRequestDraw
      rw [hloop]
      simp only
      rw [if_neg (by omega), Nat.mod_eq_of_lt (by omega)]
    refine ⟨heq, ?_, ?_⟩
    · rw [heq]
      simp only [DrawQueue.entry]
      rw [List.getD_eq_getElem _ _ (by rw [List.length_set]; omega)]
      simp
    · intro j hj
      rw [heq]
      simp only [DrawQueue.entry, List.getD_eq_getElem?_getD]
      rw [List.getElem?_set_ne (Ne.symm hj)]

/-- Witness for C3 on a screen of 100 by 100 pixels: the request `(10, 0, 10, 10)` is
merged into the adjacent entry `(0, 0, 10, 10)`, the distant request `(50, 50, 5, 5)` is
appended. -/
theorem GuiRequestDraw_merge_or_append_witness :
    InScreen 100 100 { X := 10, Y := 0, Width := 10, Height := 10 } ∧
    GuiRequestDraw
        { mNumValidDrawReqs := 1,
          mDrawRequests := [{ X := 0, Y := 0, Width := 10, Height := 10 },
                            default, default, default] } 10 0 10 10 =
      ({ mNumValidDrawReqs := 1,
         mDrawRequests := [{ X := 0, Y := 0, Width := 20, Height := 10 },
                           default, default, default] }, false) ∧
    GuiRequestDraw
        { mNumValidDrawReqs := 1,
          mDrawRequests := [{ X := 0, Y := 0, Width := 10, Height := 10 },
                            default, default, default] } 50 50 5 5 =
      ({ mNumValidDrawReqs := 2,
         mDrawRequests := [{ X := 0, Y := 0, Width := 10, Height := 10 },
                           { X := 50, Y := 50, Width := 5, Height := 5 },
                           default, default] }, false) :=
  ⟨by decide,
   ((GuiRequestDraw_merge_or_append 100 100
      { mNumValidDrawReqs := 1,
        mDrawRequests := [{ X := 0, Y := 0, Width := 10, Height := 10 },
                          default, default, default] } 10 0 10 10
      (by decide) (by decide) (by decide) (by decide) (by decide)).1 0
      (by decide) (by decide) (by decide)).1,
   ((GuiRequestDraw_merge_or_append 100 100
      { mNumValidDrawReqs := 1,
        mDrawRequests := [{ X := 0, Y := 0, Width := 10, Height := 10 },
                          default, default, default] } 50 50 5 5
      (by decide) (by decide) (by decide) (by decide) (by decide)).2
      (by decide) (by decide)).1⟩

/-! ### `GuiRequestDrawCrop` -/

/-- When `X` and `Y` are below `2^32`, so that the casts `(UINT32) X` and `(UINT32) Y`
keep their value, `GuiRequestDrawCrop` drops a request that does not meet the screen and
passes the intersection of any other request with the screen to `GuiRequestDraw`. -/
theorem GuiRequestDrawCrop_eq (ScreenWidth ScreenHeight : Nat) (q : DrawQueue) (X Y : Int)
    (Width Height : Nat)
    (hW : ScreenWidth < 4294967296) (hH : ScreenHeight < 4294967296)
    (hX0 : -9223372036854775808 ≤ X) (hX1 : X < 4294967296)
    (hY0 : -9223372036854775808 ≤ Y) (hY1 : Y < 4294967296)
    (hw : Width < 4294967296) (hh : Height < 4294967296) :
    GuiRequestDrawCrop ScreenWidth ScreenHeight q X Y Width Height =
      if min (X + Width) ScreenWidth - max X 0 ≤ 0 ∨ min (Y + Height) ScreenHeight - max Y 0 ≤ 0 then
        (q, false)
      else
        GuiRequestDraw q (max X 0).toNat (max Y 0).toNat
          (min (X + Width) ScreenWidth - max X 0).toNat
          (min (Y + Height) ScreenHeight - max Y 0).toNat := by
  unfold GuiRequestDrawCrop
  dsimp only
  have hPX : ((if 0 ≤ X then toUINT32 X else 0 : Nat) : Int) = max X 0 := by
    split_ifs with h
    · rw [toUINT32_of_range _ h hX1]; omega
    · omega
  have hPY : ((if 0 ≤ Y then toUINT32 Y else 0 : Nat) : Int) = max Y 0 := by
    split_ifs with h
    · rw [toUINT32_of_range _ h hY1]; omega
    · omega
  generalize (if 0 ≤ X then toUINT32 X else 0 : Nat) = PX at hPX
  generalize (if 0 ≤ Y then toUINT32 Y else 0 : Nat) = PY at hPY
  have hEW : (if 0 ≤ X then (Width : Int) else toINT64 (Width + X)) = min (Width : Int) (Width + X) := by
    split_ifs with h
    · omega
    · rw [toINT64_of_range _ (by omega) (by omega)]; omega
  have hEH : (if 0 ≤ Y then (Height : Int) else toINT64 (Height + Y)) = min (Height : Int) (Height + Y) := by
    split_ifs with h
    · omega
    · rw [toINT64_of_range _ (by omega) (by omega)]; omega
  rw [hEW, hEH, toINT64_of_range _ (by omega) (by omega), toINT64_of_range _ (by omega) (by omega)]
  have e1 : min (min (Width : Int) (Width + X)) ((ScreenWidth : Int) - PX) =
      min (X + Width) ScreenWidth - max X 0 := by omega
  have e2 : min (min (Height : Int) (Height + Y)) ((ScreenHeight : Int) - PY) =
      min (Y + Height) ScreenHeight - max Y 0 := by omega
  rw [e1, e2]
  split_ifs with hc
  · rfl
  · have hu1 : toUINT32 (min (X + Width) ScreenWidth - max X 0) =
        (min (X + Width) ScreenWidth - max X 0).toNat := by
      have := toUINT32_of_range (min (X + Width) ScreenWidth - max X 0) (by omega) (by omega)
      omega
    have hu2 : toUINT32 (min (Y + Height) ScreenHeight - max Y 0) =
        (min (Y + Height) ScreenHeight - max Y 0).toNat := by
      have := toUINT32_of_range (min (Y + Height) ScreenHeight - max Y 0) (by omega) (by omega)
      omega
    have hp1 : PX = (max X 0).toNat := by omega
    have hp2 : PY = (max Y 0).toNat := by omega
    rw [hu1, hu2, hp1, hp2]

/-- C4, the code at a failing input: on a screen of 100 by 100 pixels the rectangle
`[2^32, 2^32 + 10) x [0, 10)` contains no pixel of the screen, yet `GuiRequestDrawCrop`
casts `X = 2^32` to `PosX = 0` and queues the rectangle `(0, 0, 10, 10)`. -/
theorem GuiRequestDrawCrop_offscreen_X_queued :
    (∀ px py : Int, RectHasPixel 4294967296 0 10 10 px py → ¬ OnScreen 100 100 px py) ∧
    GuiRequestDrawCrop 100 100 emptyQueue 4294967296 0 10 10 =
      ({ mNumValidDrawReqs := 1,
         mDrawRequests := [{ X := 0, Y := 0, Width := 10, Height := 10 },
                           default, default, default] }, false) ∧
    (GuiRequestDrawCrop 100 100 emptyQueue 4294967296 0 10 10).1 ≠ emptyQueue := by
  refine ⟨?_, by decide, by decide⟩
  intro px py h1 h2
  unfold RectHasPixel at h1
  unfold OnScreen at h2
  omega

/-- C5, the code at a failing input: on a screen of 100 by 100 pixels the request
`(20, 2^32 + 3, 10, 10)` has an empty intersection with the screen, yet
`GuiRequestDrawCrop` does not drop it: it has the effect of `GuiRequestDraw (20, 3, 10,
10)` and changes the queue. -/
theorem GuiRequestDrawCrop_offscreen_Y_not_dropped :
    min ((4294967299 : Int) + (10 : Nat)) (100 : Nat) - max (4294967299 : Int) 0 ≤ 0 ∧
    GuiRequestDrawCrop 100 100 emptyQueue 20 4294967299 10 10 =
      GuiRequestDraw emptyQueue 20 3 10 10 ∧
    GuiRequestDrawCrop 100 100 emptyQueue 20 4294967299 10 10 ≠ (emptyQueue, false) := by
  refine ⟨by decide, by decide, by decide⟩

/-- Without the truncating casts (`X`, `Y` below `2^32`) a request whose rectangle
contains no pixel of the screen leaves the damage queue unchanged. -/
theorem GuiRequestDrawCrop_offscreen_unchanged (ScreenWidth ScreenHeight : Nat) (q : DrawQueue)
    (X Y : Int) (Width Height : Nat)
    (hW : ScreenWidth < 4294967296) (hH : ScreenHeight < 4294967296)
    (hX0 : -9223372036854775808 ≤ X) (hX1 : X < 4294967296)
    (hY0 : -9223372036854775808 ≤ Y) (hY1 : Y < 4294967296)
    (hw : Width < 4294967296) (hh : Height < 4294967296)
    (hoff : ∀ px py : Int, RectHasPixel X Y Width Height px py →
      ¬ OnScreen ScreenWidth ScreenHeight px py) :
    GuiRequestDrawCrop ScreenWidth ScreenHeight q X Y Width Height = (q, false) := by
  rw [GuiRequestDrawCrop_eq _ _ _ _ _ _ _ hW hH hX0 hX1 hY0 hY1 hw hh]
  by_cases hc : min (X + Width) ScreenWidth - max X 0 ≤ 0 ∨
      min (Y + Height) ScreenHeight - max Y 0 ≤ 0
  · rw [if_pos hc]
  · exfalso
    refine hoff (max X 0) (max Y 0) ?_ ?_
    · unfold RectHasPixel; omega
    · unfold OnScreen; omega

/-! ### `GuiGetInterpolatedValue` -/

/-- C6, the code at a failing input: for the valid linear descriptor with start time `0`,
duration `5`, values `10` to `100`, the time `2^32` lies past the end of the animation,
yet `DeltaTime = (UINT32) 2^32 = 0` and the function returns `10`, the start value,
instead of the end value `100`. -/
theorem GuiGetInterpolatedValue_past_end_truncated :
    let I : GUI_INTERPOLATION :=
      { InterpolType := GUI_INTERPOL_TYPE.GuiInterpolTypeLinear, StartTime := 0, Duration := 5,
        StartValue := 10, EndValue := 100 }
    I.Valid ∧ (4294967296 : Nat) < 18446744073709551616 ∧
    I.StartTime + I.Duration ≤ 4294967296 ∧
    GuiGetInterpolatedValue I 4294967296 = 10 ∧
    GuiGetInterpolatedValue I 4294967296 ≠ I.EndValue := by
  decide

/-- When the elapsed time fits into 32 bits, so that the cast to `DeltaTime` keeps its
value, `GuiGetInterpolatedValue` returns the end value from `StartTime + Duration` on. -/
theorem GuiGetInterpolatedValue_past_end (I : GUI_INTERPOLATION) (CurrentTime : Nat)
    (hd : 0 < I.Duration) (hend : I.StartTime + I.Duration ≤ CurrentTime)
    (h32 : CurrentTime - I.StartTime < 4294967296) :
    GuiGetInterpolatedValue I CurrentTime = I.EndValue := by
  unfold GuiGetInterpolatedValue
  rw [if_neg (by omega)]
  dsimp only
  rw [Nat.mod_eq_of_lt h32, if_pos (by omega)]

/-- C7: for a descriptor of either kind and every `CurrentTime <= StartTime`, in
particular `CurrentTime = StartTime`, `GuiGetInterpolatedValue` returns `StartValue`. -/
theorem GuiGetInterpolatedValue_at_start (I : GUI_INTERPOLATION) (CurrentTime : Nat)
    (hv : I.Valid) (h : CurrentTime ≤ I.StartTime) :
    GuiGetInterpolatedValue I CurrentTime = I.StartValue ∧
    GuiGetInterpolatedValue I I.StartTime = I.StartValue := by
  have _ := hv
  unfold GuiGetInterpolatedValue
  rw [if_pos h, if_pos (le_refl _)]
  exact ⟨rfl, rfl⟩

/-- Witness for C7: a smooth descriptor starting at time `7`, evaluated at time `7`. -/
theorem GuiGetInterpolatedValue_at_start_witness :
    GuiGetInterpolatedValue
      { InterpolType := GUI_INTERPOL_TYPE.GuiInterpolTypeSmooth, StartTime := 7, Duration := 5,
        StartValue := 10, EndValue := 100 } 7 = 10 :=
  (GuiGetInterpolatedValue_at_start
    { InterpolType := GUI_INTERPOL_TYPE.GuiInterpolTypeSmooth, StartTime := 7, Duration := 5,
      StartValue := 10, EndValue := 100 } 7 (by decide) (by decide)).1

/-- C8 as stated fails: for the valid linear descriptor with duration `2` and values `0`
to `2^21` the product `EndValue * AnimTime = 2^21 * 2048` wraps to `0` in 32 bits and
the value at the midpoint is `0`, far from the mean `2^20`. -/
theorem GuiGetInterpolatedValue_midpoint_wraps :
    ¬ (∀ I : GUI_INTERPOLATION, I.Valid →
        I.InterpolType = GUI_INTERPOL_TYPE.GuiInterpolTypeLinear → I.Duration % 2 = 0 →
        2 * GuiGetInterpolatedValue I (I.StartTime + I.Duration / 2) ≤
            I.StartValue + I.EndValue + 2 ∧
        I.StartValue + I.EndValue ≤
            2 * GuiGetInterpolatedValue I (I.StartTime + I.Duration / 2) + 2) := by
  intro h
  have h1 := h { InterpolType := GUI_INTERPOL_TYPE.GuiInterpolTypeLinear, StartTime := 0,
                 Duration := 2, StartValue := 0, EndValue := 2097152 }
    (by decide) rfl (by decide)
  exact absurd h1.2 (by decide)

/-- C8 (amended): for a valid linear descriptor with even duration `D < 2^33` (so that
`D/2` fits the 32-bit `DeltaTime`) and `StartValue + EndValue < 2^21` (so that the 32-bit
blend does not wrap) the value at `StartTime + D/2` is `(StartValue + EndValue) / 2`
rounded down, which differs from the arithmetic mean by at most 1. -/
theorem GuiGetInterpolatedValue_linear_midpoint (I : GUI_INTERPOLATION) (hv : I.Valid)
    (hlin : I.InterpolType = GUI_INTERPOL_TYPE.GuiInterpolTypeLinear)
    (heven : I.Duration % 2 = 0) (hD : I.Duration < 8589934592)
    (hsum : I.StartValue + I.EndValue < 2097152) :
    GuiGetInterpolatedValue I (I.StartTime + I.Duration / 2) = (I.StartValue + I.EndValue) / 2 ∧
    2 * GuiGetInterpolatedValue I (I.StartTime + I.Duration / 2) ≤
        I.StartValue + I.EndValue + 2 ∧
    I.StartValue + I.EndValue ≤
        2 * GuiGetInterpolatedValue I (I.StartTime + I.Duration / 2) + 2 := by
  obtain ⟨_, hd, _, _, _⟩ := hv
  have hval : GuiGetInterpolatedValue I (I.StartTime + I.Duration / 2) =
      (I.StartValue + I.EndValue) / 2 := by
    unfold GuiGetInterpolatedValue
    rw [if_neg (by omega)]
    dsimp only
    have e1 : I.StartTime + I.Duration / 2 - I.StartTime = I.Duration / 2 := by omega
    rw [e1, Nat.mod_eq_of_lt (by omega : I.Duration / 2 < 4294967296), if_neg (by omega)]
    have e2 : 4096 * (I.Duration / 2) = 2048 * I.Duration := by omega
    rw [e2, Nat.mod_eq_of_lt (by omega : 2048 * I.Duration < 18446744073709551616),
      Nat.mul_div_cancel _ hd, hlin]
    have e3 : toUINT32 (GuiInterpolAnimTime GUI_INTERPOL_TYPE.GuiInterpolTypeLinear 2048) = 2048 := by
      decide
    have e4 : sub32 4096 2048 = 2048 := by decide
    rw [e3, e4]
    unfold add32 mul32
    omega
  rw [hval]
  omega

/-- Witness for amended C8: duration `10`, values `10` to `101`, midpoint value `55`. -/
theorem GuiGetInterpolatedValue_linear_midpoint_witness :
    GuiGetInterpolatedValue
      { InterpolType := GUI_INTERPOL_TYPE.GuiInterpolTypeLinear, StartTime := 3, Duration := 10,
        StartValue := 10, EndValue := 101 } (3 + 10 / 2) = (10 + 101) / 2 :=
  (GuiGetInterpolatedValue_linear_midpoint
    { InterpolType := GUI_INTERPOL_TYPE.GuiInterpolTypeLinear, StartTime := 3, Duration := 10,
      StartValue := 10, EndValue := 101 } (by decide) rfl (by decide) (by decide) (by decide)).1

/-- C9, the code at a failing input: for the smooth descriptor with start time `0`,
duration `5`, values `10 <= 100`, the times `5 <= 2^32` give the values `100` and `10`:
after `2^32` time units the truncated `DeltaTime` starts again at `0` and the value falls
back to the start value. -/
theorem GuiGetInterpolatedValue_smooth_not_monotone :
    let I : GUI_INTERPOLATION :=
      { InterpolType := GUI_INTERPOL_TYPE.GuiInterpolTypeSmooth, StartTime := 0, Duration := 5,
        StartValue := 10, EndValue := 100 }
    I.Valid ∧ I.StartValue ≤ I.EndValue ∧ I.EndValue < 1048576 ∧
    (5 : Nat) ≤ 4294967296 ∧ (4294967296 : Nat) < 18446744073709551616 ∧
    GuiGetInterpolatedValue I 5 = 100 ∧ GuiGetInterpolatedValue I 4294967296 = 10 ∧
    ¬ (GuiGetInterpolatedValue I 5 ≤ GuiGetInterpolatedValue I 4294967296) := by
  decide

/-! ### The smooth curve without truncation -/

theorem toINT32_of_range (z : Int) (h0 : -2147483648 ≤ z) (h1 : z < 2147483648) :
    toINT32 z = z := by
  unfold toINT32
  rw [Int.emod_eq_of_lt (by omega) (by omega)]
  omega

/-- The exclusive or of two non-negative integers is not negative. -/
theorem Int_xor_nonneg (a b : Int) (ha : 0 ≤ a) (hb : 0 ≤ b) : ¬ (Int.xor a b < 0) := by
  obtain ⟨m, rfl⟩ := Int.eq_ofNat_of_zero_le ha
  obtain ⟨n, rfl⟩ := Int.eq_ofNat_of_zero_le hb
  show ¬ (((m ^^^ n : Nat) : Int) < 0)
  omega

theorem sq_le_of_le_8191 (n : Nat) (hn : n ≤ 8191) : n * n ≤ 67092481 :=
  Nat.mul_le_mul hn hn

/-- In the first quadrant `isin_S3` is the cubic shifted right by 17 bits. -/
theorem isin_S3_first_quadrant (n : Nat) (hn : n ≤ 8191) :
    isin_S3 (n : Int) = ((isinCubic n / 131072 : Nat) : Int) := by
  have hsq := sq_le_of_le_8191 n hn
  have hsqI : ((n : Int) * n) = ((n * n : Nat) : Int) := by push_cast; rfl
  have hc : isinCubic n ≤ 8191 * 98304 := by
    unfold isinCubic
    exact Nat.mul_le_mul hn (by omega)
  unfold isin_S3
  dsimp only
  rw [toINT32_of_range ((n : Int) * 131072) (by omega) (by omega),
    toINT32_of_range ((n : Int) * 131072 * 2) (by omega) (by omega),
    if_neg (Int_xor_nonneg _ _ (by omega) (by omega)),
    Int.mul_ediv_cancel _ (by decide : (131072 : Int) ≠ 0), hsqI,
    toINT32_of_range ((n * n : Nat) : Int) (by omega) (by omega),
    toINT32_of_range (98304 - ((n * n : Nat) : Int) / 2048) (by omega) (by omega)]
  have e : (n : Int) * (98304 - ((n * n : Nat) : Int) / 2048) = ((isinCubic n : Nat) : Int) := by
    unfold isinCubic
    have : n * n / 2048 ≤ 98304 := by omega
    push_cast [Nat.cast_sub this]
    rfl
  rw [e, toINT32_of_range _ (by omega) (by omega)]
  norm_cast

/-- The cubic of `isin_S3` does not decrease on the first quadrant. -/
theorem isinCubic_step (n : Nat) (hn : n + 1 ≤ 8191) : isinCubic n ≤ isinCubic (n + 1) := by
  have hsq := sq_le_of_le_8191 (n + 1) hn
  have hsq0 := sq_le_of_le_8191 n (by omega)
  have e : (n + 1) * (n + 1) = n * n + 2 * n + 1 := by ring
  have h8 : (n + 1) * (n + 1) / 2048 ≤ n * n / 2048 + 8 := by omega
  unfold isinCubic
  have h1 : 98304 - n * n / 2048 - 8 ≤ 98304 - (n + 1) * (n + 1) / 2048 := by omega
  have h2 : (n + 1) * (98304 - n * n / 2048 - 8) ≤
      (n + 1) * (98304 - (n + 1) * (n + 1) / 2048) := Nat.mul_le_mul_left _ h1
  have h3 : n * (98304 - n * n / 2048) ≤ (n + 1) * (98304 - n * n / 2048 - 8) := by
    generalize hv : 98304 - n * n / 2048 = v at *
    have hv2 : 8 * n + 8 ≤ v := by omega
    have : (n + 1) * (v - 8) = n * v + (v - 8 - 8 * n) := by
      zify [show 8 ≤ v by omega, show 8 * n ≤ v - 8 by omega]
      ring
    omega
  omega

theorem isinCubic_mono (m n : Nat) (hmn : m ≤ n) (hn : n ≤ 8191) :
    isinCubic m ≤ isinCubic n := by
  induction n with
  | zero =>
    have : m = 0 := by omega
    rw [this]
  | succ k ih =>
    by_cases h : m = k + 1
    · rw [h]
    · exact le_trans (ih (by omega) (by omega)) (isinCubic_step k hn)

theorem isinCubic_shift_le (n : Nat) (hn : n ≤ 8191) : isinCubic n / 131072 ≤ 4095 := by
  have h := isinCubic_mono n 8191 hn (le_refl _)
  have e : isinCubic 8191 = 536870904 := by decide
  omega

/-- For a fixed-point fraction below `4096` the smooth `AnimTime` is the eased fraction. -/
theorem GuiInterpolAnimTime_smooth (a : Nat) (ha : a < 4096) :
    GuiInterpolAnimTime GUI_INTERPOL_TYPE.GuiInterpolTypeSmooth a = (easedFraction a : Int) := by
  unfold GuiInterpolAnimTime
  dsimp only
  rw [toINT32_of_range (a : Int) (by omega) (by omega),
    toINT32_of_range (4 * (a : Int)) (by omega) (by omega)]
  have e1 : Int.tdiv (4 * (a : Int)) 2 = ((2 * a : Nat) : Int) := by
    rw [Int.tdiv_eq_ediv (by omega) (by omega)]
    omega
  rw [e1, isin_S3_first_quadrant (2 * a) (by omega)]
  have hS := isinCubic_shift_le (2 * a) (by omega)
  generalize hSd : isinCubic (2 * a) / 131072 = S at *
  have hSS : S * S ≤ 4095 * 4095 := Nat.mul_le_mul hS hS
  have e2 : ((S : Int) * S) = ((S * S : Nat) : Int) := by push_cast; rfl
  have e3 : toUINT32 ((S * S : Nat) : Int) = S * S := by
    have := toUINT32_of_range ((S * S : Nat) : Int) (by omega) (by omega)
    omega
  rw [e2, toINT32_of_range ((S * S : Nat) : Int) (by omega) (by omega), e3,
    toINT32_of_range (((S * S : Nat) : Int) / 4096) (by omega) (by omega)]
  unfold easedFraction
  rw [hSd]
  norm_cast

/-- The eased fraction stays below `4096`. -/
theorem easedFraction_le (a : Nat) (ha : a < 4096) : easedFraction a ≤ 4095 := by
  unfold easedFraction
  have hS := isinCubic_shift_le (2 * a) (by omega)
  generalize isinCubic (2 * a) / 131072 = S at *
  have hSS : S * S ≤ 4095 * 4095 := Nat.mul_le_mul hS hS
  omega

/-- The eased fraction does not decrease in the fixed-point fraction. -/
theorem easedFraction_mono (a b : Nat) (hab : a ≤ b) (hb : b < 4096) :
    easedFraction a ≤ easedFraction b := by
  unfold easedFraction
  have h := isinCubic_mono (2 * a) (2 * b) (by omega) (by omega)
  have h1 : isinCubic (2 * a) / 131072 ≤ isinCubic (2 * b) / 131072 := Nat.div_le_div_right h
  exact Nat.div_le_div_right (Nat.mul_le_mul h1 h1)

/-- The 32-bit blend does not wrap for values below `2^20` and a fraction up to `4096`. -/
theorem blend32_eq (S E A : Nat) (hS : S < 1048576) (hE : E < 1048576) (hA : A ≤ 4096) :
    add32 (mul32 E A) (mul32 S (sub32 4096 A)) = E * A + S * (4096 - A) := by
  have h1 : E * A ≤ 1048575 * A := Nat.mul_le_mul_right _ (by omega)
  have h2 : S * (4096 - A) ≤ 1048575 * (4096 - A) := Nat.mul_le_mul_right _ (by omega)
  rw [sub32_of_le _ _ hA (by omega), mul32_of_lt _ _ (by omega), mul32_of_lt _ _ (by omega),
    add32_of_lt _ _ (by omega)]

/-- The blend does not decrease in the fraction when `StartValue <= EndValue`. -/
theorem blend_mono (S E A B : Nat) (hSE : S ≤ E) (hAB : A ≤ B) (hB : B ≤ 4096) :
    (E * A + S * (4096 - A)) / 4096 ≤ (E * B + S * (4096 - B)) / 4096 := by
  apply Nat.div_le_div_right
  obtain ⟨d, rfl⟩ := Nat.exists_eq_add_of_le hAB
  obtain ⟨r, hr⟩ := Nat.exists_eq_add_of_le hB
  have e1 : 4096 - A = d + r := by omega
  have e2 : 4096 - (A + d) = r := by omega
  rw [e1, e2]
  have h := Nat.mul_le_mul_right d hSE
  have e3 : S * (d + r) = S * d + S * r := by ring
  have e4 : E * (A + d) = E * A + E * d := by ring
  omega

/-- Without truncation of the elapsed time and for values below `2^20`, the smooth curve
is the blend of the two values by `smoothFraction`. -/
theorem GuiGetInterpolatedValue_smooth_eq (I : GUI_INTERPOLATION) (CurrentTime : Nat)
    (hd : 0 < I.Duration)
    (hs : I.InterpolType = GUI_INTERPOL_TYPE.GuiInterpolTypeSmooth)
    (hS : I.StartValue < 1048576) (hE : I.EndValue < 1048576)
    (h32 : CurrentTime - I.StartTime < 4294967296) :
    GuiGetInterpolatedValue I CurrentTime =
      (I.EndValue * smoothFraction I CurrentTime +
        I.StartValue * (4096 - smoothFraction I CurrentTime)) / 4096 := by
  unfold GuiGetInterpolatedValue smoothFraction
  by_cases h1 : CurrentTime ≤ I.StartTime
  · rw [if_pos h1, if_pos h1]
    omega
  · rw [if_neg h1, if_neg h1]
    dsimp only
    rw [Nat.mod_eq_of_lt h32]
    by_cases h2 : I.Duration ≤ CurrentTime - I.StartTime
    · rw [if_pos h2, if_pos h2]
      omega
    · rw [if_neg h2, if_neg h2,
        Nat.mod_eq_of_lt (by omega : 4096 * (CurrentTime - I.StartTime) < 18446744073709551616)]
      have hq : 4096 * (CurrentTime - I.StartTime) / I.Duration < 4096 := by
        rw [Nat.div_lt_iff_lt_mul hd]
        omega
      have hA := easedFraction_le _ hq
      rw [hs, GuiInterpolAnimTime_smooth _ hq]
      have e : toUINT32 ((easedFraction (4096 * (CurrentTime - I.StartTime) / I.Duration) : Nat) : Int) =
          easedFraction (4096 * (CurrentTime - I.StartTime) / I.Duration) := by
        have := toUINT32_of_range
          ((easedFraction (4096 * (CurrentTime - I.StartTime) / I.Duration) : Nat) : Int)
          (by omega) (by omega)
        omega
      rw [e, blend32_eq _ _ _ hS hE (by omega)]

/-- The fraction of the smooth curve does not decrease in time and is at most `4096`. -/
theorem smoothFraction_mono (I : GUI_INTERPOLATION) (t1 t2 : Nat) (hd : 0 < I.Duration)
    (h12 : t1 ≤ t2) : smoothFraction I t1 ≤ smoothFraction I t2 ∧ smoothFraction I t2 ≤ 4096 := by
  unfold smoothFraction
  by_cases a1 : t2 ≤ I.StartTime
  · rw [if_pos a1, if_pos (by omega)]
    omega
  · rw [if_neg a1]
    by_cases a2 : I.Duration ≤ t2 - I.StartTime
    · rw [if_pos a2]
      refine ⟨?_, le_refl _⟩
      split_ifs
      · omega
      · omega
      · rename_i b1 b2
        have hq : 4096 * (t1 - I.StartTime) / I.Duration < 4096 := by
          rw [Nat.div_lt_iff_lt_mul hd]
          omega
        have := easedFraction_le _ hq
        omega
    · rw [if_neg a2]
      have hq2 : 4096 * (t2 - I.StartTime) / I.Duration < 4096 := by
        rw [Nat.div_lt_iff_lt_mul hd]
        omega
      have hle2 := easedFraction_le _ hq2
      refine ⟨?_, by omega⟩
      by_cases b1 : t1 ≤ I.StartTime
      · rw [if_pos b1]
        omega
      · rw [if_neg b1, if_neg (by omega)]
        exact easedFraction_mono _ _
          (Nat.div_le_div_right (by omega)) hq2

/-- When the elapsed time fits into 32 bits, so that the cast to `DeltaTime` keeps its
value, the smooth curve with `StartValue <= EndValue < 2^20` does not decrease in time. -/
theorem GuiGetInterpolatedValue_smooth_mono (I : GUI_INTERPOLATION) (t1 t2 : Nat)
    (hd : 0 < I.Duration)
    (hs : I.InterpolType = GUI_INTERPOL_TYPE.GuiInterpolTypeSmooth)
    (hSE : I.StartValue ≤ I.EndValue) (hE : I.EndValue < 1048576)
    (h12 : t1 ≤ t2) (h32 : t2 - I.StartTime < 4294967296) :
    GuiGetInterpolatedValue I t1 ≤ GuiGetInterpolatedValue I t2 := by
  rw [GuiGetInterpolatedValue_smooth_eq I t1 hd hs (by omega) hE (by omega),
    GuiGetInterpolatedValue_smooth_eq I t2 hd hs (by omega) hE h32]
  have h := smoothFraction_mono I t1 t2 hd h12
  exact blend_mono _ _ _ _ hSE h.1 h.2

/-! ### `GuiObjDrawDelegate` -/

/-- The loop body calls `Draw` exactly for the call computed by `childDrawCall`. -/
theorem GuiObjDrawDelegateChild_eq {σ : Type}
    (Draw : GUI_OBJ → σ → Int → Int → Nat → Nat → Nat → Nat → σ) (Child : GUI_OBJ) (s : σ)
    (BaseX BaseY : Int) (OffsetX OffsetY Width Height : Nat) :
    GuiObjDrawDelegateChild Draw Child s BaseX BaseY OffsetX OffsetY Width Height =
      match childDrawCall Child BaseX BaseY OffsetX OffsetY Width Height with
      | none => s
      | some c => Draw c.Obj s c.BaseX c.BaseY c.OffsetX c.OffsetY c.Width c.Height := by
  unfold childDrawCall GuiObjDrawDelegateChild
  cases GuiClipChildBounds Child.OffsetX Child.Width OffsetX Width with
  | none => rfl
  | some a =>
    cases GuiClipChildBounds Child.OffsetY Child.Height OffsetY Height with
    | none => rfl
    | some b => rfl

/-- The loop of `GuiObjDrawDelegate`, started at the node number `k`, runs the loop body
over the first `k` children in reverse order. -/
theorem GuiObjDrawDelegateLoop_eq_foldl {σ : Type}
    (Draw : GUI_OBJ → σ → Int → Int → Nat → Nat → Nat → Nat → σ) (Children : List GUI_OBJ)
    (BaseX BaseY : Int) (OffsetX OffsetY Width Height : Nat) (k : Nat)
    (hk : k ≤ Children.length) (s : σ) :
    GuiObjDrawDelegateLoop Draw Children BaseX BaseY OffsetX OffsetY Width Height k s =
      (Children.take k).reverse.foldl
        (fun s Child =>
          GuiObjDrawDelegateChild Draw Child s BaseX BaseY OffsetX OffsetY Width Height) s := by
  induction k generalizing s with
  | zero => simp [GuiObjDrawDelegateLoop]
  | succ n ih =>
    have hn : n < Children.length := by omega
    rw [GuiObjDrawDelegateLoop, ih (by omega), List.take_succ,
      List.getD_eq_getElem _ _ hn, List.getElem?_eq_getElem hn]
    simp only [Option.toList_some, List.reverse_append, List.reverse_cons, List.reverse_nil,
      List.nil_append, List.singleton_append, List.foldl_cons]

/-- Running the loop body with the recording callback over a list of children appends
the calls of these children, in the order of the list. -/
theorem foldl_recordDraw (L : List GUI_OBJ) (t : List DrawCall) (BaseX BaseY : Int)
    (OffsetX OffsetY Width Height : Nat) :
    L.foldl (fun s Child =>
        GuiObjDrawDelegateChild recordDraw Child s BaseX BaseY OffsetX OffsetY Width Height) t =
      t ++ L.filterMap (fun Child =>
        childDrawCall Child BaseX BaseY OffsetX OffsetY Width Height) := by
  induction L generalizing t with
  | nil => simp
  | cons C L ih =>
    rw [List.foldl_cons, ih, GuiObjDrawDelegateChild_eq, List.filterMap_cons]
    cases h : childDrawCall C BaseX BaseY OffsetX OffsetY Width Height with
    | none => rfl
    | some c => simp [recordDraw]

/-- The object of a call computed by `childDrawCall` is the child itself. -/
theorem childDrawCall_Obj (Child : GUI_OBJ) (BaseX BaseY : Int)
    (OffsetX OffsetY Width Height : Nat) (c : DrawCall)
    (h : childDrawCall Child BaseX BaseY OffsetX OffsetY Width Height = some c) :
    c.Obj = Child := by
  unfold childDrawCall GuiObjDrawDelegateChild at h
  cases h1 : GuiClipChildBounds Child.OffsetX Child.Width OffsetX Width with
  | none => rw [h1] at h; exact Option.noConfusion h
  | some a =>
    cases h2 : GuiClipChildBounds Child.OffsetY Child.Height OffsetY Height with
    | none => rw [h1, h2] at h; exact Option.noConfusion h
    | some b =>
      rw [h1, h2] at h
      simp only [Option.some.injEq] at h
      rw [← h]

/-- The objects of the calls selected from a list of children form a sublist of it. -/
theorem filterMap_childDrawCall_sublist (L : List GUI_OBJ) (BaseX BaseY : Int)
    (OffsetX OffsetY Width Height : Nat) :
    ((L.filterMap (fun Child =>
        childDrawCall Child BaseX BaseY OffsetX OffsetY Width Height)).map DrawCall.Obj).Sublist
      L := by
  induction L with
  | nil => simp
  | cons C L ih =>
    rw [List.filterMap_cons]
    cases h : childDrawCall C BaseX BaseY OffsetX OffsetY Width Height with
    | none => exact List.Sublist.cons _ ih
    | some c =>
      simp only [List.map_cons]
      rw [childDrawCall_Obj _ _ _ _ _ _ _ _ h]
      exact List.Sublist.cons₂ _ ih

/-- C10: the `Draw` calls that `GuiObjDrawDelegate` makes are those of the children that
pass both clips, taken in reverse list order (last child first, the child at index `0`
last); their objects form a sublist of the reversed child list, so each child is called
at most once; a child is called exactly when both clips succeed.  For a parent of 20 by
20 pixels with the children `[Top, Bottom]`, both `(0, 0, 20, 20)`, asked to draw its full
rectangle, `Bottom` is drawn first and `Top` last, and with opaque children every pixel
of the parent shows `Top` afterwards. -/
theorem GuiObjDrawDelegate_reverse_order (This : GUI_OBJ) (Children : List GUI_OBJ)
    (BaseX BaseY : Int) (OffsetX OffsetY Width Height : Nat) :
    (GuiObjDrawDelegate recordDraw This Children [] BaseX BaseY OffsetX OffsetY Width Height =
      Children.reverse.filterMap (fun Child =>
        childDrawCall Child BaseX BaseY OffsetX OffsetY
          (min Width (sub32 This.Width OffsetX)) (min Height (sub32 This.Height OffsetY)))) ∧
    ((GuiObjDrawDelegate recordDraw This Children [] BaseX BaseY OffsetX OffsetY Width
        Height).map DrawCall.Obj).Sublist Children.reverse ∧
    (∀ Child : GUI_OBJ,
      (childDrawCall Child BaseX BaseY OffsetX OffsetY
          (min Width (sub32 This.Width OffsetX)) (min Height (sub32 This.Height OffsetY))).isSome =
        ((GuiClipChildBounds Child.OffsetX Child.Width OffsetX
            (min Width (sub32 This.Width OffsetX))).isSome &&
         (GuiClipChildBounds Child.OffsetY Child.Height OffsetY
            (min Height (sub32 This.Height OffsetY))).isSome)) ∧
    (let Top : GUI_OBJ := { Id := 0, OffsetX := 0, OffsetY := 0, Width := 20, Height := 20 }
     let Bottom : GUI_OBJ := { Id := 1, OffsetX := 0, OffsetY := 0, Width := 20, Height := 20 }
     let Parent : GUI_OBJ := { Id := 2, OffsetX := 0, OffsetY := 0, Width := 20, Height := 20 }
     GuiObjDrawDelegate recordDraw Parent [Top, Bottom] [] 0 0 0 0 20 20 =
       [{ Obj := Bottom, BaseX := 0, BaseY := 0, OffsetX := 0, OffsetY := 0,
          Width := 20, Height := 20 },
        { Obj := Top, BaseX := 0, BaseY := 0, OffsetX := 0, OffsetY := 0,
          Width := 20, Height := 20 }] ∧
     ∀ (b : PaintBuffer) (px py : Int), 0 ≤ px → px < 20 → 0 ≤ py → py < 20 →
       GuiObjDrawDelegate paintOpaque Parent [Top, Bottom] b 0 0 0 0 20 20 px py =
         some Top.Id) := by
  have htrace : GuiObjDrawDelegate recordDraw This Children [] BaseX BaseY OffsetX OffsetY
      Width Height =
      Children.reverse.filterMap (fun Child =>
        childDrawCall Child BaseX BaseY OffsetX OffsetY
          (min Width (sub32 This.Width OffsetX)) (min Height (sub32 This.Height OffsetY))) := by
    unfold GuiObjDrawDelegate
    rw [GuiObjDrawDelegateLoop_eq_foldl _ _ _ _ _ _ _ _ _ (le_refl _), List.take_length,
      foldl_recordDraw, List.nil_append]
  refine ⟨htrace, ?_, ?_, ?_⟩
  · rw [htrace]
    exact filterMap_childDrawCall_sublist _ _ _ _ _ _ _
  · intro Child
    unfold childDrawCall GuiObjDrawDelegateChild
    cases GuiClipChildBounds Child.OffsetX Child.Width OffsetX
        (min Width (sub32 This.Width OffsetX)) with
    | none => rfl
    | some a =>
      cases GuiClipChildBounds Child.OffsetY Child.Height OffsetY
          (min Height (sub32 This.Height OffsetY)) with
      | none => rfl
      | some b => rfl
  · refine ⟨by decide, ?_⟩
    intro b px py h1 h2 h3 h4
    have hclip : GuiClipChildBounds 0 20 0 (min 20 (sub32 20 0)) = some (0, 20) := by decide
    simp only [GuiObjDrawDelegate, GuiObjDrawDelegateLoop, GuiObjDrawDelegateChild,
      List.length_cons, List.length_nil, List.getD_cons_succ, List.getD_cons_zero, hclip,
      paintOpaque]
    rw [if_pos (by refine ⟨?_, ?_, ?_, ?_⟩ <;> simp [toINT64] <;> omega)]

/-- Witness for C10: the pixel `(3, 4)` of the parent shows `Top` after the delegation. -/
theorem GuiObjDrawDelegate_reverse_order_witness :
    GuiObjDrawDelegate paintOpaque
      { Id := 2, OffsetX := 0, OffsetY := 0, Width := 20, Height := 20 }
      [{ Id := 0, OffsetX := 0, OffsetY := 0, Width := 20, Height := 20 },
       { Id := 1, OffsetX := 0, OffsetY := 0, Width := 20, Height := 20 }]
      (fun _ _ => none) 0 0 0 0 20 20 3 4 = some 0 :=
  (GuiObjDrawDelegate_reverse_order
    { Id := 2, OffsetX := 0, OffsetY := 0, Width := 20, Height := 20 }
    [{ Id := 0, OffsetX := 0, OffsetY := 0, Width := 20, Height := 20 },
     { Id := 1, OffsetX := 0, OffsetY := 0, Width := 20, Height := 20 }]
    0 0 0 0 20 20).2.2.2.2 (fun _ _ => none) 3 4
    (by decide) (by decide) (by decide) (by decide)

/-! ### `GuiObjDelegatePtrEvent` -/

/-- Shape of a log of `PtrEvent` invocations that ends the walk with the pointer `r`:
every invocation but the last returned `NULL`, and `r` is what the last one returned
(`NULL` for the empty log). -/
theorem ptrLog_step (e : PtrCall) (E : List PtrCall) (r : Option GUI_OBJ_REF)
    (he : e.Result = none) (hd : ∀ c ∈ E.dropLast, c.Result = none)
    (hl : r = E.getLast?.bind PtrCall.Result) :
    (∀ c ∈ (e :: E).dropLast, c.Result = none) ∧
    r = (e :: E).getLast?.bind PtrCall.Result := by
  cases E with
  | nil =>
    refine ⟨by simp, ?_⟩
    simp only [List.getLast?_nil, Option.none_bind] at hl
    simp [hl, he]
  | cons a E =>
    refine ⟨?_, ?_⟩
    · intro c hc
      rw [List.dropLast_cons₂] at hc
      rcases List.mem_cons.1 hc with h | h
      · rw [h]; exact he
      · exact hd c h
    · rw [hl, List.getLast?_cons_cons]

/-- Log of one walk of `GuiObjDelegatePtrEvent`. -/
theorem GuiObjDelegatePtrEvent_log {σ : Type}
    (PtrEvent : GUI_OBJ_REF → σ → GUI_PTR_EVENT → Int → Int → Int → Int → σ × Option GUI_OBJ_REF)
    (This : GUI_OBJ_REF) (Children : List GUI_OBJ) (s : σ) (t : List PtrCall)
    (Event : GUI_PTR_EVENT) (BaseX BaseY OffsetX OffsetY : Int)
    (hr : ∀ Child ∈ Children, PtrEventInRange BaseX BaseY OffsetX OffsetY Child) :
    ∃ (E : List PtrCall) (L R : List GUI_OBJ),
      (GuiObjDelegatePtrEvent (recordPtr PtrEvent) This Children (s, t) Event
        BaseX BaseY OffsetX OffsetY).1.2 = t ++ E ∧
      Children.filter (fun C => decide (ChildContains OffsetX OffsetY C)) = L ++ R ∧
      E.map PtrCall.args = L.map (childPtrArgs This Event BaseX BaseY OffsetX OffsetY) ∧
      (∀ c ∈ E.dropLast, c.Result = none) ∧
      (GuiObjDelegatePtrEvent (recordPtr PtrEvent) This Children (s, t) Event
        BaseX BaseY OffsetX OffsetY).2 = E.getLast?.bind PtrCall.Result ∧
      ((GuiObjDelegatePtrEvent (recordPtr PtrEvent) This Children (s, t) Event
        BaseX BaseY OffsetX OffsetY).2 = none → R = []) := by
  induction Children generalizing s t with
  | nil =>
    exact ⟨[], [], [], by simp [GuiObjDelegatePtrEvent], by simp, by simp, by simp,
      by simp [GuiObjDelegatePtrEvent], by simp⟩
  | cons C Rest ih =>
    have hC := hr C (List.mem_cons_self _ _)
    have hRest : ∀ Child ∈ Rest, PtrEventInRange BaseX BaseY OffsetX OffsetY Child :=
      fun Child h => hr Child (List.mem_cons_of_mem _ h)
    obtain ⟨h1, h2, h3, h4, h5, h6⟩ := hC
    unfold InINT64 at h1 h2 h3 h4 h5 h6
    rw [GuiObjDelegatePtrEvent]
    rw [toINT64_of_range _ h1.1 h1.2, toINT64_of_range _ h2.1 h2.2,
      toINT64_of_range _ h3.1 h3.2, toINT64_of_range _ h4.1 h4.2,
      toINT64_of_range _ h5.1 h5.2, toINT64_of_range _ h6.1 h6.2]
    by_cases hc : ChildContains OffsetX OffsetY C
    · have hnot : ¬ (OffsetX < C.OffsetX ∨ OffsetX ≥ C.OffsetX + C.Width ∨
          OffsetY < C.OffsetY ∨ OffsetY ≥ C.OffsetY + C.Height) := by
        unfold ChildContains at hc; omega
      rw [if_neg hnot, List.filter_cons_of_pos (by simpa using hc)]
      cases hres : (PtrEvent (GUI_OBJ_REF.Child C This) s Event (BaseX + C.OffsetX)
          (BaseY + C.OffsetY) (OffsetX - C.OffsetX) (OffsetY - C.OffsetY)).2 with
      | some o =>
        refine ⟨[{ Obj := GUI_OBJ_REF.Child C This, Event := Event,
                   BaseX := BaseX + C.OffsetX, BaseY := BaseY + C.OffsetY,
                   OffsetX := OffsetX - C.OffsetX, OffsetY := OffsetY - C.OffsetY,
                   Result := some o }], [C],
          Rest.filter (fun C => decide (ChildContains OffsetX OffsetY C)), ?_, ?_, ?_, ?_, ?_, ?_⟩
        · simp [recordPtr, hres]
        · simp
        · simp [PtrCall.args, childPtrArgs]
        · simp
        · simp [recordPtr, hres]
        · simp [recordPtr, hres]
      | none =>
        have hstep : (recordPtr PtrEvent (GUI_OBJ_REF.Child C This) (s, t) Event
            (BaseX + C.OffsetX) (BaseY + C.OffsetY) (OffsetX - C.OffsetX)
            (OffsetY - C.OffsetY)) =
            (((PtrEvent (GUI_OBJ_REF.Child C This) s Event (BaseX + C.OffsetX)
                (BaseY + C.OffsetY) (OffsetX - C.OffsetX) (OffsetY - C.OffsetY)).1,
              t ++ [{ Obj := GUI_OBJ_REF.Child C This, Event := Event,
                      BaseX := BaseX + C.OffsetX, BaseY := BaseY + C.OffsetY,
                      OffsetX := OffsetX - C.OffsetX, OffsetY := OffsetY - C.OffsetY,
                      Result := none }]), none) := by
          simp [recordPtr, hres]
        rw [hstep]
        obtain ⟨E, L, R, e1, e2, e3, e4, e5, e6⟩ := ih
          (PtrEvent (GUI_OBJ_REF.Child C This) s Event (BaseX + C.OffsetX)
            (BaseY + C.OffsetY) (OffsetX - C.OffsetX) (OffsetY - C.OffsetY)).1
          (t ++ [{ Obj := GUI_OBJ_REF.Child C This, Event := Event,
                   BaseX := BaseX + C.OffsetX, BaseY := BaseY + C.OffsetY,
                   OffsetX := OffsetX - C.OffsetX, OffsetY := OffsetY - C.OffsetY,
                   Result := none }]) hRest
        have hs := ptrLog_step
          { Obj := GUI_OBJ_REF.Child C This, Event := Event,
            BaseX := BaseX + C.OffsetX, BaseY := BaseY + C.OffsetY,
            OffsetX := OffsetX - C.OffsetX, OffsetY := OffsetY - C.OffsetY,
            Result := none } E _ rfl e4 e5
        refine ⟨_ :: E, C :: L, R, ?_, ?_, ?_, hs.1, hs.2, e6⟩
        · rw [e1]; simp
        · rw [e2]; simp
        · simp [PtrCall.args, childPtrArgs, e3]
    · have hyes : (OffsetX < C.OffsetX ∨ OffsetX ≥ C.OffsetX + C.Width ∨
          OffsetY < C.OffsetY ∨ OffsetY ≥ C.OffsetY + C.Height) := by
        unfold ChildContains at hc; omega
      rw [if_pos hyes, List.filter_cons_of_neg (by simpa using hc)]
      exact ih s t hRest

/-- The instrumented walk runs the callbacks as the plain walk does: same state, same
returned pointer. -/
theorem GuiObjDelegatePtrEvent_recordPtr {σ : Type}
    (PtrEvent : GUI_OBJ_REF → σ → GUI_PTR_EVENT → Int → Int → Int → Int → σ × Option GUI_OBJ_REF)
    (This : GUI_OBJ_REF) (Children : List GUI_OBJ) (s : σ) (t : List PtrCall)
    (Event : GUI_PTR_EVENT) (BaseX BaseY OffsetX OffsetY : Int) :
    (GuiObjDelegatePtrEvent (recordPtr PtrEvent) This Children (s, t) Event
        BaseX BaseY OffsetX OffsetY).1.1 =
      (GuiObjDelegatePtrEvent PtrEvent This Children s Event BaseX BaseY OffsetX OffsetY).1 ∧
    (GuiObjDelegatePtrEvent (recordPtr PtrEvent) This Children (s, t) Event
        BaseX BaseY OffsetX OffsetY).2 =
      (GuiObjDelegatePtrEvent PtrEvent This Children s Event BaseX BaseY OffsetX OffsetY).2 := by
  induction Children generalizing s t with
  | nil => simp [GuiObjDelegatePtrEvent]
  | cons C Rest ih =>
    rw [GuiObjDelegatePtrEvent, GuiObjDelegatePtrEvent]
    split_ifs with hc
    · exact ih s t
    · cases hres : (PtrEvent (GUI_OBJ_REF.Child C This) s Event (toINT64 (BaseX + C.OffsetX))
          (toINT64 (BaseY + C.OffsetY)) (toINT64 (OffsetX - C.OffsetX))
          (toINT64 (OffsetY - C.OffsetY))) with
      | mk s1 o =>
        cases o with
        | some o => simp [recordPtr, hres]
        | none =>
          simp only [recordPtr, hres]
          exact ih s1 _

/-- C11: `GuiObjDelegatePtrEvent` invokes `PtrEvent` on an initial segment `L` of the
children whose bounds contain the point, in list order, and on no other child; each
invocation has the base increased and the offset reduced by the child's own offset;
every invocation but the last returned `NULL`, the result of the walk is what the last
invocation returned (`NULL` when there was none), and when the result is `NULL` every
containing child was invoked.  So the result is that of the first containing child
whose handler returns non-null, and no later child is invoked. -/
theorem GuiObjDelegatePtrEvent_first_claiming {σ : Type}
    (PtrEvent : GUI_OBJ_REF → σ → GUI_PTR_EVENT → Int → Int → Int → Int → σ × Option GUI_OBJ_REF)
    (This : GUI_OBJ_REF) (Children : List GUI_OBJ) (s : σ)
    (Event : GUI_PTR_EVENT) (BaseX BaseY OffsetX OffsetY : Int)
    (hr : ∀ Child ∈ Children, PtrEventInRange BaseX BaseY OffsetX OffsetY Child) :
    ∃ (E : List PtrCall) (L R : List GUI_OBJ),
      (GuiObjDelegatePtrEvent (recordPtr PtrEvent) This Children (s, []) Event
        BaseX BaseY OffsetX OffsetY).1.2 = E ∧
      Children.filter (fun C => decide (ChildContains OffsetX OffsetY C)) = L ++ R ∧
      E.map PtrCall.args = L.map (childPtrArgs This Event BaseX BaseY OffsetX OffsetY) ∧
      (∀ c ∈ E.dropLast, c.Result = none) ∧
      (GuiObjDelegatePtrEvent PtrEvent This Children s Event
        BaseX BaseY OffsetX OffsetY).2 = E.getLast?.bind PtrCall.Result ∧
      ((GuiObjDelegatePtrEvent PtrEvent This Children s Event
        BaseX BaseY OffsetX OffsetY).2 = none → R = []) := by
  obtain ⟨E, L, R, e1, e2, e3, e4, e5, e6⟩ :=
    GuiObjDelegatePtrEvent_log PtrEvent This Children s [] Event BaseX BaseY OffsetX OffsetY hr
  have hrec := GuiObjDelegatePtrEvent_recordPtr PtrEvent This Children s [] Event
    BaseX BaseY OffsetX OffsetY
  rw [hrec.2] at e5 e6
  exact ⟨E, L, R, by rw [e1]; rfl, e2, e3, e4, e5, e6⟩

/-- Witness for C11: the children `[A, B]` with `A = (0, 0, 10, 10)` and `B = (0, 0, 20,
20)` and the point `(15, 5)`: only `B` contains the point, it is invoked with the
unchanged base and offset (its own offset is `(0, 0)`) and claims the event. -/
theorem GuiObjDelegatePtrEvent_first_claiming_witness :
    (∀ Child ∈ [({ Id := 0, OffsetX := 0, OffsetY := 0, Width := 10, Height := 10 } : GUI_OBJ),
                { Id := 1, OffsetX := 0, OffsetY := 0, Width := 20, Height := 20 }],
      PtrEventInRange 0 0 15 5 Child) ∧
    (GuiObjDelegatePtrEvent (recordPtr claimPtr) GUI_OBJ_REF.Screen
        [{ Id := 0, OffsetX := 0, OffsetY := 0, Width := 10, Height := 10 },
         { Id := 1, OffsetX := 0, OffsetY := 0, Width := 20, Height := 20 }]
        ((), []) GUI_PTR_EVENT.GuiPointerPrimaryDown 0 0 15 5).1.2 =
      [{ Obj := GUI_OBJ_REF.Child
                  { Id := 1, OffsetX := 0, OffsetY := 0, Width := 20, Height := 20 }
                  GUI_OBJ_REF.Screen,
         Event := GUI_PTR_EVENT.GuiPointerPrimaryDown,
         BaseX := 0, BaseY := 0, OffsetX := 15, OffsetY := 5,
         Result := some (GUI_OBJ_REF.Child
                  { Id := 1, OffsetX := 0, OffsetY := 0, Width := 20, Height := 20 }
                  GUI_OBJ_REF.Screen) }] ∧
    ∃ (E : List PtrCall) (L R : List GUI_OBJ),
      (GuiObjDelegatePtrEvent (recordPtr claimPtr) GUI_OBJ_REF.Screen
        [{ Id := 0, OffsetX := 0, OffsetY := 0, Width := 10, Height := 10 },
         { Id := 1, OffsetX := 0, OffsetY := 0, Width := 20, Height := 20 }]
        ((), []) GUI_PTR_EVENT.GuiPointerPrimaryDown 0 0 15 5).1.2 = E ∧
      List.filter (fun C => decide (ChildContains 15 5 C))
        [({ Id := 0, OffsetX := 0, OffsetY := 0, Width := 10, Height := 10 } : GUI_OBJ),
         { Id := 1, OffsetX := 0, OffsetY := 0, Width := 20, Height := 20 }] = L ++ R ∧
      E.map PtrCall.args =
        L.map (childPtrArgs GUI_OBJ_REF.Screen GUI_PTR_EVENT.GuiPointerPrimaryDown 0 0 15 5) ∧
      (∀ c ∈ E.dropLast, c.Result = none) ∧
      (GuiObjDelegatePtrEvent claimPtr GUI_OBJ_REF.Screen
        [{ Id := 0, OffsetX := 0, OffsetY := 0, Width := 10, Height := 10 },
         { Id := 1, OffsetX := 0, OffsetY := 0, Width := 20, Height := 20 }]
        () GUI_PTR_EVENT.GuiPointerPrimaryDown 0 0 15 5).2 = E.getLast?.bind PtrCall.Result ∧
      ((GuiObjDelegatePtrEvent claimPtr GUI_OBJ_REF.Screen
        [{ Id := 0, OffsetX := 0, OffsetY := 0, Width := 10, Height := 10 },
         { Id := 1, OffsetX := 0, OffsetY := 0, Width := 20, Height := 20 }]
        () GUI_PTR_EVENT.GuiPointerPrimaryDown 0 0 15 5).2 = none → R = []) :=
  ⟨by decide, by decide,
   GuiObjDelegatePtrEvent_first_claiming claimPtr GUI_OBJ_REF.Screen
     [{ Id := 0, OffsetX := 0, OffsetY := 0, Width := 10, Height := 10 },
      { Id := 1, OffsetX := 0, OffsetY := 0, Width := 20, Height := 20 }]
     () GUI_PTR_EVENT.GuiPointerPrimaryDown 0 0 15 5 (by decide)⟩

/-! ### The pointer part of `GuiDrawLoop` -/

/-- With an object held, one iteration makes exactly one callback invocation, on the
held object, with its base coordinates and the pointer offset relative to them; the
children of the screen play no part. -/
theorem GuiDrawLoopPointer_held {σ : Type}
    (PtrEvent : GUI_OBJ_REF → σ → GUI_PTR_EVENT → Int → Int → Int → Int → σ × Option GUI_OBJ_REF)
    (ScreenChildren : List GUI_OBJ) (s : σ) (Hold : GUI_OBJ_REF)
    (PointerState : GUI_POINTER_STATE) :
    GuiDrawLoopPointer PtrEvent ScreenChildren s (some Hold) PointerState =
      ((PtrEvent Hold s
          (if PointerState.PrimaryDown = false then GUI_PTR_EVENT.GuiPointerPrimaryUp
           else GUI_PTR_EVENT.GuiPointerPrimaryHold)
          (GuiGetBaseCoords Hold).1 (GuiGetBaseCoords Hold).2
          (toINT64 (PointerState.X - (GuiGetBaseCoords Hold).1))
          (toINT64 (PointerState.Y - (GuiGetBaseCoords Hold).2))).1,
       if PointerState.PrimaryDown = false then none else some Hold) := by
  unfold GuiDrawLoopPointer
  simp

/-- With nothing held and the button up, one iteration does nothing. -/
theorem GuiDrawLoopPointer_idle {σ : Type}
    (PtrEvent : GUI_OBJ_REF → σ → GUI_PTR_EVENT → Int → Int → Int → Int → σ × Option GUI_OBJ_REF)
    (ScreenChildren : List GUI_OBJ) (s : σ) (PointerState : GUI_POINTER_STATE)
    (hup : PointerState.PrimaryDown = false) :
    GuiDrawLoopPointer PtrEvent ScreenChildren s none PointerState = (s, none) := by
  unfold GuiDrawLoopPointer
  simp [hup]

/-- With nothing held and the button down, one iteration hit-tests from the root; the
object found becomes the held object and receives a hold event in the same iteration. -/
theorem GuiDrawLoopPointer_press {σ : Type}
    (PtrEvent : GUI_OBJ_REF → σ → GUI_PTR_EVENT → Int → Int → Int → Int → σ × Option GUI_OBJ_REF)
    (ScreenChildren : List GUI_OBJ) (s : σ) (PointerState : GUI_POINTER_STATE)
    (hdown : PointerState.PrimaryDown = true) :
    GuiDrawLoopPointer PtrEvent ScreenChildren s none PointerState =
      match (GuiObjDelegatePtrEvent PtrEvent GUI_OBJ_REF.Screen ScreenChildren s
          GUI_PTR_EVENT.GuiPointerPrimaryDown 0 0 PointerState.X PointerState.Y).2 with
      | none =>
        ((GuiObjDelegatePtrEvent PtrEvent GUI_OBJ_REF.Screen ScreenChildren s
          GUI_PTR_EVENT.GuiPointerPrimaryDown 0 0 PointerState.X PointerState.Y).1, none)
      | some Hold =>
        ((PtrEvent Hold
            (GuiObjDelegatePtrEvent PtrEvent GUI_OBJ_REF.Screen ScreenChildren s
              GUI_PTR_EVENT.GuiPointerPrimaryDown 0 0 PointerState.X PointerState.Y).1
            GUI_PTR_EVENT.GuiPointerPrimaryHold
            (GuiGetBaseCoords Hold).1 (GuiGetBaseCoords Hold).2
            (toINT64 (PointerState.X - (GuiGetBaseCoords Hold).1))
            (toINT64 (PointerState.Y - (GuiGetBaseCoords Hold).2))).1,
         some Hold) := by
  unfold GuiDrawLoopPointer
  simp only [hdown, and_self, if_true]
  cases (GuiObjDelegatePtrEvent PtrEvent GUI_OBJ_REF.Screen ScreenChildren s
      GUI_PTR_EVENT.GuiPointerPrimaryDown 0 0 PointerState.X PointerState.Y).2 with
  | none => rfl
  | some H => simp

/-- Iterations with the button up and nothing held deliver no event. -/
theorem GuiDrawLoopPointerRun_idle {σ : Type}
    (PtrEvent : GUI_OBJ_REF → σ → GUI_PTR_EVENT → Int → Int → Int → Int → σ × Option GUI_OBJ_REF)
    (ScreenChildren : List GUI_OBJ) (Polls : List GUI_POINTER_STATE) (s : σ)
    (hup : ∀ P ∈ Polls, P.PrimaryDown = false) :
    GuiDrawLoopPointerRun PtrEvent ScreenChildren Polls s none = (s, none) := by
  induction Polls with
  | nil => rfl
  | cons P Rest ih =>
    rw [GuiDrawLoopPointerRun, GuiDrawLoopPointer_idle _ _ _ _ (hup P (List.mem_cons_self _ _))]
    exact ih (fun Q hQ => hup Q (List.mem_cons_of_mem _ hQ))

/-- The run over a list of polls followed by one more poll. -/
theorem GuiDrawLoopPointerRun_append {σ : Type}
    (PtrEvent : GUI_OBJ_REF → σ → GUI_PTR_EVENT → Int → Int → Int → Int → σ × Option GUI_OBJ_REF)
    (ScreenChildren : List GUI_OBJ) (Polls : List GUI_POINTER_STATE) (P : GUI_POINTER_STATE)
    (s : σ) (HoldObject : Option GUI_OBJ_REF) :
    GuiDrawLoopPointerRun PtrEvent ScreenChildren (Polls ++ [P]) s HoldObject =
      GuiDrawLoopPointer PtrEvent ScreenChildren
        (GuiDrawLoopPointerRun PtrEvent ScreenChildren Polls s HoldObject).1
        (GuiDrawLoopPointerRun PtrEvent ScreenChildren Polls s HoldObject).2 P := by
  induction Polls generalizing s HoldObject with
  | nil => rfl
  | cons Q Rest ih =>
    rw [List.cons_append, GuiDrawLoopPointerRun, GuiDrawLoopPointerRun]
    exact ih _ _

/-- C12: in the pointer part of an iteration with an object held and the primary button
down, exactly one event is delivered, `GuiPointerPrimaryHold` to the held object, with
the held object's base coordinates and the offset `pointer position - base` (also when
that offset lies outside the object); the held object stays held and the children of the
screen are not consulted (no hit-test).  Example: the object `(0, 0, 10, 10)` held and
the pointer at `(50, 50)` give one hold event with base `(0, 0)` and offset `(50, 50)`. -/
theorem GuiDrawLoopPointer_hold_event {σ : Type}
    (PtrEvent : GUI_OBJ_REF → σ → GUI_PTR_EVENT → Int → Int → Int → Int → σ × Option GUI_OBJ_REF)
    (ScreenChildren : List GUI_OBJ) (s : σ) (t : List PtrCall) (Hold : GUI_OBJ_REF)
    (PointerState : GUI_POINTER_STATE)
    (hdown : PointerState.PrimaryDown = true)
    (hX : InINT64 (PointerState.X - (GuiGetBaseCoords Hold).1))
    (hY : InINT64 (PointerState.Y - (GuiGetBaseCoords Hold).2)) :
    GuiDrawLoopPointer (recordPtr PtrEvent) ScreenChildren (s, t) (some Hold) PointerState =
      (((PtrEvent Hold s GUI_PTR_EVENT.GuiPointerPrimaryHold
            (GuiGetBaseCoords Hold).1 (GuiGetBaseCoords Hold).2
            (PointerState.X - (GuiGetBaseCoords Hold).1)
            (PointerState.Y - (GuiGetBaseCoords Hold).2)).1,
        t ++ [{ Obj := Hold, Event := GUI_PTR_EVENT.GuiPointerPrimaryHold,
                BaseX := (GuiGetBaseCoords Hold).1, BaseY := (GuiGetBaseCoords Hold).2,
                OffsetX := PointerState.X - (GuiGetBaseCoords Hold).1,
                OffsetY := PointerState.Y - (GuiGetBaseCoords Hold).2,
                Result := (PtrEvent Hold s GUI_PTR_EVENT.GuiPointerPrimaryHold
                  (GuiGetBaseCoords Hold).1 (GuiGetBaseCoords Hold).2
                  (PointerState.X - (GuiGetBaseCoords Hold).1)
                  (PointerState.Y - (GuiGetBaseCoords Hold).2)).2 }]),
       some Hold) ∧
    (∀ ScreenChildren2 : List GUI_OBJ,
      GuiDrawLoopPointer (recordPtr PtrEvent) ScreenChildren2 (s, t) (some Hold) PointerState =
      GuiDrawLoopPointer (recordPtr PtrEvent) ScreenChildren (s, t) (some Hold) PointerState) ∧
    (GuiDrawLoopPointer (recordPtr claimPtr)
        [{ Id := 0, OffsetX := 0, OffsetY := 0, Width := 10, Height := 10 }] ((), [])
        (some (GUI_OBJ_REF.Child
          { Id := 0, OffsetX := 0, OffsetY := 0, Width := 10, Height := 10 } GUI_OBJ_REF.Screen))
        { X := 50, Y := 50, PrimaryDown := true }).1.2.map PtrCall.args =
      [(GUI_OBJ_REF.Child
          { Id := 0, OffsetX := 0, OffsetY := 0, Width := 10, Height := 10 } GUI_OBJ_REF.Screen,
        GUI_PTR_EVENT.GuiPointerPrimaryHold, 0, 0, 50, 50)] := by
  unfold InINT64 at hX hY
  refine ⟨?_, ?_, by decide⟩
  · rw [GuiDrawLoopPointer_held, toINT64_of_range _ hX.1 hX.2, toINT64_of_range _ hY.1 hY.2]
    simp [hdown, recordPtr]
  · intro ScreenChildren2
    rw [GuiDrawLoopPointer_held, GuiDrawLoopPointer_held]

/-- Witness for C12: the object `(3, 4, 10, 10)`, a child of the screen, is held and the
pointer is at `(1, 50)`: one hold event with base `(3, 4)` and offset `(-2, 46)`. -/
theorem GuiDrawLoopPointer_hold_event_witness :
    GuiDrawLoopPointer (recordPtr claimPtr) [] ((), [])
        (some (GUI_OBJ_REF.Child
          { Id := 0, OffsetX := 3, OffsetY := 4, Width := 10, Height := 10 } GUI_OBJ_REF.Screen))
        { X := 1, Y := 50, PrimaryDown := true } =
      (((), [{ Obj := GUI_OBJ_REF.Child
                  { Id := 0, OffsetX := 3, OffsetY := 4, Width := 10, Height := 10 }
                  GUI_OBJ_REF.Screen,
               Event := GUI_PTR_EVENT.GuiPointerPrimaryHold,
               BaseX := 3, BaseY := 4, OffsetX := -2, OffsetY := 46,
               Result := some (GUI_OBJ_REF.Child
                  { Id := 0, OffsetX := 3, OffsetY := 4, Width := 10, Height := 10 }
                  GUI_OBJ_REF.Screen) }]),
       some (GUI_OBJ_REF.Child
          { Id := 0, OffsetX := 3, OffsetY := 4, Width := 10, Height := 10 }
          GUI_OBJ_REF.Screen)) :=
  (GuiDrawLoopPointer_hold_event claimPtr [] () []
    (GUI_OBJ_REF.Child
      { Id := 0, OffsetX := 3, OffsetY := 4, Width := 10, Height := 10 } GUI_OBJ_REF.Screen)
    { X := 1, Y := 50, PrimaryDown := true } rfl (by decide) (by decide)).1

/-- One iteration with an object held, in terms of the logged event. -/
theorem GuiDrawLoopPointer_held_log {σ : Type}
    (PtrEvent : GUI_OBJ_REF → σ → GUI_PTR_EVENT → Int → Int → Int → Int → σ × Option GUI_OBJ_REF)
    (ScreenChildren : List GUI_OBJ) (s : σ) (t : List PtrCall) (Hold : GUI_OBJ_REF)
    (PointerState : GUI_POINTER_STATE)
    (hX : InINT64 (PointerState.X - (GuiGetBaseCoords Hold).1))
    (hY : InINT64 (PointerState.Y - (GuiGetBaseCoords Hold).2)) :
    GuiDrawLoopPointer (recordPtr PtrEvent) ScreenChildren (s, t) (some Hold) PointerState =
      ((heldPtrState PtrEvent Hold s
          (if PointerState.PrimaryDown = false then GUI_PTR_EVENT.GuiPointerPrimaryUp
           else GUI_PTR_EVENT.GuiPointerPrimaryHold) PointerState,
        t ++ [heldPtrCall PtrEvent Hold s
          (if PointerState.PrimaryDown = false then GUI_PTR_EVENT.GuiPointerPrimaryUp
           else GUI_PTR_EVENT.GuiPointerPrimaryHold) PointerState]),
       if PointerState.PrimaryDown = false then none else some Hold) := by
  unfold InINT64 at hX hY
  rw [GuiDrawLoopPointer_held, toINT64_of_range _ hX.1 hX.2, toINT64_of_range _ hY.1 hY.2]
  simp [recordPtr, heldPtrState, heldPtrCall]

/-- C13: on the iteration where the button is polled released while an object is held,
the held object receives exactly one event, `GuiPointerPrimaryUp`, and no hold event,
and `HoldObject` becomes `NULL`; further iterations with the button up deliver no event;
the next iteration with the button down resolves the target by the hit-test
`GuiObjDelegatePtrEvent` from the root.  In the scenario of the object `(0, 0, 10, 10)`
pressed at `(5, 5)`, dragged to `(50, 50)`, released there and pressed again at `(5, 5)`,
the object receives exactly one up event, between the hold at `(50, 50)` and the next
down at `(5, 5)`. -/
theorem GuiDrawLoopPointerRun_release {σ : Type}
    (PtrEvent : GUI_OBJ_REF → σ → GUI_PTR_EVENT → Int → Int → Int → Int → σ × Option GUI_OBJ_REF)
    (ScreenChildren : List GUI_OBJ) (s : σ) (t : List PtrCall) (Hold : GUI_OBJ_REF)
    (Pup : GUI_POINTER_STATE) (Ups : List GUI_POINTER_STATE) (Pdown : GUI_POINTER_STATE)
    (hup : Pup.PrimaryDown = false) (hups : ∀ P ∈ Ups, P.PrimaryDown = false)
    (hdown : Pdown.PrimaryDown = true)
    (hX : InINT64 (Pup.X - (GuiGetBaseCoords Hold).1))
    (hY : InINT64 (Pup.Y - (GuiGetBaseCoords Hold).2)) :
    GuiDrawLoopPointer (recordPtr PtrEvent) ScreenChildren (s, t) (some Hold) Pup =
      ((heldPtrState PtrEvent Hold s GUI_PTR_EVENT.GuiPointerPrimaryUp Pup,
        t ++ [heldPtrCall PtrEvent Hold s GUI_PTR_EVENT.GuiPointerPrimaryUp Pup]), none) ∧
    GuiDrawLoopPointerRun (recordPtr PtrEvent) ScreenChildren (Pup :: Ups) (s, t) (some Hold) =
      ((heldPtrState PtrEvent Hold s GUI_PTR_EVENT.GuiPointerPrimaryUp Pup,
        t ++ [heldPtrCall PtrEvent Hold s GUI_PTR_EVENT.GuiPointerPrimaryUp Pup]), none) ∧
    (GuiDrawLoopPointerRun (recordPtr PtrEvent) ScreenChildren (Pup :: Ups ++ [Pdown]) (s, t)
        (some Hold)).2 =
      (GuiObjDelegatePtrEvent (recordPtr PtrEvent) GUI_OBJ_REF.Screen ScreenChildren
        (heldPtrState PtrEvent Hold s GUI_PTR_EVENT.GuiPointerPrimaryUp Pup,
         t ++ [heldPtrCall PtrEvent Hold s GUI_PTR_EVENT.GuiPointerPrimaryUp Pup])
        GUI_PTR_EVENT.GuiPointerPrimaryDown 0 0 Pdown.X Pdown.Y).2 ∧
    (GuiDrawLoopPointerRun (recordPtr claimPtr)
        [{ Id := 0, OffsetX := 0, OffsetY := 0, Width := 10, Height := 10 }]
        [{ X := 5, Y := 5, PrimaryDown := true }, { X := 50, Y := 50, PrimaryDown := true },
         { X := 50, Y := 50, PrimaryDown := false }, { X := 60, Y := 60, PrimaryDown := false },
         { X := 5, Y := 5, PrimaryDown := true }] ((), []) none).1.2.map
        (fun c => (c.Event, c.OffsetX, c.OffsetY)) =
      [(GUI_PTR_EVENT.GuiPointerPrimaryDown, 5, 5), (GUI_PTR_EVENT.GuiPointerPrimaryHold, 5, 5),
       (GUI_PTR_EVENT.GuiPointerPrimaryHold, 50, 50), (GUI_PTR_EVENT.GuiPointerPrimaryUp, 50, 50),
       (GUI_PTR_EVENT.GuiPointerPrimaryDown, 5, 5), (GUI_PTR_EVENT.GuiPointerPrimaryHold, 5, 5)] := by
  have h1 : GuiDrawLoopPointer (recordPtr PtrEvent) ScreenChildren (s, t) (some Hold) Pup =
      ((heldPtrState PtrEvent Hold s GUI_PTR_EVENT.GuiPointerPrimaryUp Pup,
        t ++ [heldPtrCall PtrEvent Hold s GUI_PTR_EVENT.GuiPointerPrimaryUp Pup]), none) := by
    rw [GuiDrawLoopPointer_held_log _ _ _ _ _ _ hX hY]
    simp [hup]
  have h2 : GuiDrawLoopPointerRun (recordPtr PtrEvent) ScreenChildren (Pup :: Ups) (s, t)
      (some Hold) =
      ((heldPtrState PtrEvent Hold s GUI_PTR_EVENT.GuiPointerPrimaryUp Pup,
        t ++ [heldPtrCall PtrEvent Hold s GUI_PTR_EVENT.GuiPointerPrimaryUp Pup]), none) := by
    rw [GuiDrawLoopPointerRun, h1]
    exact GuiDrawLoopPointerRun_idle _ _ _ _ hups
  refine ⟨h1, h2, ?_, by decide⟩
  rw [GuiDrawLoopPointerRun_append, h2,
    GuiDrawLoopPointer_press _ _ _ _ hdown]
  cases (GuiObjDelegatePtrEvent (recordPtr PtrEvent) GUI_OBJ_REF.Screen ScreenChildren
      (heldPtrState PtrEvent Hold s GUI_PTR_EVENT.GuiPointerPrimaryUp Pup,
       t ++ [heldPtrCall PtrEvent Hold s GUI_PTR_EVENT.GuiPointerPrimaryUp Pup])
      GUI_PTR_EVENT.GuiPointerPrimaryDown 0 0 Pdown.X Pdown.Y).2 with
  | none => rfl
  | some H => rfl

/-- Witness for C13: the object `(0, 0, 10, 10)` is held; the button is released at
`(50, 50)`, stays up for one more poll and is pressed again at `(5, 5)`: one up event,
nothing held afterwards. -/
theorem GuiDrawLoopPointerRun_release_witness :
    GuiDrawLoopPointerRun (recordPtr claimPtr)
        [{ Id := 0, OffsetX := 0, OffsetY := 0, Width := 10, Height := 10 }]
        [{ X := 50, Y := 50, PrimaryDown := false }, { X := 60, Y := 60, PrimaryDown := false }]
        ((), [])
        (some (GUI_OBJ_REF.Child
          { Id := 0, OffsetX := 0, OffsetY := 0, Width := 10, Height := 10 }
          GUI_OBJ_REF.Screen)) =
      (((), [{ Obj := GUI_OBJ_REF.Child
                  { Id := 0, OffsetX := 0, OffsetY := 0, Width := 10, Height := 10 }
                  GUI_OBJ_REF.Screen,
               Event := GUI_PTR_EVENT.GuiPointerPrimaryUp,
               BaseX := 0, BaseY := 0, OffsetX := 50, OffsetY := 50,
               Result := some (GUI_OBJ_REF.Child
                  { Id := 0, OffsetX := 0, OffsetY := 0, Width := 10, Height := 10 }
                  GUI_OBJ_REF.Screen) }]), none) :=
  (GuiDrawLoopPointerRun_release claimPtr
    [{ Id := 0, OffsetX := 0, OffsetY := 0, Width := 10, Height := 10 }] () []
    (GUI_OBJ_REF.Child
      { Id := 0, OffsetX := 0, OffsetY := 0, Width := 10, Height := 10 } GUI_OBJ_REF.Screen)
    { X := 50, Y := 50, PrimaryDown := false } [{ X := 60, Y := 60, PrimaryDown := false }]
    { X := 5, Y := 5, PrimaryDown := true } rfl (by decide) rfl (by decide) (by decide)).2.1

/-- C14 as stated fails: with the button down at `(50, 50)`, where no object lies,
nothing becomes held; in the next iteration the button is still down (not newly down),
the pointer is at `(5, 5)`, and the hit-test from the root is performed again: the object
`(0, 0, 10, 10)` receives `GuiPointerPrimaryDown` and becomes the held object. -/
theorem GuiDrawLoopPointer_hit_test_not_newly_down :
    GuiDrawLoopPointer (recordPtr claimPtr)
        [{ Id := 0, OffsetX := 0, OffsetY := 0, Width := 10, Height := 10 }] ((), []) none
        { X := 50, Y := 50, PrimaryDown := true } = (((), []), none) ∧
    ({ X := 50, Y := 50, PrimaryDown := true } : GUI_POINTER_STATE).PrimaryDown = true ∧
    (GuiDrawLoopPointerRun (recordPtr claimPtr)
        [{ Id := 0, OffsetX := 0, OffsetY := 0, Width := 10, Height := 10 }]
        [{ X := 50, Y := 50, PrimaryDown := true }, { X := 5, Y := 5, PrimaryDown := true }]
        ((), []) none).1.2.map PtrCall.args =
      [(GUI_OBJ_REF.Child
          { Id := 0, OffsetX := 0, OffsetY := 0, Width := 10, Height := 10 } GUI_OBJ_REF.Screen,
        GUI_PTR_EVENT.GuiPointerPrimaryDown, 0, 0, 5, 5),
       (GUI_OBJ_REF.Child
          { Id := 0, OffsetX := 0, OffsetY := 0, Width := 10, Height := 10 } GUI_OBJ_REF.Screen,
        GUI_PTR_EVENT.GuiPointerPrimaryHold, 0, 0, 5, 5)] ∧
    (GuiDrawLoopPointerRun (recordPtr claimPtr)
        [{ Id := 0, OffsetX := 0, OffsetY := 0, Width := 10, Height := 10 }]
        [{ X := 50, Y := 50, PrimaryDown := true }, { X := 5, Y := 5, PrimaryDown := true }]
        ((), []) none).2 =
      some (GUI_OBJ_REF.Child
          { Id := 0, OffsetX := 0, OffsetY := 0, Width := 10, Height := 10 }
          GUI_OBJ_REF.Screen) := by
  decide

/-- C14 (amended): the hit-test from the root (`GuiObjDelegatePtrEvent` with
`GuiPointerPrimaryDown`) is performed in an iteration exactly when nothing is held and
the primary button is polled down in this iteration, whatever the previous poll was.
When it is performed, the object it returns becomes the held object and the only further
events of the iteration are hold events; otherwise the iteration does not depend on the
children of the screen and delivers no `GuiPointerPrimaryDown`. -/
theorem GuiDrawLoopPointer_hit_test_iff {σ : Type}
    (PtrEvent : GUI_OBJ_REF → σ → GUI_PTR_EVENT → Int → Int → Int → Int → σ × Option GUI_OBJ_REF)
    (ScreenChildren : List GUI_OBJ) (s : σ) (t : List PtrCall)
    (HoldObject : Option GUI_OBJ_REF) (PointerState : GUI_POINTER_STATE) :
    (HoldObject = none → PointerState.PrimaryDown = true →
      (GuiDrawLoopPointer (recordPtr PtrEvent) ScreenChildren (s, t) HoldObject
          PointerState).2 =
        (GuiObjDelegatePtrEvent (recordPtr PtrEvent) GUI_OBJ_REF.Screen ScreenChildren (s, t)
          GUI_PTR_EVENT.GuiPointerPrimaryDown 0 0 PointerState.X PointerState.Y).2 ∧
      ∃ E : List PtrCall,
        (GuiDrawLoopPointer (recordPtr PtrEvent) ScreenChildren (s, t) HoldObject
            PointerState).1.2 =
          (GuiObjDelegatePtrEvent (recordPtr PtrEvent) GUI_OBJ_REF.Screen ScreenChildren (s, t)
            GUI_PTR_EVENT.GuiPointerPrimaryDown 0 0 PointerState.X PointerState.Y).1.2 ++ E ∧
        ∀ c ∈ E, c.Event = GUI_PTR_EVENT.GuiPointerPrimaryHold) ∧
    ((HoldObject ≠ none ∨ PointerState.PrimaryDown = false) →
      (∀ ScreenChildren2 : List GUI_OBJ,
        GuiDrawLoopPointer (recordPtr PtrEvent) ScreenChildren2 (s, t) HoldObject PointerState =
        GuiDrawLoopPointer (recordPtr PtrEvent) ScreenChildren (s, t) HoldObject PointerState) ∧
      ∃ E : List PtrCall,
        (GuiDrawLoopPointer (recordPtr PtrEvent) ScreenChildren (s, t) HoldObject
            PointerState).1.2 = t ++ E ∧
        ∀ c ∈ E, c.Event ≠ GUI_PTR_EVENT.GuiPointerPrimaryDown) := by
  constructor
  · intro hnone hdown
    subst hnone
    rw [GuiDrawLoopPointer_press _ _ _ _ hdown]
    cases hres : (GuiObjDelegatePtrEvent (recordPtr PtrEvent) GUI_OBJ_REF.Screen ScreenChildren
        (s, t) GUI_PTR_EVENT.GuiPointerPrimaryDown 0 0 PointerState.X PointerState.Y).2 with
    | none => exact ⟨rfl, [], by simp, by simp⟩
    | some H =>
      refine ⟨rfl, _, rfl, ?_⟩
      simp
  · intro hcase
    cases HoldObject with
    | some H =>
      refine ⟨fun _ => by rw [GuiDrawLoopPointer_held, GuiDrawLoopPointer_held], ?_⟩
      rw [GuiDrawLoopPointer_held]
      refine ⟨_, rfl, ?_⟩
      cases hp : PointerState.PrimaryDown <;> simp
    | none =>
      have hup : PointerState.PrimaryDown = false := by
        rcases hcase with h | h
        · exact absurd rfl h
        · exact h
      refine ⟨fun _ => by
        rw [GuiDrawLoopPointer_idle _ _ _ _ hup, GuiDrawLoopPointer_idle _ _ _ _ hup], ?_⟩
      rw [GuiDrawLoopPointer_idle _ _ _ _ hup]
      exact ⟨[], by simp, by simp⟩

/-- Witness for amended C14: with nothing held and the button down at `(5, 5)` over the
object `(0, 0, 10, 10)`, the object returned by the hit-test becomes the held object. -/
theorem GuiDrawLoopPointer_hit_test_iff_witness :
    (GuiDrawLoopPointer (recordPtr claimPtr)
        [{ Id := 0, OffsetX := 0, OffsetY := 0, Width := 10, Height := 10 }] ((), []) none
        { X := 5, Y := 5, PrimaryDown := true }).2 =
      (GuiObjDelegatePtrEvent (recordPtr claimPtr) GUI_OBJ_REF.Screen
        [{ Id := 0, OffsetX := 0, OffsetY := 0, Width := 10, Height := 10 }] ((), [])
        GUI_PTR_EVENT.GuiPointerPrimaryDown 0 0
        (({ X := 5, Y := 5, PrimaryDown := true } : GUI_POINTER_STATE).X : Int)
        (({ X := 5, Y := 5, PrimaryDown := true } : GUI_POINTER_STATE).Y : Int)).2 :=
  ((GuiDrawLoopPointer_hit_test_iff claimPtr
    [{ Id := 0, OffsetX := 0, OffsetY := 0, Width := 10, Height := 10 }] () [] none
    { X := 5, Y := 5, PrimaryDown := true }).1 rfl rfl).1

/-! ### Idempotence of the clip -/

/-- The interval written back by a successful clip starts inside the child and is not
empty. -/
theorem GuiClipChildBounds_some_bounds (ChildOffset : Int)
    (ChildLength ReqOffset ReqLength o l : Nat)
    (hv : ClipValid ChildOffset ChildLength ReqOffset ReqLength)
    (hr : GuiClipChildBounds ChildOffset ChildLength ReqOffset ReqLength = some (o, l)) :
    o < ChildLength ∧ 0 < l ∧ l ≤ ReqLength := by
  rw [GuiClipChildBounds_eq _ _ _ _ hv] at hr
  obtain ⟨hlo, hhi, hcl, hcl32, hro, hrl, hrl32⟩ := hv
  split at hr
  · exact Option.noConfusion hr
  · split at hr
    · simp only [Option.some.injEq, Prod.mk.injEq] at hr
      omega
    · simp only [Option.some.injEq, Prod.mk.injEq] at hr
      omega

/-- C19: when `GuiClipChildBounds` returns `TRUE` on a valid input and writes back
`(o, l)`, the call with `(o, l)` against the same child in its own coordinate frame
(`ChildOffset = 0`, same `ChildLength`) is again valid, returns `TRUE` and writes back
`(o, l)` unchanged. -/
theorem GuiClipChildBounds_idempotent (ChildOffset : Int)
    (ChildLength ReqOffset ReqLength o l : Nat)
    (hv : ClipValid ChildOffset ChildLength ReqOffset ReqLength)
    (hr : GuiClipChildBounds ChildOffset ChildLength ReqOffset ReqLength = some (o, l)) :
    ClipValid 0 ChildLength o l ∧ GuiClipChildBounds 0 ChildLength o l = some (o, l) := by
  have hb := GuiClipChildBounds_some_bounds _ _ _ _ _ _ hv hr
  obtain ⟨hlo, hhi, hcl, hcl32, hro, hrl, hrl32⟩ := hv
  have hv2 : ClipValid 0 ChildLength o l := by
    unfold ClipValid
    omega
  refine ⟨hv2, ?_⟩
  rw [GuiClipChildBounds_eq _ _ _ _ hv2, if_neg (by omega), if_pos (by omega)]
  simp

/-- Witness for C19: the child `[-3, 7)` against the request `[2, 6)` writes back
`(5, 4)`, and clipping `(5, 4)` against the child `[0, 10)` writes back `(5, 4)` again. -/
theorem GuiClipChildBounds_idempotent_witness :
    GuiClipChildBounds (-3) 10 2 4 = some (5, 4) ∧
    GuiClipChildBounds 0 10 5 4 = some (5, 4) :=
  ⟨by decide, (GuiClipChildBounds_idempotent (-3) 10 2 4 5 4 (by decide) (by decide)).2⟩

/-! ### Fatal path and commutativity of `GuiRequestDraw` -/

/-- The loop of `GuiRequestDraw` runs to its end exactly when no scanned entry passes the
test. -/
theorem GuiRequestDrawLoop_eq_none_iff (q : DrawQueue) (PosX PosY Width Height : Nat)
    (Remaining Index : Nat) :
    GuiRequestDrawLoop q PosX PosY Width Height Remaining Index = none ↔
      ∀ j, Index ≤ j → j < Index + Remaining →
        GuiRequestDrawMerges (q.entry j) PosX PosY Width Height = false := by
  constructor
  · intro h
    induction Remaining generalizing Index with
    | zero => intro j h1 h2; omega
    | succ n ih =>
      rw [GuiRequestDrawLoop] at h
      cases hm : GuiRequestDrawMerges (q.entry Index) PosX PosY Width Height with
      | true => rw [hm] at h; simp at h
      | false =>
        rw [hm] at h
        simp only [Bool.false_eq_true, if_false] at h
        intro j h1 h2
        by_cases hj : j = Index
        · rw [hj]; exact hm
        · exact ih (Index + 1) h j (by omega) (by omega)
  · exact GuiRequestDrawLoop_none q PosX PosY Width Height Remaining Index

/-- A merge leaves the count of the queue unchanged. -/
theorem GuiRequestDrawLoop_count (q q1 : DrawQueue) (PosX PosY Width Height : Nat)
    (Remaining Index : Nat)
    (h : GuiRequestDrawLoop q PosX PosY Width Height Remaining Index = some q1) :
    q1.mNumValidDrawReqs = q.mNumValidDrawReqs := by
  induction Remaining generalizing Index with
  | zero => rw [GuiRequestDrawLoop] at h; exact Option.noConfusion h
  | succ n ih =>
    rw [GuiRequestDrawLoop] at h
    split at h
    · simp only [Option.some.injEq] at h
      rw [← h]
    · exact ih (Index + 1) h

/-- The fatal path of `GuiRequestDraw` in terms of the test of the loop. -/
theorem GuiRequestDraw_fatal (q : DrawQueue) (PosX PosY Width Height : Nat) :
    ((GuiRequestDraw q PosX PosY Width Height).2 = true ↔
      (4 ≤ q.mNumValidDrawReqs ∧ ∀ i, i < q.mNumValidDrawReqs →
        GuiRequestDrawMerges (q.entry i) PosX PosY Width Height = false)) ∧
    ((GuiRequestDraw q PosX PosY Width Height).2 = true →
      (GuiRequestDraw q PosX PosY Width Height).1 = q) ∧
    ((GuiRequestDraw q PosX PosY Width Height).2 = false → q.mNumValidDrawReqs ≤ 4 →
      (GuiRequestDraw q PosX PosY Width Height).1.mNumValidDrawReqs ≤ 4) := by
  unfold GuiRequestDraw
  cases hl : GuiRequestDrawLoop q PosX PosY Width Height q.mNumValidDrawReqs 0 with
  | some q1 =>
    have hc := GuiRequestDrawLoop_count _ _ _ _ _ _ _ _ hl
    refine ⟨⟨fun h => by simp at h, fun h => ?_⟩, fun h => by simp at h, fun _ hn => ?_⟩
    · have hnone := (GuiRequestDrawLoop_eq_none_iff q PosX PosY Width Height
        q.mNumValidDrawReqs 0).2 (fun j _ hj => h.2 j (by omega))
      rw [hnone] at hl
      exact Option.noConfusion hl
    · simp only
      omega
  | none =>
    have hall := (GuiRequestDrawLoop_eq_none_iff q PosX PosY Width Height
      q.mNumValidDrawReqs 0).1 hl
    by_cases h4 : q.mNumValidDrawReqs ≥ 4
    · rw [if_pos h4]
      exact ⟨⟨fun _ => ⟨h4, fun i hi => hall i (Nat.zero_le _) (by omega)⟩, fun _ => rfl⟩,
        fun _ => rfl, fun h => by simp at h⟩
    · rw [if_neg h4]
      refine ⟨⟨fun h => by simp at h, fun h => absurd h.1 h4⟩, fun h => by simp at h,
        fun _ _ => ?_⟩
      have : (q.mNumValidDrawReqs + 1) % 256 = q.mNumValidDrawReqs + 1 :=
        Nat.mod_eq_of_lt (by omega)
      show (q.mNumValidDrawReqs + 1) % 256 ≤ 4
      omega

/-- C20: on a queue of `n <= 4` in-screen entries (screen area below `2^31`) and for an
in-screen request, `GuiRequestDraw` reaches `ASSERT (FALSE)` exactly when the queue holds
4 entries and no entry satisfies the merge criterion against the request; on that path
the queue (entries and count) is unchanged, and in every other case the count after the
call is at most 4. -/
theorem GuiRequestDraw_fatal_iff (ScreenWidth ScreenHeight : Nat) (q : DrawQueue)
    (PosX PosY Width Height : Nat)
    (hs : ScreenWidth * ScreenHeight < 2147483648)
    (hn : q.mNumValidDrawReqs ≤ 4)
    (hq : ∀ i, i < q.mNumValidDrawReqs → InScreen ScreenWidth ScreenHeight (q.entry i))
    (hR : InScreen ScreenWidth ScreenHeight
      { X := PosX, Y := PosY, Width := Width, Height := Height }) :
    ((GuiRequestDraw q PosX PosY Width Height).2 = true ↔
      (q.mNumValidDrawReqs = 4 ∧ ∀ i, i < q.mNumValidDrawReqs →
        ¬ MergeCriterion (q.entry i)
          { X := PosX, Y := PosY, Width := Width, Height := Height })) ∧
    ((GuiRequestDraw q PosX PosY Width Height).2 = true →
      (GuiRequestDraw q PosX PosY Width Height).1 = q) ∧
    ((GuiRequestDraw q PosX PosY Width Height).2 = false →
      (GuiRequestDraw q PosX PosY Width Height).1.mNumValidDrawReqs ≤ 4) := by
  obtain ⟨h1, h2, h3⟩ := GuiRequestDraw_fatal q PosX PosY Width Height
  have hiff : ∀ i, i < q.mNumValidDrawReqs →
      (GuiRequestDrawMerges (q.entry i) PosX PosY Width Height = false ↔
        ¬ MergeCriterion (q.entry i)
          { X := PosX, Y := PosY, Width := Width, Height := Height }) := by
    intro i hi
    have hm := (GuiRequestDrawMerges_iff _ _ (q.entry i) PosX PosY Width Height hs
      (hq i hi) hR).1
    rw [← hm]
    cases GuiRequestDrawMerges (q.entry i) PosX PosY Width Height <;> simp
  refine ⟨?_, h2, fun h => h3 h hn⟩
  rw [h1]
  constructor
  · intro h
    exact ⟨by omega, fun i hi => (hiff i hi).1 (h.2 i hi)⟩
  · intro h
    exact ⟨by omega, fun i hi => (hiff i hi).2 (h.2 i hi)⟩

/-- Witness for C20: a full queue of four far-apart rectangles on a screen of 100 by 100
pixels and a request that merges with none of them: the fatal path is reached and the
queue is unchanged. -/
theorem GuiRequestDraw_fatal_iff_witness :
    (GuiRequestDraw
        { mNumValidDrawReqs := 4,
          mDrawRequests := [{ X := 0, Y := 0, Width := 2, Height := 2 },
                            { X := 90, Y := 0, Width := 2, Height := 2 },
                            { X := 0, Y := 90, Width := 2, Height := 2 },
                            { X := 90, Y := 90, Width := 2, Height := 2 }] } 50 50 2 2).2 = true ∧
    (GuiRequestDraw
        { mNumValidDrawReqs := 4,
          mDrawRequests := [{ X := 0, Y := 0, Width := 2, Height := 2 },
                            { X := 90, Y := 0, Width := 2, Height := 2 },
                            { X := 0, Y := 90, Width := 2, Height := 2 },
                            { X := 90, Y := 90, Width := 2, Height := 2 }] } 50 50 2 2).1 =
      { mNumValidDrawReqs := 4,
        mDrawRequests := [{ X := 0, Y := 0, Width := 2, Height := 2 },
                          { X := 90, Y := 0, Width := 2, Height := 2 },
                          { X := 0, Y := 90, Width := 2, Height := 2 },
                          { X := 90, Y := 90, Width := 2, Height := 2 }] } :=
  ⟨((GuiRequestDraw_fatal_iff 100 100
      { mNumValidDrawReqs := 4,
        mDrawRequests := [{ X := 0, Y := 0, Width := 2, Height := 2 },
                          { X := 90, Y := 0, Width := 2, Height := 2 },
                          { X := 0, Y := 90, Width := 2, Height := 2 },
                          { X := 90, Y := 90, Width := 2, Height := 2 }] } 50 50 2 2
      (by decide) (by decide) (by decide) (by decide)).1).2 ⟨rfl, by decide⟩,
   (GuiRequestDraw_fatal_iff 100 100
      { mNumValidDrawReqs := 4,
        mDrawRequests := [{ X := 0, Y := 0, Width := 2, Height := 2 },
                          { X := 90, Y := 0, Width := 2, Height := 2 },
                          { X := 0, Y := 90, Width := 2, Height := 2 },
                          { X := 90, Y := 90, Width := 2, Height := 2 }] } 50 50 2 2
      (by decide) (by decide) (by decide) (by decide)).2.1 (by decide)⟩

/-- The last column `X + Width - 1` of a rectangle in `UINT32` arithmetic is below
`2^32`. -/
theorem maxEnd_lt (a la : Nat) : sub32 (add32 a la) 1 < 4294967296 := by
  unfold sub32
  exact Nat.mod_lt _ (by decide)

/-- The last column of the merged span is the larger of the two last columns. -/
theorem maxEnd_merged (m M : Nat) (hM : M < 4294967296) :
    sub32 (add32 m (add32 (sub32 M m) 1)) 1 = M := by
  unfold sub32 add32
  omega

/-- The left edge of the merged span is the smaller of the two left edges. -/
theorem comb_min (a b : Nat) : (if a < b then a else b) = min a b := by
  by_cases hab : a < b
  · rw [if_pos hab, min_eq_left (by omega)]
  · rw [if_neg hab, min_eq_right (by omega)]

/-- The rectangle computed by the loop body of `GuiRequestDraw`, in terms of minimum and
maximum of the edges in `UINT32` arithmetic. -/
theorem GuiRequestDrawComb_eq (E : GUI_DRAW_REQUEST) (PosX PosY Width Height : Nat) :
    GuiRequestDrawComb E PosX PosY Width Height =
      { X := min E.X PosX
        Y := min E.Y PosY
        Width := add32 (sub32 (max (sub32 (add32 E.X E.Width) 1)
          (sub32 (add32 PosX Width) 1)) (min E.X PosX)) 1
        Height := add32 (sub32 (max (sub32 (add32 E.Y E.Height) 1)
          (sub32 (add32 PosY Height) 1)) (min E.Y PosY)) 1 } := by
  unfold GuiRequestDrawComb
  simp only [comb_min, GUI_DRAW_REQUEST.mk.injEq, true_and]
  constructor
  · by_cases h : sub32 (add32 E.X E.Width) 1 > sub32 (add32 PosX Width) 1
    · rw [if_pos h, max_eq_left (by omega)]
    · rw [if_neg h, max_eq_right (by omega)]
  · by_cases h : sub32 (add32 E.Y E.Height) 1 > sub32 (add32 PosY Height) 1
    · rw [if_pos h, max_eq_left (by omega)]
    · rw [if_neg h, max_eq_right (by omega)]

/-- Merging two requests into the same entry gives the same rectangle in either order,
also in wrapping `UINT32` arithmetic. -/
theorem GuiRequestDrawComb_comm (E A B : GUI_DRAW_REQUEST) :
    GuiRequestDrawComb (GuiRequestDrawComb E A.X A.Y A.Width A.Height)
        B.X B.Y B.Width B.Height =
      GuiRequestDrawComb (GuiRequestDrawComb E B.X B.Y B.Width B.Height)
        A.X A.Y A.Width A.Height := by
  rw [GuiRequestDrawComb_eq E, GuiRequestDrawComb_eq E, GuiRequestDrawComb_eq,
    GuiRequestDrawComb_eq]
  simp only [maxEnd_merged _ _ (max_lt (maxEnd_lt _ _) (maxEnd_lt _ _)),
    GUI_DRAW_REQUEST.mk.injEq]
  refine ⟨?_, ?_, ?_, ?_⟩
  · rw [min_assoc, min_comm A.X, ← min_assoc]
  · rw [min_assoc, min_comm A.Y, ← min_assoc]
  · rw [min_assoc, min_comm A.X, ← min_assoc, max_assoc, max_comm (sub32 (add32 A.X _) 1),
      ← max_assoc]
  · rw [min_assoc, min_comm A.Y, ← min_assoc, max_assoc, max_comm (sub32 (add32 A.Y _) 1),
      ← max_assoc]

/-- Reading the array element that has just been written. -/
theorem entry_set_self (n : Nat) (l : List GUI_DRAW_REQUEST) (i : Nat) (x : GUI_DRAW_REQUEST)
    (h : i < l.length) :
    DrawQueue.entry { mNumValidDrawReqs := n, mDrawRequests := l.set i x } i = x := by
  unfold DrawQueue.entry
  rw [List.getD_eq_getElem _ _ (by rw [List.length_set]; exact h), List.getElem_set_self]

/-- A request that merges into slot `i` replaces entry `i` by the computed rectangle. -/
theorem GuiRequestDraw_of_MergesInto (q : DrawQueue) (R : GUI_DRAW_REQUEST) (i : Nat)
    (h : MergesInto q R i) :
    GuiRequestDraw q R.X R.Y R.Width R.Height =
      ({ mNumValidDrawReqs := q.mNumValidDrawReqs,
         mDrawRequests := q.mDrawRequests.set i
           (GuiRequestDrawComb (q.entry i) R.X R.Y R.Width R.Height) }, false) := by
  obtain ⟨h1, h2, h3⟩ := h
  unfold GuiRequestDraw
  rw [GuiRequestDrawLoop_some q R.X R.Y R.Width R.Height q.mNumValidDrawReqs 0 i
    (Nat.zero_le _) (by omega) h2 (fun j _ hj => h3 j hj)]

/-- The bounding rectangle and the merge criterion are symmetric. -/
theorem Bounding_comm (A B : GUI_DRAW_REQUEST) : Bounding A B = Bounding B A := by
  simp only [Bounding, GUI_DRAW_REQUEST.mk.injEq]
  refine ⟨min_comm _ _, min_comm _ _, ?_, ?_⟩
  · rw [min_comm, max_comm]
  · rw [min_comm, max_comm]

theorem MergeCriterion_comm (A B : GUI_DRAW_REQUEST) :
    MergeCriterion A B ↔ MergeCriterion B A := by
  unfold MergeCriterion
  rw [Bounding_comm A B, Nat.add_comm]

/-- From the empty queue, a request followed by a second one that satisfies the merge
criterion leaves the single entry `Bounding A B`. -/
theorem GuiRequestDraw_empty_pair (ScreenWidth ScreenHeight : Nat) (A B : GUI_DRAW_REQUEST)
    (hs : ScreenWidth * ScreenHeight < 2147483648)
    (hA : InScreen ScreenWidth ScreenHeight A) (hB : InScreen ScreenWidth ScreenHeight B)
    (hm : MergeCriterion A B) :
    GuiRequestDraw (GuiRequestDraw emptyQueue A.X A.Y A.Width A.Height).1
        B.X B.Y B.Width B.Height =
      ({ mNumValidDrawReqs := 1,
         mDrawRequests := [Bounding A B, default, default, default] }, false) := by
  have h1 : (GuiRequestDraw emptyQueue A.X A.Y A.Width A.Height).1 =
      { mNumValidDrawReqs := 1, mDrawRequests := [A, default, default, default] } := rfl
  rw [h1]
  have hmi : MergesInto
      { mNumValidDrawReqs := 1, mDrawRequests := [A, default, default, default] } B 0 := by
    refine ⟨Nat.zero_lt_one, ?_, fun j hj => absurd hj (Nat.not_lt_zero j)⟩
    exact (GuiRequestDrawMerges_iff ScreenWidth ScreenHeight A B.X B.Y B.Width B.Height hs hA
      hB).1.2 hm
  rw [GuiRequestDraw_of_MergesInto _ _ _ hmi]
  have hc := (GuiRequestDrawMerges_iff ScreenWidth ScreenHeight A B.X B.Y B.Width B.Height hs
    hA hB).2
  show (({ mNumValidDrawReqs := 1,
           mDrawRequests := [GuiRequestDrawComb A B.X B.Y B.Width B.Height,
                             default, default, default] } : DrawQueue), false) = _
  rw [hc]

/-- C18: if, in both submission orders, both `GuiRequestDraw` calls merge into the same
slot `i` of the queue, then `A` followed by `B` leaves the same queue as `B` followed by
`A`; in particular from the empty queue, for in-screen rectangles `A` and `B` (screen
area below `2^31`) that satisfy the merge criterion, both orders leave the single entry
`Bounding A B`. -/
theorem GuiRequestDraw_merge_commutes (q : DrawQueue) (A B : GUI_DRAW_REQUEST) (i : Nat)
    (ScreenWidth ScreenHeight : Nat) (C D : GUI_DRAW_REQUEST)
    (hlen : i < q.mDrawRequests.length)
    (hA : MergesInto q A i)
    (hAB : MergesInto (GuiRequestDraw q A.X A.Y A.Width A.Height).1 B i)
    (hB : MergesInto q B i)
    (hBA : MergesInto (GuiRequestDraw q B.X B.Y B.Width B.Height).1 A i)
    (hs : ScreenWidth * ScreenHeight < 2147483648)
    (hC : InScreen ScreenWidth ScreenHeight C) (hD : InScreen ScreenWidth ScreenHeight D)
    (hm : MergeCriterion C D) :
    GuiRequestDraw (GuiRequestDraw q A.X A.Y A.Width A.Height).1 B.X B.Y B.Width B.Height =
      GuiRequestDraw (GuiRequestDraw q B.X B.Y B.Width B.Height).1 A.X A.Y A.Width A.Height ∧
    GuiRequestDraw (GuiRequestDraw emptyQueue C.X C.Y C.Width C.Height).1
        D.X D.Y D.Width D.Height =
      ({ mNumValidDrawReqs := 1,
         mDrawRequests := [Bounding C D, default, default, default] }, false) ∧
    GuiRequestDraw (GuiRequestDraw emptyQueue D.X D.Y D.Width D.Height).1
        C.X C.Y C.Width C.Height =
      ({ mNumValidDrawReqs := 1,
         mDrawRequests := [Bounding C D, default, default, default] }, false) := by
  refine ⟨?_, GuiRequestDraw_empty_pair _ _ C D hs hC hD hm, ?_⟩
  · have hqA := GuiRequestDraw_of_MergesInto q A i hA
    have hqB := GuiRequestDraw_of_MergesInto q B i hB
    rw [hqA] at hAB
    rw [hqB] at hBA
    rw [hqA, hqB, GuiRequestDraw_of_MergesInto _ _ _ hAB, GuiRequestDraw_of_MergesInto _ _ _ hBA]
    dsimp only
    rw [entry_set_self _ _ _ _ hlen, entry_set_self _ _ _ _ hlen, List.set_set, List.set_set,
      GuiRequestDrawComb_comm]
  · rw [Bounding_comm C D]
    exact GuiRequestDraw_empty_pair _ _ D C hs hD hC ((MergeCriterion_comm C D).1 hm)

/-- Witness for C18: the entry `(0, 0, 10, 10)` with the overlapping requests
`A = (5, 0, 10, 10)` and `B = (0, 5, 10, 10)`: both orders leave the single entry
`(0, 0, 15, 15)`; from the empty queue the adjacent rectangles `(0, 0, 10, 10)` and
`(10, 0, 10, 10)` leave `(0, 0, 20, 10)`. -/
theorem GuiRequestDraw_merge_commutes_witness :
    GuiRequestDraw (GuiRequestDraw
        { mNumValidDrawReqs := 1,
          mDrawRequests := [{ X := 0, Y := 0, Width := 10, Height := 10 },
                            default, default, default] } 5 0 10 10).1 0 5 10 10 =
      ({ mNumValidDrawReqs := 1,
         mDrawRequests := [{ X := 0, Y := 0, Width := 15, Height := 15 },
                           default, default, default] }, false) ∧
    (GuiRequestDraw (GuiRequestDraw
        { mNumValidDrawReqs := 1,
          mDrawRequests := [{ X := 0, Y := 0, Width := 10, Height := 10 },
                            default, default, default] } 5 0 10 10).1 0 5 10 10 =
      GuiRequestDraw (GuiRequestDraw
        { mNumValidDrawReqs := 1,
          mDrawRequests := [{ X := 0, Y := 0, Width := 10, Height := 10 },
                            default, default, default] } 0 5 10 10).1 5 0 10 10 ∧
     GuiRequestDraw (GuiRequestDraw emptyQueue 0 0 10 10).1 10 0 10 10 =
      ({ mNumValidDrawReqs := 1,
         mDrawRequests := [Bounding { X := 0, Y := 0, Width := 10, Height := 10 }
                             { X := 10, Y := 0, Width := 10, Height := 10 },
                           default, default, default] }, false) ∧
     GuiRequestDraw (GuiRequestDraw emptyQueue 10 0 10 10).1 0 0 10 10 =
      ({ mNumValidDrawReqs := 1,
         mDrawRequests := [Bounding { X := 0, Y := 0, Width := 10, Height := 10 }
                             { X := 10, Y := 0, Width := 10, Height := 10 },
                           default, default, default] }, false)) :=
  ⟨by decide,
   GuiRequestDraw_merge_commutes
     { mNumValidDrawReqs := 1,
       mDrawRequests := [{ X := 0, Y := 0, Width := 10, Height := 10 },
                         default, default, default] }
     { X := 5, Y := 0, Width := 10, Height := 10 } { X := 0, Y := 5, Width := 10, Height := 10 }
     0 100 100
     { X := 0, Y := 0, Width := 10, Height := 10 } { X := 10, Y := 0, Width := 10, Height := 10 }
     (by decide) (by decide) (by decide) (by decide) (by decide) (by decide) (by decide)
     (by decide) (by decide)⟩

/-! ### The pixel blitter -/

/-- Storing a valid pixel as a 32-bit value and reading the cell back gives the pixel. -/
theorem UINT32_TO_PIXEL_PIXEL_TO_UINT32 (p : EFI_GRAPHICS_OUTPUT_BLT_PIXEL) (hp : p.Valid) :
    UINT32_TO_PIXEL (PIXEL_TO_UINT32 p) = p := by
  obtain ⟨h1, h2, h3, h4⟩ := hp
  cases p with
  | mk B G R A =>
    simp only [UINT32_TO_PIXEL, PIXEL_TO_UINT32, EFI_GRAPHICS_OUTPUT_BLT_PIXEL.mk.injEq]
    simp only at h1 h2 h3 h4
    refine ⟨?_, ?_, ?_, ?_⟩ <;> omega

/-- A cell index `y * ScreenWidth + x` with `x < ScreenWidth` lies in the span of `w`
cells that starts at column `a` of row `r` exactly when `y = r` and `x` is one of the
columns, provided the span does not leave the row. -/
theorem row_span_iff (ScreenWidth x y r a w : Nat) (hx : x < ScreenWidth)
    (ha : a + w ≤ ScreenWidth) :
    (r * ScreenWidth + a ≤ y * ScreenWidth + x ∧ y * ScreenWidth + x < r * ScreenWidth + a + w) ↔
      (y = r ∧ a ≤ x ∧ x < a + w) := by
  constructor
  · intro h
    have hyr : y = r := by
      rcases Nat.lt_trichotomy y r with hlt | heq | hgt
      · have := Nat.mul_le_mul_right ScreenWidth (Nat.succ_le_of_lt hlt)
        rw [Nat.succ_mul] at this
        omega
      · exact heq
      · have := Nat.mul_le_mul_right ScreenWidth (Nat.succ_le_of_lt hgt)
        rw [Nat.succ_mul] at this
        omega
    subst hyr
    omega
  · intro h
    obtain ⟨h1, h2, h3⟩ := h
    subst h1
    omega

/-- The rows loop of `GuiDrawToBufferFill`, started at row `Row`, pixel by pixel. -/
theorem GuiDrawToBufferFillRows_apply (Image : GUI_IMAGE)
    (ScreenWidth ScreenHeight PosX Width : Nat)
    (hs : ScreenWidth * ScreenHeight < 4294967296) (hw : PosX + Width ≤ ScreenWidth)
    (Remaining Row : Nat) (b : PixelBuffer) (hrows : Row + Remaining ≤ ScreenHeight)
    (x y : Nat) (hx : x < ScreenWidth) :
    GuiDrawToBufferFillRows Image ScreenWidth PosX Width Remaining (Row * ScreenWidth) b
        (y * ScreenWidth + x) =
      if Row ≤ y ∧ y < Row + Remaining ∧ PosX ≤ x ∧ x < PosX + Width then
        UINT32_TO_PIXEL (PIXEL_TO_UINT32 (Image.Buffer 0))
      else b (y * ScreenWidth + x) := by
  induction Remaining generalizing Row b with
  | zero =>
    rw [GuiDrawToBufferFillRows, if_neg (by omega)]
  | succ n ih =>
    have hrow : (Row + 1) * ScreenWidth ≤ ScreenWidth * ScreenHeight := by
      rw [Nat.mul_comm ScreenWidth ScreenHeight]
      exact Nat.mul_le_mul_right _ (by omega)
    have hsucc : (Row + 1) * ScreenWidth = Row * ScreenWidth + ScreenWidth := Nat.succ_mul _ _
    have hWlt : ScreenWidth < 4294967296 := by
      have : ScreenWidth ≤ (Row + 1) * ScreenWidth := Nat.le_mul_of_pos_left _ (by omega)
      omega
    rw [GuiDrawToBufferFillRows, add32_of_lt _ _ (by omega), ← hsucc, ih (Row + 1) _ (by omega),
      add32_of_lt _ _ (by omega)]
    unfold SetMem32
    have h4 : Width * 4 % 18446744073709551616 / 4 = Width := by omega
    rw [h4]
    have hiff := row_span_iff ScreenWidth x y Row PosX Width hx hw
    by_cases hin : Row * ScreenWidth + PosX ≤ y * ScreenWidth + x ∧
        y * ScreenWidth + x < Row * ScreenWidth + PosX + Width
    · obtain ⟨h1, h2, h3⟩ := hiff.1 hin
      rw [if_neg (by omega), if_pos hin, if_pos (by omega)]
    · have hn : ¬ (y = Row ∧ PosX ≤ x ∧ x < PosX + Width) := fun h => hin (hiff.2 h)
      rw [if_neg hin]
      by_cases h2 : Row + 1 ≤ y ∧ y < Row + 1 + n ∧ PosX ≤ x ∧ x < PosX + Width
      · rw [if_pos h2, if_pos (by omega)]
      · rw [if_neg h2, if_neg (by omega)]

/-- C17: for a destination rectangle with positive width and height inside the screen
(whose buffer is addressed by 32-bit indices), after `GuiDrawToBufferFill` every pixel
`(x, y)` of the rectangle equals the image's pixel at `(0, 0)` and every pixel outside the
rectangle is unchanged. -/
theorem GuiDrawToBufferFill_spec (Image : GUI_IMAGE) (ScreenWidth ScreenHeight : Nat)
    (b : PixelBuffer) (PosX PosY Width Height : Nat)
    (hs : ScreenWidth * ScreenHeight < 4294967296)
    (hp : (Image.Buffer 0).Valid)
    (hw0 : 0 < Width) (hh0 : 0 < Height)
    (hw : PosX + Width ≤ ScreenWidth) (hh : PosY + Height ≤ ScreenHeight)
    (x y : Nat) (hx : x < ScreenWidth) :
    ((PosX ≤ x ∧ x < PosX + Width ∧ PosY ≤ y ∧ y < PosY + Height) →
      GuiDrawToBufferFill Image ScreenWidth b PosX PosY Width Height (y * ScreenWidth + x) =
        Image.Buffer 0) ∧
    (¬ (PosX ≤ x ∧ x < PosX + Width ∧ PosY ≤ y ∧ y < PosY + Height) →
      GuiDrawToBufferFill Image ScreenWidth b PosX PosY Width Height (y * ScreenWidth + x) =
        b (y * ScreenWidth + x)) := by
  have _ := hw0
  have _ := hh0
  have hrow : PosY * ScreenWidth ≤ ScreenWidth * ScreenHeight := by
    rw [Nat.mul_comm ScreenWidth ScreenHeight]
    exact Nat.mul_le_mul_right _ (by omega)
  unfold GuiDrawToBufferFill
  rw [mul32_of_lt _ _ (by omega),
    GuiDrawToBufferFillRows_apply Image ScreenWidth ScreenHeight PosX Width hs hw Height PosY b
      hh x y hx, UINT32_TO_PIXEL_PIXEL_TO_UINT32 _ hp]
  constructor
  · intro h
    rw [if_pos (by omega)]
  · intro h
    rw [if_neg (by omega)]

/-- Witness for C17: a 5 by 4 screen, the rectangle `(1, 1, 3, 2)`: the pixel `(2, 2)` of
the rectangle takes the image's pixel `(0, 0)`. -/
theorem GuiDrawToBufferFill_spec_witness :
    GuiDrawToBufferFill
        { Width := 1, Height := 1,
          Buffer := fun _ => { Blue := 7, Green := 8, Red := 9, Reserved := 0 } }
        5 (fun _ => default) 1 1 3 2 (2 * 5 + 2) =
      { Blue := 7, Green := 8, Red := 9, Reserved := 0 } :=
  (GuiDrawToBufferFill_spec
    { Width := 1, Height := 1,
      Buffer := fun _ => { Blue := 7, Green := 8, Red := 9, Reserved := 0 } }
    5 4 (fun _ => default) 1 1 3 2 (by decide) (by decide) (by decide) (by decide)
    (by decide) (by decide) 2 2 (by decide)).1 (by decide)

/-- The column loop of `GuiDrawToBuffer` on a pixel buffer, cell by cell, when no index
computation wraps. -/
theorem GuiDrawToBufferRow_apply
    (F : EFI_GRAPHICS_OUTPUT_BLT_PIXEL → EFI_GRAPHICS_OUTPUT_BLT_PIXEL →
      EFI_GRAPHICS_OUTPUT_BLT_PIXEL)
    (Image : GUI_IMAGE) (TargetRowOffset SourceRowOffset Remaining T S : Nat) (b : PixelBuffer)
    (hT : TargetRowOffset + T + Remaining < 4294967296)
    (hS : SourceRowOffset + S + Remaining < 4294967296) (k : Nat) :
    GuiDrawToBufferRow (blendAt F Image) TargetRowOffset SourceRowOffset Remaining T S b k =
      if TargetRowOffset + T ≤ k ∧ k < TargetRowOffset + T + Remaining then
        F (b k) (Image.Buffer (SourceRowOffset + S + (k - (TargetRowOffset + T))))
      else b k := by
  induction Remaining generalizing T S b with
  | zero => rw [GuiDrawToBufferRow, if_neg (by omega)]
  | succ n ih =>
    rw [GuiDrawToBufferRow, add32_of_lt _ _ (by omega : T + 1 < 4294967296),
      add32_of_lt _ _ (by omega : S + 1 < 4294967296), ih _ _ _ (by omega) (by omega),
      add32_of_lt _ _ (by omega : TargetRowOffset + T < 4294967296),
      add32_of_lt _ _ (by omega : SourceRowOffset + S < 4294967296)]
    unfold blendAt
    by_cases hk : k = TargetRowOffset + T
    · rw [if_neg (by omega), if_pos hk, if_pos (by omega)]
      subst hk
      simp
    · rw [if_neg hk]
      by_cases h2 : TargetRowOffset + (T + 1) ≤ k ∧ k < TargetRowOffset + (T + 1) + n
      · rw [if_pos h2, if_pos (by omega)]
        congr 2
        omega
      · rw [if_neg h2, if_neg (by omega)]

/-- The row loop of `GuiDrawToBuffer` on a pixel buffer, pixel by pixel, for a rectangle
inside the screen and inside the image. -/
theorem GuiDrawToBufferRows_apply
    (F : EFI_GRAPHICS_OUTPUT_BLT_PIXEL → EFI_GRAPHICS_OUTPUT_BLT_PIXEL →
      EFI_GRAPHICS_OUTPUT_BLT_PIXEL)
    (Image : GUI_IMAGE) (ScreenWidth ScreenHeight PosX OffsetX Columns : Nat)
    (hs : ScreenWidth * ScreenHeight < 4294967296)
    (hi : Image.Width * Image.Height < 4294967296)
    (hc : PosX + Columns ≤ ScreenWidth) (hoc : OffsetX + Columns ≤ Image.Width)
    (Remaining SourceRow TargetRow : Nat) (b : PixelBuffer)
    (hrt : TargetRow + Remaining ≤ ScreenHeight) (hrs : SourceRow + Remaining ≤ Image.Height)
    (x y : Nat) (hx : x < ScreenWidth) :
    GuiDrawToBufferRows (blendAt F Image) Image.Width ScreenWidth PosX OffsetX Columns
        Remaining (SourceRow * Image.Width) (TargetRow * ScreenWidth) b (y * ScreenWidth + x) =
      if TargetRow ≤ y ∧ y < TargetRow + Remaining ∧ PosX ≤ x ∧ x < PosX + Columns then
        F (b (y * ScreenWidth + x))
          (Image.Buffer ((SourceRow + (y - TargetRow)) * Image.Width + OffsetX + (x - PosX)))
      else b (y * ScreenWidth + x) := by
  induction Remaining generalizing SourceRow TargetRow b with
  | zero => rw [GuiDrawToBufferRows, if_neg (by omega)]
  | succ n ih =>
    have hT1 : (TargetRow + 1) * ScreenWidth ≤ ScreenWidth * ScreenHeight := by
      rw [Nat.mul_comm ScreenWidth ScreenHeight]
      exact Nat.mul_le_mul_right _ (by omega)
    have hS1 : (SourceRow + 1) * Image.Width ≤ Image.Width * Image.Height := by
      rw [Nat.mul_comm Image.Width Image.Height]
      exact Nat.mul_le_mul_right _ (by omega)
    have hTs : (TargetRow + 1) * ScreenWidth = TargetRow * ScreenWidth + ScreenWidth :=
      Nat.succ_mul _ _
    have hSs : (SourceRow + 1) * Image.Width = SourceRow * Image.Width + Image.Width :=
      Nat.succ_mul _ _
    rw [GuiDrawToBufferRows, add32_of_lt _ _ (by omega), add32_of_lt _ _ (by omega), ← hTs,
      ← hSs, ih (SourceRow + 1) (TargetRow + 1) _ (by omega) (by omega),
      GuiDrawToBufferRow_apply F Image _ _ _ _ _ b (by omega) (by omega)]
    have hiff := row_span_iff ScreenWidth x y TargetRow PosX Columns hx hc
    by_cases hin : TargetRow * ScreenWidth + PosX ≤ y * ScreenWidth + x ∧
        y * ScreenWidth + x < TargetRow * ScreenWidth + PosX + Columns
    · obtain ⟨h1, h2, h3⟩ := hiff.1 hin
      rw [if_neg (by omega), if_pos hin, if_pos (by omega)]
      subst h1
      congr 2
      rw [Nat.sub_self, Nat.add_zero]
      omega
    · have hn : ¬ (y = TargetRow ∧ PosX ≤ x ∧ x < PosX + Columns) := fun h => hin (hiff.2 h)
      rw [if_neg hin]
      by_cases h2 : TargetRow + 1 ≤ y ∧ y < TargetRow + 1 + n ∧ PosX ≤ x ∧ x < PosX + Columns
      · rw [if_pos h2, if_pos (by omega)]
        have e : SourceRow + 1 + (y - (TargetRow + 1)) = SourceRow + (y - TargetRow) := by omega
        rw [e]
      · rw [if_neg h2, if_neg (by omega)]

/-- C15: under the preconditions of `GuiDrawToBuffer` (the destination rectangle of
position `(PosX, PosY) = (BaseX + OffsetX, BaseY + OffsetY)` and size `Width` by `Height`
lies inside the screen, `OffsetX < Image.Width`, `OffsetY < Image.Height`; screen and
image buffers are addressed by 32-bit indices), with `w = min (Width, Image.Width -
OffsetX)` and `h = min (Height, Image.Height - OffsetY)`: for `Opacity = 0` the buffer is
unchanged; otherwise for every `r < h` and `c < w` the screen pixel `(PosX + c, PosY + r)`
becomes the blend of its old value with the image pixel `(OffsetX + c, OffsetY + r)`, the
solid blend for `Opacity = 255` and the opaque blend with `Opacity` otherwise, and every
other screen pixel is unchanged. -/
theorem GuiDrawToBuffer_reference
    (BlendSolid : EFI_GRAPHICS_OUTPUT_BLT_PIXEL → EFI_GRAPHICS_OUTPUT_BLT_PIXEL →
      EFI_GRAPHICS_OUTPUT_BLT_PIXEL)
    (BlendOpaque : EFI_GRAPHICS_OUTPUT_BLT_PIXEL → EFI_GRAPHICS_OUTPUT_BLT_PIXEL → Nat →
      EFI_GRAPHICS_OUTPUT_BLT_PIXEL)
    (Image : GUI_IMAGE) (Opacity ScreenWidth ScreenHeight : Nat) (b : PixelBuffer)
    (BaseX BaseY : Int) (OffsetX OffsetY Width Height PosX PosY : Nat)
    (hs : ScreenWidth * ScreenHeight < 4294967296)
    (hi : Image.Width * Image.Height < 4294967296)
    (hPX : BaseX + OffsetX = PosX) (hPY : BaseY + OffsetY = PosY)
    (hw0 : 0 < Width) (hh0 : 0 < Height)
    (hw : PosX + Width ≤ ScreenWidth) (hh : PosY + Height ≤ ScreenHeight)
    (hox : OffsetX < Image.Width) (hoy : OffsetY < Image.Height) :
    (Opacity = 0 →
      GuiDrawToBufferPixels BlendSolid BlendOpaque Image Opacity ScreenWidth b BaseX BaseY
        OffsetX OffsetY Width Height = b) ∧
    (Opacity ≠ 0 →
      (∀ r c, r < min Height (Image.Height - OffsetY) → c < min Width (Image.Width - OffsetX) →
        GuiDrawToBufferPixels BlendSolid BlendOpaque Image Opacity ScreenWidth b BaseX BaseY
            OffsetX OffsetY Width Height ((PosY + r) * ScreenWidth + (PosX + c)) =
          referenceBlend BlendSolid BlendOpaque Opacity
            (b ((PosY + r) * ScreenWidth + (PosX + c)))
            (Image.Buffer ((OffsetY + r) * Image.Width + (OffsetX + c)))) ∧
      (∀ x y, x < ScreenWidth →
        ¬ (PosX ≤ x ∧ x < PosX + min Width (Image.Width - OffsetX) ∧
           PosY ≤ y ∧ y < PosY + min Height (Image.Height - OffsetY)) →
        GuiDrawToBufferPixels BlendSolid BlendOpaque Image Opacity ScreenWidth b BaseX BaseY
            OffsetX OffsetY Width Height (y * ScreenWidth + x) = b (y * ScreenWidth + x))) := by
  have hSWpos : 0 < ScreenWidth := by omega
  have hSHpos : 0 < ScreenHeight := by omega
  have hSW : ScreenWidth ≤ ScreenWidth * ScreenHeight := Nat.le_mul_of_pos_right _ hSHpos
  have hSH : ScreenHeight ≤ ScreenWidth * ScreenHeight := Nat.le_mul_of_pos_left _ hSWpos
  have hIW : Image.Width ≤ Image.Width * Image.Height := Nat.le_mul_of_pos_right _ (by omega)
  have hIH : Image.Height ≤ Image.Width * Image.Height := Nat.le_mul_of_pos_left _ (by omega)
  have hposx : toUINT32 (toINT64 (BaseX + OffsetX)) = PosX := by
    rw [hPX, toINT64_of_range _ (by omega) (by omega)]
    have := toUINT32_of_range (PosX : Int) (by omega) (by omega)
    omega
  have hposy : toUINT32 (toINT64 (BaseY + OffsetY)) = PosY := by
    rw [hPY, toINT64_of_range _ (by omega) (by omega)]
    have := toUINT32_of_range (PosY : Int) (by omega) (by omega)
    omega
  have hsubx : sub32 Image.Width OffsetX = Image.Width - OffsetX :=
    sub32_of_le _ _ (by omega) (by omega)
  have hsuby : sub32 Image.Height OffsetY = Image.Height - OffsetY :=
    sub32_of_le _ _ (by omega) (by omega)
  have hrowT : PosY * ScreenWidth ≤ ScreenWidth * ScreenHeight := by
    rw [Nat.mul_comm ScreenWidth ScreenHeight]
    exact Nat.mul_le_mul_right _ (by omega)
  have hrowS : OffsetY * Image.Width ≤ Image.Width * Image.Height := by
    rw [Nat.mul_comm Image.Width Image.Height]
    exact Nat.mul_le_mul_right _ (by omega)
  unfold GuiDrawToBufferPixels GuiDrawToBuffer
  dsimp only
  rw [hposx, hposy, hsubx, hsuby]
  constructor
  · intro h0
    rw [if_pos h0]
  · intro h0
    rw [if_neg h0, if_neg (by omega)]
    generalize hwd : min Width (Image.Width - OffsetX) = w
    generalize hhd : min Height (Image.Height - OffsetY) = h
    have hcols : add32 PosX w - PosX = w := by
      rw [add32_of_lt _ _ (by omega)]
      omega
    rw [hcols, mul32_of_lt _ _ (by omega), mul32_of_lt _ _ (by omega)]
    have key : ∀ x y, x < ScreenWidth →
        (if Opacity = 255 then
            GuiDrawToBufferRows (blendAt BlendSolid Image) Image.Width ScreenWidth PosX OffsetX
              w h (OffsetY * Image.Width) (PosY * ScreenWidth) b
          else
            GuiDrawToBufferRows
              (fun s Target Source =>
                blendAt (fun p q => BlendOpaque p q Opacity) Image s Target Source)
              Image.Width ScreenWidth PosX OffsetX w h (OffsetY * Image.Width)
              (PosY * ScreenWidth) b) (y * ScreenWidth + x) =
          if PosY ≤ y ∧ y < PosY + h ∧ PosX ≤ x ∧ x < PosX + w then
            referenceBlend BlendSolid BlendOpaque Opacity (b (y * ScreenWidth + x))
              (Image.Buffer ((OffsetY + (y - PosY)) * Image.Width + OffsetX + (x - PosX)))
          else b (y * ScreenWidth + x) := by
      intro x y hx
      unfold referenceBlend
      by_cases h255 : Opacity = 255
      · rw [if_pos h255, if_pos h255]
        exact GuiDrawToBufferRows_apply BlendSolid Image ScreenWidth ScreenHeight PosX OffsetX
          w hs hi (by omega) (by omega) h OffsetY PosY b (by omega) (by omega) x y hx
      · rw [if_neg h255, if_neg h255]
        exact GuiDrawToBufferRows_apply (fun p q => BlendOpaque p q Opacity) Image ScreenWidth
          ScreenHeight PosX OffsetX w hs hi (by omega) (by omega) h OffsetY PosY b (by omega)
          (by omega) x y hx
    constructor
    · intro r c hr hc
      rw [key (PosX + c) (PosY + r) (by omega), if_pos (by omega)]
      have e1 : PosY + r - PosY = r := by omega
      have e2 : PosX + c - PosX = c := by omega
      rw [e1, e2, Nat.add_assoc]
    · intro x y hx hout
      rw [key x y hx, if_neg (by omega)]

/-- Witness for C15: a 2 by 2 image drawn with full opacity at `(1, 1)` of a 5 by 4
screen; the solid blend is taken to be the copy of the source pixel.  The screen pixel
`(2, 2)` becomes the image pixel `(1, 1)`. -/
theorem GuiDrawToBuffer_reference_witness :
    GuiDrawToBufferPixels (fun _ q => q) (fun p _ _ => p)
        { Width := 2, Height := 2,
          Buffer := fun i => { Blue := i + 1, Green := 0, Red := 0, Reserved := 0 } }
        255 5 (fun _ => default) 1 1 0 0 2 2 ((1 + 1) * 5 + (1 + 1)) =
      { Blue := 4, Green := 0, Red := 0, Reserved := 0 } :=
  ((GuiDrawToBuffer_reference (fun _ q => q) (fun p _ _ => p)
    { Width := 2, Height := 2,
      Buffer := fun i => { Blue := i + 1, Green := 0, Red := 0, Reserved := 0 } }
    255 5 4 (fun _ => default) 1 1 0 0 2 2 1 1 (by decide) (by decide) (by decide) (by decide)
    (by decide) (by decide) (by decide) (by decide) (by decide) (by decide)).2
    (by decide)).1 1 1 (by decide) (by decide)

/-- Iterated increment of a `UINT32` counter. -/
theorem add32_add32 (a b c : Nat) : add32 (add32 a b) c = add32 a (b + c) := by
  unfold add32
  omega

/-- The column loop of `GuiDrawToBuffer` with recording primitives appends source
indices that all satisfy a bound which holds for every column of the row. -/
theorem GuiDrawToBufferRow_reads (B : Nat) (TargetRowOffset SourceRowOffset : Nat)
    (Remaining T S : Nat) (l : List Nat)
    (hb : ∀ c, c < Remaining → add32 SourceRowOffset (add32 S c) < B)
    (hl : ∀ i ∈ l, i < B) :
    ∀ i ∈ GuiDrawToBufferRow (fun l _ Source => l ++ [Source]) TargetRowOffset SourceRowOffset
        Remaining T S l, i < B := by
  induction Remaining generalizing T S l with
  | zero => rw [GuiDrawToBufferRow]; exact hl
  | succ n ih =>
    rw [GuiDrawToBufferRow]
    apply ih
    · intro c hc
      rw [add32_add32]
      have := hb (1 + c) (by omega)
      exact this
    · intro i hi
      rcases List.mem_append.1 hi with h | h
      · exact hl i h
      · rw [List.mem_singleton] at h
        have := hb 0 (by omega)
        have e : add32 SourceRowOffset (add32 S 0) = add32 SourceRowOffset S := by
          unfold add32
          omega
        rw [h, ← e]
        exact this

/-- The row loop of `GuiDrawToBuffer` with recording primitives appends source indices
that all satisfy a bound which holds for every row and column. -/
theorem GuiDrawToBufferRows_reads (B : Nat) (ImageWidth ScreenWidth PosX OffsetX Columns : Nat)
    (Remaining SourceRowOffset TargetRowOffset : Nat) (l : List Nat)
    (hb : ∀ r c, r < Remaining → c < Columns →
      add32 (add32 SourceRowOffset (r * ImageWidth)) (add32 OffsetX c) < B)
    (hl : ∀ i ∈ l, i < B) :
    ∀ i ∈ GuiDrawToBufferRows (fun l _ Source => l ++ [Source]) ImageWidth ScreenWidth PosX
        OffsetX Columns Remaining SourceRowOffset TargetRowOffset l, i < B := by
  induction Remaining generalizing SourceRowOffset TargetRowOffset l with
  | zero => rw [GuiDrawToBufferRows]; exact hl
  | succ n ih =>
    rw [GuiDrawToBufferRows]
    apply ih
    · intro r c hr hc
      have := hb (r + 1) c (by omega) hc
      rw [add32_add32 SourceRowOffset ImageWidth (r * ImageWidth)]
      have e : ImageWidth + r * ImageWidth = (r + 1) * ImageWidth := by
        rw [Nat.succ_mul, Nat.add_comm]
      rw [e]
      exact this
    · apply GuiDrawToBufferRow_reads B _ _ _ _ _ _ _ hl
      intro c hc
      have := hb 0 c (by omega) hc
      have e : add32 (add32 SourceRowOffset (0 * ImageWidth)) (add32 OffsetX c) =
          add32 SourceRowOffset (add32 OffsetX c) := by
        unfold add32
        omega
      rw [← e]
      exact this

/-- C16: for every call of `GuiDrawToBuffer` with `OffsetX < Image.Width` and `OffsetY <
Image.Height`, every source index read is below `Image.Width * Image.Height` and is the
index `y * Image.Width + x` of a pixel `(x, y)` with `x < Image.Width` and `y <
Image.Height`: the source image is never read out of bounds. -/
theorem GuiDrawToBuffer_reads_in_bounds (ImageWidth ImageHeight Opacity ScreenWidth : Nat)
    (BaseX BaseY : Int) (OffsetX OffsetY Width Height : Nat)
    (hIW : ImageWidth < 4294967296) (hIH : ImageHeight < 4294967296)
    (hox : OffsetX < ImageWidth) (hoy : OffsetY < ImageHeight) :
    ∀ i ∈ GuiDrawToBufferReads ImageWidth ImageHeight Opacity ScreenWidth BaseX BaseY
        OffsetX OffsetY Width Height,
      i < ImageWidth * ImageHeight ∧
      ∃ x y, x < ImageWidth ∧ y < ImageHeight ∧ i = y * ImageWidth + x := by
  have hbound : ∀ i ∈ GuiDrawToBufferReads ImageWidth ImageHeight Opacity ScreenWidth
      BaseX BaseY OffsetX OffsetY Width Height, i < ImageWidth * ImageHeight := by
    unfold GuiDrawToBufferReads GuiDrawToBuffer
    dsimp only
    rw [sub32_of_le _ _ (by omega) hIW, sub32_of_le _ _ (by omega) hIH]
    generalize toUINT32 (toINT64 (BaseX + OffsetX)) = PosX
    generalize toUINT32 (toINT64 (BaseY + OffsetY)) = PosY
    generalize hwd : min Width (ImageWidth - OffsetX) = w
    generalize hhd : min Height (ImageHeight - OffsetY) = h
    have hcols : add32 PosX w - PosX ≤ w := by
      unfold add32
      omega
    have hb : ∀ r c, r < h → c < add32 PosX w - PosX →
        add32 (add32 (mul32 OffsetY ImageWidth) (r * ImageWidth)) (add32 OffsetX c) <
          ImageWidth * ImageHeight := by
      intro r c hr hc
      have h1 : add32 (add32 (mul32 OffsetY ImageWidth) (r * ImageWidth)) (add32 OffsetX c) ≤
          OffsetY * ImageWidth + r * ImageWidth + OffsetX + c := by
        unfold add32 mul32
        omega
      have h2 : (OffsetY + r + 1) * ImageWidth ≤ ImageHeight * ImageWidth :=
        Nat.mul_le_mul_right _ (by omega)
      have h3 : (OffsetY + r + 1) * ImageWidth =
          OffsetY * ImageWidth + r * ImageWidth + ImageWidth := by ring
      have h4 : ImageHeight * ImageWidth = ImageWidth * ImageHeight := Nat.mul_comm _ _
      omega
    have hnil : ∀ i ∈ ([] : List Nat), i < ImageWidth * ImageHeight := by simp
    split_ifs
    · exact hnil
    · exact hnil
    · exact GuiDrawToBufferRows_reads _ _ _ _ _ _ _ _ _ _ hb hnil
    · exact GuiDrawToBufferRows_reads _ _ _ _ _ _ _ _ _ _ hb hnil
  intro i hi
  have hlt := hbound i hi
  refine ⟨hlt, i % ImageWidth, i / ImageWidth, Nat.mod_lt _ (by omega), ?_, ?_⟩
  · exact Nat.div_lt_of_lt_mul hlt
  · rw [Nat.mul_comm]
    exact (Nat.div_add_mod i ImageWidth).symm

/-- Witness for C16: a 4 by 3 image read from offset `(1, 1)` with a request larger than
the image reads the indices `5, 6, 7, 9, 10, 11`, all below `12`. -/
theorem GuiDrawToBuffer_reads_in_bounds_witness :
    GuiDrawToBufferReads 4 3 255 10 2 1 1 1 5 5 = [5, 6, 7, 9, 10, 11] ∧
    ∀ i ∈ GuiDrawToBufferReads 4 3 255 10 2 1 1 1 5 5,
      i < 4 * 3 ∧ ∃ x y, x < 4 ∧ y < 3 ∧ i = y * 4 + x :=
  ⟨by decide,
   GuiDrawToBuffer_reads_in_bounds 4 3 255 10 2 1 1 1 5 5 (by decide) (by decide) (by decide)
     (by decide)⟩

/-! ### The two branches of the clip and the region handed to a child -/

/-- C26: on every valid input on which `GuiClipChildBounds` returns `TRUE`: if
`ReqOffset >= max (ChildOffset, 0)` the written-back offset is `ReqOffset - ChildOffset`
and the length is the unchanged `ReqLength`; otherwise the written-back offset is exactly
`0` and the length is `ReqLength - (ChildOffset - ReqOffset)`.  In both branches the
written-back interval, in parent coordinates, starts at `max (ReqOffset, ChildOffset)` and
ends at the request's end `ReqOffset + ReqLength`. -/
theorem GuiClipChildBounds_two_branches (ChildOffset : Int)
    (ChildLength ReqOffset ReqLength o l : Nat)
    (hv : ClipValid ChildOffset ChildLength ReqOffset ReqLength)
    (hr : GuiClipChildBounds ChildOffset ChildLength ReqOffset ReqLength = some (o, l)) :
    (max ChildOffset 0 ≤ (ReqOffset : Int) →
      (o : Int) = ReqOffset - ChildOffset ∧ l = ReqLength) ∧
    (¬ max ChildOffset 0 ≤ (ReqOffset : Int) →
      o = 0 ∧ (l : Int) = ReqLength - (ChildOffset - ReqOffset)) ∧
    ChildOffset + o = max (ReqOffset : Int) ChildOffset ∧
    ChildOffset + o + l = (ReqOffset : Int) + ReqLength := by
  rw [GuiClipChildBounds_eq _ _ _ _ hv] at hr
  obtain ⟨hlo, hhi, hcl, hcl32, hro, hrl, hrl32⟩ := hv
  split at hr
  · exact Option.noConfusion hr
  · rename_i hd
    split at hr
    · rename_i hc
      simp only [Option.some.injEq, Prod.mk.injEq] at hr
      obtain ⟨ho, hl⟩ := hr
      have ho2 : (o : Int) = ReqOffset - ChildOffset := by omega
      refine ⟨fun _ => ⟨ho2, hl.symm⟩, fun h => absurd (by omega) h, ?_, ?_⟩
      · rw [max_eq_left hc]; omega
      · omega
    · rename_i hc
      simp only [Option.some.injEq, Prod.mk.injEq] at hr
      obtain ⟨ho, hl⟩ := hr
      have hl2 : (l : Int) = ReqOffset + ReqLength - ChildOffset := by omega
      refine ⟨fun h => absurd (by omega) hc, fun _ => ⟨ho.symm, by omega⟩, ?_, ?_⟩
      · rw [max_eq_right (by omega)]; omega
      · omega

/-- Witness for C26: the child `[4, 14)` against the request `[2, 8)` takes the second
branch: the written-back offset is `0` and the length is `6 - (4 - 2) = 4`. -/
theorem GuiClipChildBounds_two_branches_witness :
    GuiClipChildBounds 4 10 2 6 = some (0, 4) ∧
    (0 = 0 ∧ ((4 : Nat) : Int) = (6 : Nat) - (4 - (2 : Nat))) :=
  ⟨by decide,
   (GuiClipChildBounds_two_branches 4 10 2 6 0 4 (by decide) (by decide)).2.1 (by decide)⟩

/-- The `Draw` calls of `GuiObjDrawDelegate` are the calls of the children that pass both
clips, in reverse list order. -/
theorem GuiObjDrawDelegate_trace (This : GUI_OBJ) (Children : List GUI_OBJ)
    (BaseX BaseY : Int) (OffsetX OffsetY Width Height : Nat) :
    GuiObjDrawDelegate recordDraw This Children [] BaseX BaseY OffsetX OffsetY Width Height =
      Children.reverse.filterMap (fun Child =>
        childDrawCall Child BaseX BaseY OffsetX OffsetY
          (min Width (sub32 This.Width OffsetX)) (min Height (sub32 This.Height OffsetY))) := by
  unfold GuiObjDrawDelegate
  rw [GuiObjDrawDelegateLoop_eq_foldl _ _ _ _ _ _ _ _ _ (le_refl _), List.take_length,
    foldl_recordDraw, List.nil_append]

/-- A call computed by `childDrawCall` comes from two successful clips. -/
theorem childDrawCall_eq_some (Child : GUI_OBJ) (BaseX BaseY : Int)
    (OffsetX OffsetY Width Height : Nat) (c : DrawCall)
    (h : childDrawCall Child BaseX BaseY OffsetX OffsetY Width Height = some c) :
    GuiClipChildBounds Child.OffsetX Child.Width OffsetX Width = some (c.OffsetX, c.Width) ∧
    GuiClipChildBounds Child.OffsetY Child.Height OffsetY Height = some (c.OffsetY, c.Height) ∧
    c.Obj = Child ∧ c.BaseX = toINT64 (BaseX + Child.OffsetX) ∧
    c.BaseY = toINT64 (BaseY + Child.OffsetY) := by
  unfold childDrawCall GuiObjDrawDelegateChild at h
  cases h1 : GuiClipChildBounds Child.OffsetX Child.Width OffsetX Width with
  | none => rw [h1] at h; exact Option.noConfusion h
  | some a =>
    cases h2 : GuiClipChildBounds Child.OffsetY Child.Height OffsetY Height with
    | none => rw [h1, h2] at h; exact Option.noConfusion h
    | some b =>
      rw [h1, h2] at h
      simp only [Option.some.injEq] at h
      rw [← h]
      exact ⟨rfl, rfl, rfl, rfl, rfl⟩

/-- A child one of whose clips fails is not called. -/
theorem childDrawCall_eq_none (Child : GUI_OBJ) (BaseX BaseY : Int)
    (OffsetX OffsetY Width Height : Nat)
    (h : GuiClipChildBounds Child.OffsetX Child.Width OffsetX Width = none ∨
      GuiClipChildBounds Child.OffsetY Child.Height OffsetY Height = none) :
    childDrawCall Child BaseX BaseY OffsetX OffsetY Width Height = none := by
  unfold childDrawCall GuiObjDrawDelegateChild
  rcases h with h | h
  · rw [h]
  · rw [h]
    cases GuiClipChildBounds Child.OffsetX Child.Width OffsetX Width <;> rfl

/-- A call of the trace of `GuiObjDrawDelegate` is the call of one of the children. -/
theorem GuiObjDrawDelegate_trace_mem (This : GUI_OBJ) (Children : List GUI_OBJ)
    (BaseX BaseY : Int) (OffsetX OffsetY Width Height : Nat) (c : DrawCall)
    (hc : c ∈ GuiObjDrawDelegate recordDraw This Children [] BaseX BaseY OffsetX OffsetY
      Width Height) :
    ∃ Child ∈ Children, childDrawCall Child BaseX BaseY OffsetX OffsetY
      (min Width (sub32 This.Width OffsetX)) (min Height (sub32 This.Height OffsetY)) =
        some c := by
  rw [GuiObjDrawDelegate_trace, List.mem_filterMap] at hc
  obtain ⟨Child, h1, h2⟩ := hc
  exact ⟨Child, List.mem_reverse.1 h1, h2⟩

/-- C27: under the preconditions of `GuiObjDrawDelegate`, every `Draw` call it makes is
for one of the children, with base = parent base + child offset; the absolute region
handed to the child (base + handed offset, handed width and height) starts at parent base
+ `max (request offset, child offset)` on each axis and ends where the parent's request,
clamped to the parent's own size, ends, so it is contained in the absolute region of that
clamped request; and a child whose bounds are disjoint from the clamped request on either
axis is not drawn. -/
theorem GuiObjDrawDelegate_child_region (This : GUI_OBJ) (Children : List GUI_OBJ)
    (BaseX BaseY : Int) (OffsetX OffsetY Width Height : Nat)
    (hv : DrawDelegateValid This Children BaseX BaseY OffsetX OffsetY Width Height) :
    (∀ c ∈ GuiObjDrawDelegate recordDraw This Children [] BaseX BaseY OffsetX OffsetY
        Width Height,
      c.Obj ∈ Children ∧
      c.BaseX = BaseX + c.Obj.OffsetX ∧ c.BaseY = BaseY + c.Obj.OffsetY ∧
      c.BaseX + c.OffsetX = BaseX + max (OffsetX : Int) c.Obj.OffsetX ∧
      c.BaseY + c.OffsetY = BaseY + max (OffsetY : Int) c.Obj.OffsetY ∧
      BaseX + OffsetX ≤ c.BaseX + c.OffsetX ∧ BaseY + OffsetY ≤ c.BaseY + c.OffsetY ∧
      c.BaseX + c.OffsetX + c.Width =
        BaseX + OffsetX + (min Width (This.Width - OffsetX) : Nat) ∧
      c.BaseY + c.OffsetY + c.Height =
        BaseY + OffsetY + (min Height (This.Height - OffsetY) : Nat)) ∧
    (∀ Child ∈ Children,
      (IntervalsDisjoint Child.OffsetX Child.Width OffsetX (min Width (This.Width - OffsetX)) ∨
       IntervalsDisjoint Child.OffsetY Child.Height OffsetY
         (min Height (This.Height - OffsetY))) →
      ∀ c ∈ GuiObjDrawDelegate recordDraw This Children [] BaseX BaseY OffsetX OffsetY
        Width Height, c.Obj ≠ Child) := by
  obtain ⟨h1, h2, h3, h4, h5, h6, h7, h8, hch⟩ := hv
  have hsx : sub32 This.Width OffsetX = This.Width - OffsetX :=
    sub32_of_le _ _ (by omega) h2
  have hsy : sub32 This.Height OffsetY = This.Height - OffsetY :=
    sub32_of_le _ _ (by omega) h4
  have hvx : ∀ Child ∈ Children, ClipValid Child.OffsetX Child.Width OffsetX
      (min Width (This.Width - OffsetX)) := by
    intro Child hC
    obtain ⟨a1, a2, a3, a4, _⟩ := hch Child hC
    unfold ClipValid
    omega
  have hvy : ∀ Child ∈ Children, ClipValid Child.OffsetY Child.Height OffsetY
      (min Height (This.Height - OffsetY)) := by
    intro Child hC
    obtain ⟨_, _, _, _, a5, a6, a7, a8, _⟩ := hch Child hC
    unfold ClipValid
    omega
  constructor
  · intro c hc
    obtain ⟨Child, hC, hcall⟩ := GuiObjDrawDelegate_trace_mem _ _ _ _ _ _ _ _ c hc
    rw [hsx, hsy] at hcall
    obtain ⟨cx, cy, hobj, hbx, hby⟩ := childDrawCall_eq_some _ _ _ _ _ _ _ _ hcall
    obtain ⟨_, _, _, _, _, _, _, _, b1, b2⟩ := hch Child hC
    unfold InINT64 at b1 b2
    rw [toINT64_of_range _ b1.1 b1.2] at hbx
    rw [toINT64_of_range _ b2.1 b2.2] at hby
    rw [GuiClipChildBounds_eq _ _ _ _ (hvx Child hC)] at cx
    rw [GuiClipChildBounds_eq _ _ _ _ (hvy Child hC)] at cy
    rw [hobj]
    refine ⟨hC, hbx, hby, ?_, ?_, ?_, ?_, ?_, ?_⟩
    all_goals
      split at cx
      · exact Option.noConfusion cx
      split at cx <;> split at cy
      all_goals first
        | exact Option.noConfusion cy
        | skip
      all_goals
        split at cy <;>
        simp only [Option.some.injEq, Prod.mk.injEq] at cx cy <;>
        omega
  · intro Child hC hdis c hc habs
    obtain ⟨Child2, hC2, hcall⟩ := GuiObjDrawDelegate_trace_mem _ _ _ _ _ _ _ _ c hc
    rw [hsx, hsy] at hcall
    obtain ⟨cx, cy, hobj, _, _⟩ := childDrawCall_eq_some _ _ _ _ _ _ _ _ hcall
    rw [habs] at hobj
    rw [← hobj] at cx cy
    have vx := hvx Child hC
    have vy := hvy Child hC
    rw [GuiClipChildBounds_eq _ _ _ _ vx] at cx
    rw [GuiClipChildBounds_eq _ _ _ _ vy] at cy
    rcases hdis with hd | hd
    · rw [IntervalsDisjoint_iff _ _ _ _ vx.2.2.1 vx.2.2.2.2.2.1] at hd
      rw [if_pos hd] at cx
      exact Option.noConfusion cx
    · rw [IntervalsDisjoint_iff _ _ _ _ vy.2.2.1 vy.2.2.2.2.2.1] at hd
      rw [if_pos hd] at cy
      exact Option.noConfusion cy

theorem GuiObjDrawDelegate_child_region_witness :
    DrawDelegateValid ⟨0, 0, 0, 100, 100⟩ [⟨1, 10, 10, 20, 20⟩, ⟨2, 60, 60, 20, 20⟩] 0 0
      15 15 30 30 ∧
    GuiObjDrawDelegate recordDraw ⟨0, 0, 0, 100, 100⟩
      [⟨1, 10, 10, 20, 20⟩, ⟨2, 60, 60, 20, 20⟩] [] 0 0 15 15 30 30 =
      [⟨⟨1, 10, 10, 20, 20⟩, 10, 10, 5, 5, 30, 30⟩] ∧
    (∀ c ∈ GuiObjDrawDelegate recordDraw ⟨0, 0, 0, 100, 100⟩
        [⟨1, 10, 10, 20, 20⟩, ⟨2, 60, 60, 20, 20⟩] [] 0 0 15 15 30 30,
      c.BaseX + c.OffsetX + c.Width = 0 + (15 : Nat) + (min 30 (100 - 15) : Nat)) :=
  ⟨by decide, by decide,
   fun c hc => ((GuiObjDrawDelegate_child_region ⟨0, 0, 0, 100, 100⟩
      [⟨1, 10, 10, 20, 20⟩, ⟨2, 60, 60, 20, 20⟩] 0 0 15 15 30 30 (by decide)).1 c hc).2.2.2.2.2.2.2.1⟩

/-- C30: whenever `GuiClipChildBounds` returns `TRUE` on a valid input, the written-back
offset is strictly below `ChildLength` and the written-back length is positive; and under
the preconditions of `GuiObjDrawDelegate`, every `Draw` call it makes for a child is given
a positive width and height and an offset strictly inside that child
(`Obj.Width > OffsetX`, `Obj.Height > OffsetY`), which are the assertions the callee makes
on entry when it is itself a `GuiObjDrawDelegate`. -/
theorem GuiObjDrawDelegate_child_preconditions :
    (∀ (ChildOffset : Int) (ChildLength ReqOffset ReqLength o l : Nat),
      ClipValid ChildOffset ChildLength ReqOffset ReqLength →
      GuiClipChildBounds ChildOffset ChildLength ReqOffset ReqLength = some (o, l) →
      o < ChildLength ∧ 0 < l) ∧
    (∀ (This : GUI_OBJ) (Children : List GUI_OBJ) (BaseX BaseY : Int)
      (OffsetX OffsetY Width Height : Nat),
      DrawDelegateValid This Children BaseX BaseY OffsetX OffsetY Width Height →
      ∀ c ∈ GuiObjDrawDelegate recordDraw This Children [] BaseX BaseY OffsetX OffsetY
        Width Height,
        0 < c.Width ∧ 0 < c.Height ∧ c.OffsetX < c.Obj.Width ∧ c.OffsetY < c.Obj.Height ∧
        c.Width < 4294967296 ∧ c.Height < 4294967296) := by
  constructor
  · intro ChildOffset ChildLength ReqOffset ReqLength o l hv hr
    have h := GuiClipChildBounds_some_bounds _ _ _ _ _ _ hv hr
    exact ⟨h.1, h.2.1⟩
  · intro This Children BaseX BaseY OffsetX OffsetY Width Height hv c hc
    obtain ⟨h1, h2, h3, h4, h5, h6, h7, h8, hch⟩ := hv
    have hsx : sub32 This.Width OffsetX = This.Width - OffsetX :=
      sub32_of_le _ _ (by omega) h2
    have hsy : sub32 This.Height OffsetY = This.Height - OffsetY :=
      sub32_of_le _ _ (by omega) h4
    obtain ⟨Child, hC, hcall⟩ := GuiObjDrawDelegate_trace_mem _ _ _ _ _ _ _ _ c hc
    rw [hsx, hsy] at hcall
    obtain ⟨cx, cy, hobj, _, _⟩ := childDrawCall_eq_some _ _ _ _ _ _ _ _ hcall
    obtain ⟨a1, a2, a3, a4, a5, a6, a7, a8, _⟩ := hch Child hC
    have vx : ClipValid Child.OffsetX Child.Width OffsetX (min Width (This.Width - OffsetX)) := by
      unfold ClipValid; omega
    have vy : ClipValid Child.OffsetY Child.Height OffsetY
        (min Height (This.Height - OffsetY)) := by
      unfold ClipValid; omega
    have bx := GuiClipChildBounds_some_bounds _ _ _ _ _ _ vx cx
    have bY := GuiClipChildBounds_some_bounds _ _ _ _ _ _ vy cy
    rw [hobj]
    refine ⟨bx.2.1, bY.2.1, bx.1, bY.1, ?_, ?_⟩ <;> omega

theorem GuiObjDrawDelegate_child_preconditions_witness :
    ClipValid 4 10 2 6 ∧ GuiClipChildBounds 4 10 2 6 = some (0, 4) ∧ (0 < 10 ∧ 0 < 4) :=
  ⟨by decide, by decide,
   GuiObjDrawDelegate_child_preconditions.1 4 10 2 6 0 4 (by decide) (by decide)⟩

/-! ### The merge criterion on disjoint rectangles -/

/-- Two positive-size rectangles placed side by side inside a `W` by `H` box fill at
least the box exactly when they fill it exactly. -/
theorem tile_arith (a b c d W H : Nat) (ha : 0 < a) (hc : 0 < c)
    (hW : a + c ≤ W) (hH1 : b ≤ H) (hH2 : d ≤ H) (hH : 0 < H) :
    a * b + c * d ≥ W * H ↔ (W = a + c ∧ H = b ∧ H = d) := by
  constructor
  · intro h
    have h1 : (a + c) * H ≤ W * H := Nat.mul_le_mul_right H hW
    have h2 : a * b ≤ a * H := Nat.mul_le_mul_left a hH1
    have h3 : c * d ≤ c * H := Nat.mul_le_mul_left c hH2
    have h4 : (a + c) * H = a * H + c * H := Nat.add_mul a c H
    have e1 : a * b = a * H := by omega
    have e2 : c * d = c * H := by omega
    have e3 : (a + c) * H = W * H := by omega
    exact ⟨(Nat.eq_of_mul_eq_mul_right hH e3).symm, (Nat.eq_of_mul_eq_mul_left ha e1).symm,
      (Nat.eq_of_mul_eq_mul_left hc e2).symm⟩
  · rintro ⟨h1, h2, h3⟩
    subst h1
    rw [← h2, ← h3, Nat.add_mul]

/-- Rectangles of positive size that share no pixel are separated along one axis. -/
theorem separated_of_no_shared_pixel (E R : GUI_DRAW_REQUEST)
    (hEw : 0 < E.Width) (hEh : 0 < E.Height) (hRw : 0 < R.Width) (hRh : 0 < R.Height)
    (hd : ∀ px py : Int, ¬ (E.HasPixel px py ∧ R.HasPixel px py)) :
    E.X + E.Width ≤ R.X ∨ R.X + R.Width ≤ E.X ∨ E.Y + E.Height ≤ R.Y ∨
      R.Y + R.Height ≤ E.Y := by
  by_contra hc
  apply hd (max (E.X : Int) R.X) (max (E.Y : Int) R.Y)
  unfold GUI_DRAW_REQUEST.HasPixel RectHasPixel
  omega

/-- The merge criterion on rectangles separated along one axis. -/
theorem MergeCriterion_iff_tiles (E R : GUI_DRAW_REQUEST)
    (hEw : 0 < E.Width) (hEh : 0 < E.Height) (hRw : 0 < R.Width) (hRh : 0 < R.Height)
    (hsep : E.X + E.Width ≤ R.X ∨ R.X + R.Width ≤ E.X ∨ E.Y + E.Height ≤ R.Y ∨
      R.Y + R.Height ≤ E.Y) :
    MergeCriterion E R ↔ TilesBounding E R := by
  unfold MergeCriterion Area Bounding TilesBounding
  simp only
  generalize hWd : max (E.X + E.Width) (R.X + R.Width) - min E.X R.X = W
  generalize hHd : max (E.Y + E.Height) (R.Y + R.Height) - min E.Y R.Y = H
  have hW1 : E.Width ≤ W := by omega
  have hW2 : R.Width ≤ W := by omega
  have hH1 : E.Height ≤ H := by omega
  have hH2 : R.Height ≤ H := by omega
  rcases hsep with h | h | h | h
  · rw [tile_arith E.Width E.Height R.Width R.Height W H hEw hRw (by omega) hH1 hH2
      (by omega)]
    omega
  · rw [tile_arith E.Width E.Height R.Width R.Height W H hEw hRw (by omega) hH1 hH2
      (by omega)]
    omega
  · rw [Nat.mul_comm E.Width, Nat.mul_comm R.Width, Nat.mul_comm W,
      tile_arith E.Height E.Width R.Height R.Width H W hEh hRh (by omega) hW1 hW2
      (by omega)]
    omega
  · rw [Nat.mul_comm E.Width, Nat.mul_comm R.Width, Nat.mul_comm W,
      tile_arith E.Height E.Width R.Height R.Width H W hEh hRh (by omega) hW1 hW2
      (by omega)]
    omega

/-- The pixels of the bounding rectangle. -/
theorem Bounding_HasPixel (E R : GUI_DRAW_REQUEST) (px py : Int) :
    (Bounding E R).HasPixel px py ↔
      (min (E.X : Int) R.X ≤ px ∧ px < max ((E.X : Int) + E.Width) (R.X + R.Width) ∧
       min (E.Y : Int) R.Y ≤ py ∧ py < max ((E.Y : Int) + E.Height) (R.Y + R.Height)) := by
  unfold GUI_DRAW_REQUEST.HasPixel RectHasPixel Bounding
  simp only
  omega

/-- C28: for an in-screen queue entry `E` and an in-screen request `R` (positive sizes,
screen area below `2^31`) that share no pixel, the test of `GuiRequestDraw` passes if and
only if `E` and `R` are edge-adjacent with equal extent along the shared edge; and that
is the case if and only if every pixel of their bounding rectangle lies in `E` or in
`R`, so that the two exactly tile it. -/
theorem GuiRequestDrawMerges_disjoint_iff_tiles (ScreenWidth ScreenHeight : Nat)
    (E R : GUI_DRAW_REQUEST)
    (hs : ScreenWidth * ScreenHeight < 2147483648)
    (hE : InScreen ScreenWidth ScreenHeight E) (hR : InScreen ScreenWidth ScreenHeight R)
    (hd : ∀ px py : Int, ¬ (E.HasPixel px py ∧ R.HasPixel px py)) :
    (GuiRequestDrawMerges E R.X R.Y R.Width R.Height = true ↔ TilesBounding E R) ∧
    (TilesBounding E R ↔
      ∀ px py : Int, (Bounding E R).HasPixel px py →
        E.HasPixel px py ∨ R.HasPixel px py) := by
  have hsep := separated_of_no_shared_pixel E R hE.1 hE.2.1 hR.1 hR.2.1 hd
  constructor
  · rw [(GuiRequestDrawMerges_iff ScreenWidth ScreenHeight E R.X R.Y R.Width R.Height hs hE
      hR).1]
    exact MergeCriterion_iff_tiles E R hE.1 hE.2.1 hR.1 hR.2.1 hsep
  · obtain ⟨hEw, hEh, _, _⟩ := hE
    obtain ⟨hRw, hRh, _, _⟩ := hR
    simp only [Bounding_HasPixel]
    unfold TilesBounding GUI_DRAW_REQUEST.HasPixel RectHasPixel
    constructor
    · intro ht px py hp
      omega
    · intro hcov
      rcases hsep with h | h | h | h
      · have e1 : E.Y ≤ R.Y := by
          have c := hcov (E.X : Int) (min (E.Y : Int) R.Y)
          omega
        have e2 : R.Y ≤ E.Y := by
          have c := hcov ((R.X : Int) + R.Width - 1) (min (E.Y : Int) R.Y)
          omega
        have e3 : R.Y + R.Height ≤ E.Y + E.Height := by
          have c := hcov (E.X : Int) (max ((E.Y : Int) + E.Height) (R.Y + R.Height) - 1)
          omega
        have e4 : E.Y + E.Height ≤ R.Y + R.Height := by
          have c := hcov ((R.X : Int) + R.Width - 1)
            (max ((E.Y : Int) + E.Height) (R.Y + R.Height) - 1)
          omega
        have e5 : E.X + E.Width = R.X := by
          have c := hcov ((E.X : Int) + E.Width) (E.Y : Int)
          omega
        omega
      · have e1 : R.Y ≤ E.Y := by
          have c := hcov (R.X : Int) (min (E.Y : Int) R.Y)
          omega
        have e2 : E.Y ≤ R.Y := by
          have c := hcov ((E.X : Int) + E.Width - 1) (min (E.Y : Int) R.Y)
          omega
        have e3 : E.Y + E.Height ≤ R.Y + R.Height := by
          have c := hcov (R.X : Int) (max ((E.Y : Int) + E.Height) (R.Y + R.Height) - 1)
          omega
        have e4 : R.Y + R.Height ≤ E.Y + E.Height := by
          have c := hcov ((E.X : Int) + E.Width - 1)
            (max ((E.Y : Int) + E.Height) (R.Y + R.Height) - 1)
          omega
        have e5 : R.X + R.Width = E.X := by
          have c := hcov ((R.X : Int) + R.Width) (R.Y : Int)
          omega
        omega
      · have e1 : E.X ≤ R.X := by
          have c := hcov (min (E.X : Int) R.X) (E.Y : Int)
          omega
        have e2 : R.X ≤ E.X := by
          have c := hcov (min (E.X : Int) R.X) ((R.Y : Int) + R.Height - 1)
          omega
        have e3 : R.X + R.Width ≤ E.X + E.Width := by
          have c := hcov (max ((E.X : Int) + E.Width) (R.X + R.Width) - 1) (E.Y : Int)
          omega
        have e4 : E.X + E.Width ≤ R.X + R.Width := by
          have c := hcov (max ((E.X : Int) + E.Width) (R.X + R.Width) - 1)
            ((R.Y : Int) + R.Height - 1)
          omega
        have e5 : E.Y + E.Height = R.Y := by
          have c := hcov (E.X : Int) ((E.Y : Int) + E.Height)
          omega
        omega
      · have e1 : R.X ≤ E.X := by
          have c := hcov (min (E.X : Int) R.X) (R.Y : Int)
          omega
        have e2 : E.X ≤ R.X := by
          have c := hcov (min (E.X : Int) R.X) ((E.Y : Int) + E.Height - 1)
          omega
        have e3 : E.X + E.Width ≤ R.X + R.Width := by
          have c := hcov (max ((E.X : Int) + E.Width) (R.X + R.Width) - 1) (R.Y : Int)
          omega
        have e4 : R.X + R.Width ≤ E.X + E.Width := by
          have c := hcov (max ((E.X : Int) + E.Width) (R.X + R.Width) - 1)
            ((E.Y : Int) + E.Height - 1)
          omega
        have e5 : R.Y + R.Height = E.Y := by
          have c := hcov (R.X : Int) ((R.Y : Int) + R.Height)
          omega
        omega

theorem GuiRequestDrawMerges_disjoint_iff_tiles_witness :
    InScreen 100 100 ⟨0, 0, 10, 10⟩ ∧ InScreen 100 100 ⟨10, 0, 5, 10⟩ ∧
    (GuiRequestDrawMerges ⟨0, 0, 10, 10⟩ 10 0 5 10 = true ↔
      TilesBounding ⟨0, 0, 10, 10⟩ ⟨10, 0, 5, 10⟩) :=
  ⟨by decide, by decide,
   (GuiRequestDrawMerges_disjoint_iff_tiles 100 100 ⟨0, 0, 10, 10⟩ ⟨10, 0, 5, 10⟩
      (by decide) (by decide) (by decide)
      (fun px py h => by
        unfold GUI_DRAW_REQUEST.HasPixel RectHasPixel at h
        simp only at h
        omega)).1⟩

/-! ### Damage is never lost -/

/-- A merge by the loop of `GuiRequestDraw` replaces one scanned entry that passes the
test by the rectangle computed for it. -/
theorem GuiRequestDrawLoop_some_inv (q q1 : DrawQueue) (PosX PosY Width Height : Nat)
    (Remaining Index : Nat)
    (h : GuiRequestDrawLoop q PosX PosY Width Height Remaining Index = some q1) :
    ∃ i, Index ≤ i ∧ i < Index + Remaining ∧
      q1 = { q with mDrawRequests :=
        q.mDrawRequests.set i (GuiRequestDrawComb (q.entry i) PosX PosY Width Height) } := by
  induction Remaining generalizing Index with
  | zero => rw [GuiRequestDrawLoop] at h; exact Option.noConfusion h
  | succ n ih =>
    rw [GuiRequestDrawLoop] at h
    split at h
    · simp only [Option.some.injEq] at h
      exact ⟨Index, le_refl _, by omega, h.symm⟩
    · obtain ⟨i, h1, h2, h3⟩ := ih (Index + 1) h
      exact ⟨i, by omega, by omega, h3⟩

/-- Reading an array element other than the one that has just been written. -/
theorem entry_set_ne (n m : Nat) (l : List GUI_DRAW_REQUEST) (i j : Nat) (x : GUI_DRAW_REQUEST)
    (h : i ≠ j) :
    DrawQueue.entry { mNumValidDrawReqs := n, mDrawRequests := l.set i x } j =
      DrawQueue.entry { mNumValidDrawReqs := m, mDrawRequests := l } j := by
  unfold DrawQueue.entry
  simp only [List.getD_eq_getElem?_getD, List.getElem?_set_ne h]

/-- The bounding rectangle covers both rectangles. -/
theorem Bounding_covers (E R : GUI_DRAW_REQUEST) (px py : Int)
    (h : E.HasPixel px py ∨ R.HasPixel px py) : (Bounding E R).HasPixel px py := by
  rw [Bounding_HasPixel]
  unfold GUI_DRAW_REQUEST.HasPixel RectHasPixel at h
  omega

/-- C29: on a queue whose array has 4 elements, of which the `n <= 4` valid ones are
in-screen (positive size, screen width and height being `UINT32`), and for an in-screen
request, a call of `GuiRequestDraw` that does not reach `ASSERT (FALSE)` leaves a queue
in which every pixel covered by a valid entry before the call is covered by a valid entry,
and in which every pixel of the request is covered by a valid entry. -/
theorem GuiRequestDraw_damage_kept (ScreenWidth ScreenHeight : Nat) (q : DrawQueue)
    (PosX PosY Width Height : Nat)
    (hW : ScreenWidth < 4294967296) (hH : ScreenHeight < 4294967296)
    (hlen : q.mDrawRequests.length = 4) (hn : q.mNumValidDrawReqs ≤ 4)
    (hq : ∀ i, i < q.mNumValidDrawReqs → InScreen ScreenWidth ScreenHeight (q.entry i))
    (hR : InScreen ScreenWidth ScreenHeight
      { X := PosX, Y := PosY, Width := Width, Height := Height })
    (hok : (GuiRequestDraw q PosX PosY Width Height).2 = false) :
    (∀ px py : Int, q.Covers px py →
      (GuiRequestDraw q PosX PosY Width Height).1.Covers px py) ∧
    (∀ px py : Int, RectHasPixel PosX PosY Width Height px py →
      (GuiRequestDraw q PosX PosY Width Height).1.Covers px py) := by
  unfold GuiRequestDraw at hok ⊢
  cases hl : GuiRequestDrawLoop q PosX PosY Width Height q.mNumValidDrawReqs 0 with
  | some q1 =>
    simp only
    obtain ⟨i, _, hi, hq1⟩ := GuiRequestDrawLoop_some_inv _ _ _ _ _ _ _ _ hl
    have hEi := hq i (by omega)
    have hcomb : GuiRequestDrawComb (q.entry i) PosX PosY Width Height =
        Bounding (q.entry i) { X := PosX, Y := PosY, Width := Width, Height := Height } := by
      unfold InScreen at hEi hR
      simp only at hR
      exact GuiRequestDrawComb_eq_Bounding _ _ _ _ _ hEi.1 hEi.2.1 hR.1 hR.2.1
        (by omega) (by omega) (by omega) (by omega)
    rw [hcomb] at hq1
    have hent : q1.entry i =
        Bounding (q.entry i) { X := PosX, Y := PosY, Width := Width, Height := Height } := by
      rw [hq1]
      exact entry_set_self _ _ _ _ (by omega)
    have hcnt : q1.mNumValidDrawReqs = q.mNumValidDrawReqs := by rw [hq1]
    constructor
    · rintro px py ⟨k, hk, hp⟩
      by_cases hki : k = i
      · refine ⟨i, by omega, ?_⟩
        rw [hent]
        exact Bounding_covers _ _ _ _ (Or.inl (hki ▸ hp))
      · refine ⟨k, by omega, ?_⟩
        rw [hq1, entry_set_ne _ q.mNumValidDrawReqs _ _ _ _ (fun h => hki h.symm)]
        exact hp
    · intro px py hp
      refine ⟨i, by omega, ?_⟩
      rw [hent]
      exact Bounding_covers _ _ _ _ (Or.inr hp)
  | none =>
    rw [hl] at hok
    by_cases h4 : q.mNumValidDrawReqs ≥ 4
    · rw [if_pos h4] at hok
      exact absurd hok (by simp)
    · rw [if_neg h4]
      simp only
      have hmod : (q.mNumValidDrawReqs + 1) % 256 = q.mNumValidDrawReqs + 1 :=
        Nat.mod_eq_of_lt (by omega)
      constructor
      · rintro px py ⟨k, hk, hp⟩
        refine ⟨k, ?_, ?_⟩
        · show k < (q.mNumValidDrawReqs + 1) % 256
          omega
        · rw [entry_set_ne _ q.mNumValidDrawReqs _ _ _ _ (by omega)]
          exact hp
      · intro px py hp
        refine ⟨q.mNumValidDrawReqs, ?_, ?_⟩
        · show q.mNumValidDrawReqs < (q.mNumValidDrawReqs + 1) % 256
          omega
        · rw [entry_set_self _ _ _ _ (by omega)]
          exact hp

theorem GuiRequestDraw_damage_kept_witness :
    (GuiRequestDraw ⟨1, [⟨0, 0, 10, 10⟩, default, default, default]⟩ 30 30 5 5).2 = false ∧
    (∀ px py : Int, RectHasPixel (30 : Nat) (30 : Nat) 5 5 px py →
      (GuiRequestDraw ⟨1, [⟨0, 0, 10, 10⟩, default, default, default]⟩
        30 30 5 5).1.Covers px py) :=
  ⟨by decide,
   (GuiRequestDraw_damage_kept 100 100 ⟨1, [⟨0, 0, 10, 10⟩, default, default, default]⟩
      30 30 5 5 (by decide) (by decide) (by decide) (by decide)
      (fun i hi => by
        have h0 : i = 0 := Nat.lt_one_iff.1 hi
        subst h0
        decide)
      (by decide) (by decide)).2⟩

/-! ### Frame flush -/

/-- The first loop of `GuiFlushScreen` calls `Draw` once for each scanned entry, in index
order. -/
theorem GuiFlushScreenDraw_log (q : DrawQueue) (Remaining Index : Nat) (l : List FlushEvent) :
    GuiFlushScreenDraw recordFlushDraw q Remaining Index l =
      l ++ ((List.range' Index Remaining).map q.entry).map drawEvent := by
  induction Remaining generalizing Index l with
  | zero => simp [GuiFlushScreenDraw]
  | succ n ih =>
    rw [GuiFlushScreenDraw, ih, List.range'_succ]
    simp [recordFlushDraw, drawEvent]

/-- The second loop of `GuiFlushScreen` blits each scanned entry once, in index order. -/
theorem GuiFlushScreenBlt_log (q : DrawQueue) (Remaining Index : Nat) (l : List FlushEvent) :
    GuiFlushScreenBlt recordFlushBlt q Remaining Index l =
      l ++ ((List.range' Index Remaining).map q.entry).map bltEvent := by
  induction Remaining generalizing Index l with
  | zero => simp [GuiFlushScreenBlt]
  | succ n ih =>
    rw [GuiFlushScreenBlt, ih, List.range'_succ]
    simp [recordFlushBlt, bltEvent]

/-- The busy-wait ends when a reading reaches `Ticks`. -/
theorem InternalCpuDelayTscWait_returns (Ticks : Nat) (L : List Nat)
    (h : ∃ r ∈ L, Ticks ≤ r) : ∃ res, InternalCpuDelayTscWait Ticks L = some res := by
  induction L with
  | nil => obtain ⟨r, hr, _⟩ := h; exact absurd hr (List.not_mem_nil r)
  | cons a L ih =>
    rw [InternalCpuDelayTscWait]
    by_cases ha : a < Ticks
    · rw [if_pos ha]
      obtain ⟨r, hr, hle⟩ := h
      rcases List.mem_cons.1 hr with h1 | h1
      · omega
      · exact ih ⟨r, h1, hle⟩
    · rw [if_neg ha]
      exact ⟨_, rfl⟩

/-- The reading that ends the busy-wait is one of the readings, is not below `Ticks`, and
the readings still to come are those that followed it. -/
theorem InternalCpuDelayTscWait_some (Ticks : Nat) (L : List Nat) (Tsc : Nat) (Rest : List Nat)
    (h : InternalCpuDelayTscWait Ticks L = some (Tsc, Rest)) :
    Ticks ≤ Tsc ∧ ∃ Skipped, L = Skipped ++ Tsc :: Rest := by
  induction L with
  | nil => rw [InternalCpuDelayTscWait] at h; exact Option.noConfusion h
  | cons a L ih =>
    rw [InternalCpuDelayTscWait] at h
    by_cases ha : a < Ticks
    · rw [if_pos ha] at h
      obtain ⟨h1, S, h2⟩ := ih h
      exact ⟨h1, a :: S, by rw [h2]; rfl⟩
    · rw [if_neg ha] at h
      simp only [Option.some.injEq, Prod.mk.injEq] at h
      exact ⟨by omega, [], by rw [← h.1, ← h.2]; rfl⟩

/-- The pacing part of `GuiFlushScreen` returns when, after the first two readings, a
reading is at least the second one plus the target. -/
theorem GuiFlushScreenTiming_returns (mStartTsc mDeltaTscTarget E T0 : Nat) (Rest : List Nat)
    (h : ∃ r ∈ Rest, T0 + mDeltaTscTarget ≤ r) :
    ∃ res, GuiFlushScreenTiming mStartTsc mDeltaTscTarget (E :: T0 :: Rest) = some res := by
  unfold GuiFlushScreenTiming
  simp only [AsmReadTsc]
  by_cases hd : sub64 E mStartTsc < mDeltaTscTarget
  · rw [if_pos hd]
    unfold InternalCpuDelayTsc
    simp only [AsmReadTsc]
    apply InternalCpuDelayTscWait_returns
    obtain ⟨r, hr, hle⟩ := h
    refine ⟨r, hr, ?_⟩
    unfold add64 sub64 at *
    omega
  · rw [if_neg hd]
    exact ⟨_, rfl⟩

/-- With identity blend primitives `GuiDrawToBuffer` leaves the state as it is. -/
theorem GuiDrawToBufferRow_id {σ : Type} (a b n c d : Nat) (s : σ) :
    GuiDrawToBufferRow (fun s _ _ => s) a b n c d s = s := by
  induction n generalizing c d with
  | zero => rfl
  | succ n ih => rw [GuiDrawToBufferRow, ih]

theorem GuiDrawToBufferRows_id {σ : Type} (a b c d e n f g : Nat) (s : σ) :
    GuiDrawToBufferRows (fun s _ _ => s) a b c d e n f g s = s := by
  induction n generalizing f g with
  | zero => rfl
  | succ n ih => rw [GuiDrawToBufferRows, GuiDrawToBufferRow_id, ih]

theorem GuiDrawToBuffer_id {σ : Type} (ImageWidth ImageHeight Opacity ScreenWidth : Nat) (s : σ)
    (BaseX BaseY : Int) (OffsetX OffsetY Width Height : Nat) :
    GuiDrawToBuffer (fun s _ _ => s) (fun s _ _ _ => s) ImageWidth ImageHeight Opacity
      ScreenWidth s BaseX BaseY OffsetX OffsetY Width Height = s := by
  unfold GuiDrawToBuffer
  simp only [GuiDrawToBufferRows_id, ite_self]

/-- Whatever path `GuiRequestDraw` takes, every pixel covered by a valid entry before the
call is covered by a valid entry after it. -/
theorem GuiRequestDraw_keeps_covered (ScreenWidth ScreenHeight : Nat) (q : DrawQueue)
    (PosX PosY Width Height : Nat)
    (hW : ScreenWidth < 4294967296) (hH : ScreenHeight < 4294967296)
    (hlen : q.mDrawRequests.length = 4) (hn : q.mNumValidDrawReqs ≤ 4)
    (hq : ∀ i, i < q.mNumValidDrawReqs → InScreen ScreenWidth ScreenHeight (q.entry i))
    (hR : InScreen ScreenWidth ScreenHeight
      { X := PosX, Y := PosY, Width := Width, Height := Height })
    (px py : Int) (hc : q.Covers px py) :
    (GuiRequestDraw q PosX PosY Width Height).1.Covers px py := by
  unfold GuiRequestDraw
  cases hl : GuiRequestDrawLoop q PosX PosY Width Height q.mNumValidDrawReqs 0 with
  | some q1 =>
    simp only
    obtain ⟨i, _, hi, hq1⟩ := GuiRequestDrawLoop_some_inv _ _ _ _ _ _ _ _ hl
    have hEi := hq i (by omega)
    have hcomb : GuiRequestDrawComb (q.entry i) PosX PosY Width Height =
        Bounding (q.entry i) { X := PosX, Y := PosY, Width := Width, Height := Height } := by
      unfold InScreen at hEi hR
      simp only at hR
      exact GuiRequestDrawComb_eq_Bounding _ _ _ _ _ hEi.1 hEi.2.1 hR.1 hR.2.1
        (by omega) (by omega) (by omega) (by omega)
    rw [hcomb] at hq1
    obtain ⟨k, hk, hp⟩ := hc
    by_cases hki : k = i
    · refine ⟨i, by rw [hq1]; exact (by omega : i < q.mNumValidDrawReqs), ?_⟩
      rw [hq1, entry_set_self _ _ _ _ (by omega)]
      exact Bounding_covers _ _ _ _ (Or.inl (hki ▸ hp))
    · refine ⟨k, by rw [hq1]; exact hk, ?_⟩
      rw [hq1, entry_set_ne _ q.mNumValidDrawReqs _ _ _ _ (fun h => hki h.symm)]
      exact hp
  | none =>
    by_cases h4 : q.mNumValidDrawReqs ≥ 4
    · rw [if_pos h4]
      exact hc
    · rw [if_neg h4]
      simp only
      have hmod : (q.mNumValidDrawReqs + 1) % 256 = q.mNumValidDrawReqs + 1 :=
        Nat.mod_eq_of_lt (by omega)
      obtain ⟨k, hk, hp⟩ := hc
      refine ⟨k, ?_, ?_⟩
      · show k < (q.mNumValidDrawReqs + 1) % 256
        omega
      · rw [entry_set_ne _ q.mNumValidDrawReqs _ _ _ _ (by omega)]
        exact hp

/-- A pixel covered by the queue lies in one of its valid entries. -/
theorem Covers_valid (q : DrawQueue) (px py : Int) (h : q.Covers px py) :
    ∃ B ∈ q.valid, B.HasPixel px py := by
  obtain ⟨i, hi, hp⟩ := h
  exact ⟨q.entry i, List.mem_map.2 ⟨i, List.mem_range.2 hi, rfl⟩, hp⟩

/-- C21: on a queue whose array has 4 elements, of which the `n <= 4` valid ones are
in-screen (screen width and height being `UINT32`), with a cursor image of positive size
and a pointer inside the screen, and with counter readings that let the busy-wait end,
`GuiFlushScreen` returns, and the calls it has made are: one `Draw` of the root object
for each rectangle of the queue on entry, in queue order, with base `(0, 0)` and that
rectangle's offset and size; then buffer-to-video blits with source = destination of a
list of rectangles such that every pixel of every rectangle of the queue on entry lies in
one of them; and on return the count of the queue is `0`. -/
theorem GuiFlushScreen_draws_and_blits (ScreenWidth ScreenHeight CursorWidth CursorHeight : Nat)
    (mPointerContext : Option GUI_POINTER_STATE) (g : FlushGlobals) (E T0 : Nat)
    (Rest : List Nat)
    (hW : ScreenWidth < 4294967296) (hH : ScreenHeight < 4294967296)
    (hcw : 0 < CursorWidth) (hch : 0 < CursorHeight)
    (hlen : g.Queue.mDrawRequests.length = 4) (hn : g.Queue.mNumValidDrawReqs ≤ 4)
    (hq : ∀ i, i < g.Queue.mNumValidDrawReqs →
      InScreen ScreenWidth ScreenHeight (g.Queue.entry i))
    (hp : ∀ P, mPointerContext = some P → P.X < ScreenWidth ∧ P.Y < ScreenHeight)
    (hreach : ∃ r ∈ Rest, T0 + g.mDeltaTscTarget ≤ r) :
    ∃ (res : FlushResult (List FlushEvent)) (Blits : List GUI_DRAW_REQUEST),
      GuiFlushScreen recordFlushDraw (fun s _ _ => s) (fun s _ _ _ => s) recordFlushBlt
        CursorWidth CursorHeight ScreenWidth ScreenHeight mPointerContext [] g
        (E :: T0 :: Rest) = some res ∧
      res.State = g.Queue.valid.map drawEvent ++ Blits.map bltEvent ∧
      (∀ R ∈ g.Queue.valid, ∀ px py : Int, R.HasPixel px py →
        ∃ B ∈ Blits, B.HasPixel px py) ∧
      res.Globals.Queue.mNumValidDrawReqs = 0 := by
  obtain ⟨⟨EndTsc, Rest1⟩, ht⟩ :=
    GuiFlushScreenTiming_returns g.mStartTsc g.mDeltaTscTarget E T0 Rest hreach
  have hcov : ∀ R ∈ g.Queue.valid, ∀ px py : Int, R.HasPixel px py → g.Queue.Covers px py := by
    intro R hR px py hpx
    obtain ⟨i, hi, rfl⟩ := List.mem_map.1 hR
    exact ⟨i, List.mem_range.1 hi, hpx⟩
  unfold GuiFlushScreen
  rw [ht]
  simp only [GuiFlushScreenDraw_log, GuiFlushScreenBlt_log, List.nil_append]
  cases hm : mPointerContext with
  | none =>
    refine ⟨_, g.Queue.valid, rfl, ?_, ?_, rfl⟩
    · simp only [DrawQueue.valid, List.range_eq_range']
    · intro R hR px py hpx
      exact ⟨R, hR, hpx⟩
  | some P =>
    obtain ⟨hPx, hPy⟩ := hp P hm
    refine ⟨_, (GuiRequestDraw g.Queue P.X P.Y (min CursorWidth (sub32 ScreenWidth P.X))
      (min CursorHeight (sub32 ScreenHeight P.Y))).1.valid, rfl, ?_, ?_, rfl⟩
    · simp only [GuiOverlayPointer, GuiDrawToBuffer_id, DrawQueue.valid, List.range_eq_range']
    · intro R hR px py hpx
      apply Covers_valid
      apply GuiRequestDraw_keeps_covered ScreenWidth ScreenHeight _ _ _ _ _ hW hH hlen hn hq
      · rw [sub32_of_le _ _ (by omega) hW, sub32_of_le _ _ (by omega) hH]
        unfold InScreen
        simp only
        omega
      · exact hcov R hR px py hpx

theorem GuiFlushScreen_draws_and_blits_witness :
    ∃ (res : FlushResult (List FlushEvent)) (Blits : List GUI_DRAW_REQUEST),
      GuiFlushScreen recordFlushDraw (fun s _ _ => s) (fun s _ _ _ => s) recordFlushBlt
        8 8 100 100 (some ⟨50, 50, false⟩) []
        ⟨⟨1, [⟨0, 0, 10, 10⟩, default, default, default]⟩, 0, 100, 0, 0⟩
        (50 :: 60 :: [200]) = some res ∧
      res.State = (DrawQueue.valid ⟨1, [⟨0, 0, 10, 10⟩, default, default, default]⟩).map
        drawEvent ++ Blits.map bltEvent ∧
      (∀ R ∈ DrawQueue.valid ⟨1, [⟨0, 0, 10, 10⟩, default, default, default]⟩,
        ∀ px py : Int, R.HasPixel px py → ∃ B ∈ Blits, B.HasPixel px py) ∧
      res.Globals.Queue.mNumValidDrawReqs = 0 :=
  GuiFlushScreen_draws_and_blits 100 100 8 8 (some ⟨50, 50, false⟩)
    ⟨⟨1, [⟨0, 0, 10, 10⟩, default, default, default]⟩, 0, 100, 0, 0⟩ 50 60 [200]
    (by decide) (by decide) (by decide) (by decide) (by decide) (by decide)
    (fun i hi => by
      have h0 : i = 0 := Nat.lt_one_iff.1 hi
      subst h0
      decide)
    (fun P h => by
      cases h
      decide)
    ⟨200, List.mem_singleton.2 rfl, by decide⟩

/-! ### Frame pacing -/

/-- C22 as stated fails: with baseline `2^64 - 10`, target `100` and the non-decreasing
readings `2^64 - 5`, `2^64 - 4`, `2^64 - 3`, all at or after the baseline, the sum
`AsmReadTsc () + Delay` of `InternalCpuDelayTsc` wraps to `91`, the busy-wait ends at
once, and the new baseline `2^64 - 3` is only `7` cycles after the previous one. -/
theorem GuiFlushScreen_baseline_wraps :
    ¬ (∀ (g : FlushGlobals) (Readings : List Nat) (res : FlushResult Unit),
        g.mStartTsc < 18446744073709551616 → g.mDeltaTscTarget < 18446744073709551616 →
        Readings.Pairwise (fun a b => a ≤ b) →
        (∀ r ∈ Readings, g.mStartTsc ≤ r ∧ r < 18446744073709551616) →
        GuiFlushScreen (fun s _ _ _ _ _ _ => s) (fun s _ _ => s) (fun s _ _ _ => s)
          (fun s _ _ _ _ _ _ _ => s) 8 8 100 100 none () g Readings = some res →
        g.mStartTsc + g.mDeltaTscTarget ≤ res.Globals.mStartTsc) := by
  intro h
  have h1 := h ⟨emptyQueue, 18446744073709551606, 100, 0, 0⟩
    [18446744073709551611, 18446744073709551612, 18446744073709551613]
    ⟨(), ⟨emptyQueue, 18446744073709551613, 100, 0, 0⟩, [], false⟩
    (by decide) (by decide) (by decide) (by decide) rfl
  exact absurd h1 (by decide)

/-- C22 (amended): when the counter readings are non-decreasing, start at or after the
stored baseline, and none of them comes within `mDeltaTscTarget` of the 64-bit
wrap-around (`reading + mDeltaTscTarget < 2^64`), every call of `GuiFlushScreen` that
returns records a new baseline `mStartTsc` that is at least the previous baseline plus
`mDeltaTscTarget`, the readings still to come are non-decreasing and at or after the new
baseline, and the target is unchanged, so the same holds for the next call; and the call
returns when, after the first two readings, a reading is at least the second one plus the
target. -/
theorem GuiFlushScreen_pacing {σ : Type} (Draw : σ → Int → Int → Nat → Nat → Nat → Nat → σ)
    (GuiBlendPixelSolid : σ → Nat → Nat → σ)
    (GuiBlendPixelOpaque : σ → Nat → Nat → Nat → σ)
    (GuiOutputBlt : σ → EFI_GRAPHICS_OUTPUT_BLT_OPERATION → Nat → Nat → Nat → Nat → Nat →
      Nat → σ)
    (CursorWidth CursorHeight ScreenWidth ScreenHeight : Nat)
    (mPointerContext : Option GUI_POINTER_STATE) (s : σ) (g : FlushGlobals)
    (Readings : List Nat)
    (hsorted : Readings.Pairwise (fun a b => a ≤ b))
    (hbase : ∀ r ∈ Readings, g.mStartTsc ≤ r)
    (hwrap : ∀ r ∈ Readings, r + g.mDeltaTscTarget < 18446744073709551616) :
    (∀ res, GuiFlushScreen Draw GuiBlendPixelSolid GuiBlendPixelOpaque GuiOutputBlt
        CursorWidth CursorHeight ScreenWidth ScreenHeight mPointerContext s g Readings =
          some res →
      g.mStartTsc + g.mDeltaTscTarget ≤ res.Globals.mStartTsc ∧
      res.Globals.mDeltaTscTarget = g.mDeltaTscTarget ∧
      res.Readings.Pairwise (fun a b => a ≤ b) ∧
      (∀ r ∈ res.Readings, res.Globals.mStartTsc ≤ r) ∧
      (∀ r ∈ res.Readings, r + res.Globals.mDeltaTscTarget < 18446744073709551616)) ∧
    (∀ E T0 Rest, Readings = E :: T0 :: Rest → (∃ r ∈ Rest, T0 + g.mDeltaTscTarget ≤ r) →
      ∃ res, GuiFlushScreen Draw GuiBlendPixelSolid GuiBlendPixelOpaque GuiOutputBlt
        CursorWidth CursorHeight ScreenWidth ScreenHeight mPointerContext s g Readings =
          some res) := by
  constructor
  · intro res hres
    unfold GuiFlushScreen at hres
    cases ht : GuiFlushScreenTiming g.mStartTsc g.mDeltaTscTarget Readings with
    | none => rw [ht] at hres; exact Option.noConfusion hres
    | some p =>
      obtain ⟨EndTsc, Rest1⟩ := p
      rw [ht] at hres
      simp only [Option.some.injEq] at hres
      have htgt : res.Globals.mDeltaTscTarget = g.mDeltaTscTarget := by
        rw [← hres]
        cases mPointerContext <;> rfl
      have hst : res.Globals.mStartTsc = EndTsc := by rw [← hres]
      have hrd : res.Readings = Rest1 := by rw [← hres]
      rw [hst, hrd, htgt]
      have key : g.mStartTsc + g.mDeltaTscTarget ≤ EndTsc ∧
          ∃ Skipped, Readings = Skipped ++ EndTsc :: Rest1 := by
        unfold GuiFlushScreenTiming at ht
        cases Readings with
        | nil => simp only [AsmReadTsc] at ht; exact Option.noConfusion ht
        | cons E L =>
          simp only [AsmReadTsc] at ht
          have hE1 := hbase E (List.mem_cons_self _ _)
          have hE2 := hwrap E (List.mem_cons_self _ _)
          have hd : sub64 E g.mStartTsc = E - g.mStartTsc := by
            unfold sub64
            omega
          rw [hd] at ht
          by_cases hlt : E - g.mStartTsc < g.mDeltaTscTarget
          · rw [if_pos hlt] at ht
            unfold InternalCpuDelayTsc at ht
            cases L with
            | nil => simp only [AsmReadTsc] at ht; exact Option.noConfusion ht
            | cons T0 Rest =>
              simp only [AsmReadTsc] at ht
              have hT1 := hwrap T0 (List.mem_cons_of_mem _ (List.mem_cons_self _ _))
              have hET : E ≤ T0 := (List.pairwise_cons.1 hsorted).1 T0 (List.mem_cons_self _ _)
              obtain ⟨h1, S, h2⟩ := InternalCpuDelayTscWait_some _ _ _ _ ht
              refine ⟨?_, E :: T0 :: S, by rw [h2]; rfl⟩
              unfold add64 sub64 at h1
              omega
          · rw [if_neg hlt] at ht
            simp only [Option.some.injEq, Prod.mk.injEq] at ht
            refine ⟨by omega, [], by rw [← ht.1, ← ht.2]; rfl⟩
      obtain ⟨hkey, S, hS⟩ := key
      rw [hS] at hsorted hbase hwrap
      have hs2 := (List.pairwise_append.1 hsorted).2.1
      refine ⟨hkey, rfl, (List.pairwise_cons.1 hs2).2, (List.pairwise_cons.1 hs2).1, ?_⟩
      intro r hr
      exact hwrap r (List.mem_append_right _ (List.mem_cons_of_mem _ hr))
  · intro E T0 Rest hR hreach
    obtain ⟨⟨EndTsc, Rest1⟩, ht⟩ :=
      GuiFlushScreenTiming_returns g.mStartTsc g.mDeltaTscTarget E T0 Rest hreach
    unfold GuiFlushScreen
    rw [hR, ht]
    exact ⟨_, rfl⟩

theorem GuiFlushScreen_pacing_witness :
    ∃ res : FlushResult Unit,
      GuiFlushScreen (fun s _ _ _ _ _ _ => s) (fun s _ _ => s) (fun s _ _ _ => s)
        (fun s _ _ _ _ _ _ _ => s) 8 8 100 100 none ()
        ⟨emptyQueue, 1000, 100, 0, 0⟩ [1040, 1050, 1060, 1150] = some res ∧
      1000 + 100 ≤ res.Globals.mStartTsc :=
  have T := GuiFlushScreen_pacing (fun (s : Unit) _ _ _ _ _ _ => s) (fun s _ _ => s)
    (fun s _ _ _ => s) (fun s _ _ _ _ _ _ _ => s) 8 8 100 100 none ()
    ⟨emptyQueue, 1000, 100, 0, 0⟩ [1040, 1050, 1060, 1150]
    (by decide) (by decide) (by decide)
  match T.2 1040 1050 [1060, 1150] rfl ⟨1150, by decide, by decide⟩ with
  | ⟨res, h⟩ => ⟨res, h, (T.1 res h).1⟩

/-! ### The animation pass -/

/-- The loop of the animation pass with a recording callback: the calls it adds to the
log are one per scanned animation, in list order, all with the frame counter of the pass;
the list it leaves is `Kept` followed by the animations whose call returned `FALSE`; and
recording does not change the state or the list. -/
theorem GuiDrawLoopAnimateLoop_log {σ : Type} (Animate : GUI_ANIMATION → σ → Nat → σ × Bool)
    (FrameTime : Nat) (L Kept : List GUI_ANIMATION) (s : σ) (log : List AnimateCall) :
    ∃ new : List AnimateCall,
      (GuiDrawLoopAnimateLoop (recordAnimate Animate) FrameTime L Kept (s, log)).1.2 =
        log ++ new ∧
      new.map (fun c => c.Animation) = L ∧
      (∀ c ∈ new, c.FrameTime = FrameTime) ∧
      (GuiDrawLoopAnimateLoop (recordAnimate Animate) FrameTime L Kept (s, log)).2 =
        Kept ++ (new.filter (fun c => !c.Result)).map (fun c => c.Animation) ∧
      GuiDrawLoopAnimateLoop Animate FrameTime L Kept s =
        ((GuiDrawLoopAnimateLoop (recordAnimate Animate) FrameTime L Kept (s, log)).1.1,
         (GuiDrawLoopAnimateLoop (recordAnimate Animate) FrameTime L Kept (s, log)).2) := by
  induction L generalizing Kept s log with
  | nil => exact ⟨[], by simp [GuiDrawLoopAnimateLoop]⟩
  | cons A L ih =>
    rw [GuiDrawLoopAnimateLoop, GuiDrawLoopAnimateLoop]
    simp only [recordAnimate]
    cases hr : (Animate A s FrameTime).2 with
    | true =>
      simp only [if_true]
      obtain ⟨new, h1, h2, h3, h4, h5⟩ := ih Kept (Animate A s FrameTime).1
        (log ++ [{ Animation := A, FrameTime := FrameTime, Result := true }])
      refine ⟨{ Animation := A, FrameTime := FrameTime, Result := true } :: new, ?_, ?_, ?_,
        ?_, h5⟩
      · rw [h1, List.append_assoc]; rfl
      · simp only [List.map_cons, h2]
      · intro c hc
        rcases List.mem_cons.1 hc with h | h
        · rw [h]
        · exact h3 c h
      · rw [h4]
        simp
    | false =>
      simp only [Bool.false_eq_true, if_false]
      obtain ⟨new, h1, h2, h3, h4, h5⟩ := ih (Kept ++ [A]) (Animate A s FrameTime).1
        (log ++ [{ Animation := A, FrameTime := FrameTime, Result := false }])
      refine ⟨{ Animation := A, FrameTime := FrameTime, Result := false } :: new, ?_, ?_, ?_,
        ?_, h5⟩
      · rw [h1, List.append_assoc]; rfl
      · simp only [List.map_cons, h2]
      · intro c hc
        rcases List.mem_cons.1 hc with h | h
        · rw [h]
        · exact h3 c h
      · rw [h4]
        simp

/-- C23: in the animation pass of one `GuiDrawLoop` iteration (the callbacks having no
access to the list), the log of the `Animate` calls holds one call per animation of the
list at the start of the pass, in list order, each with the current frame counter; the
list after the pass consists of the animations whose call returned `FALSE`, in their
original order (it is a sublist of the original list); the frame counter is incremented
once; and recording the calls does not change the outcome of the pass. -/
theorem GuiDrawLoopAnimate_pass {σ : Type} (Animate : GUI_ANIMATION → σ → Nat → σ × Bool)
    (Animations : List GUI_ANIMATION) (FrameTime : Nat) (s : σ) :
    ((GuiDrawLoopAnimate (recordAnimate Animate) Animations FrameTime (s, [])).1.2.map
      (fun c => c.Animation) = Animations) ∧
    (∀ c ∈ (GuiDrawLoopAnimate (recordAnimate Animate) Animations FrameTime (s, [])).1.2,
      c.FrameTime = FrameTime) ∧
    ((GuiDrawLoopAnimate (recordAnimate Animate) Animations FrameTime (s, [])).2.1 =
      ((GuiDrawLoopAnimate (recordAnimate Animate) Animations FrameTime (s, [])).1.2.filter
        (fun c => !c.Result)).map (fun c => c.Animation)) ∧
    ((GuiDrawLoopAnimate (recordAnimate Animate) Animations FrameTime (s, [])).2.1.Sublist
      Animations) ∧
    ((GuiDrawLoopAnimate (recordAnimate Animate) Animations FrameTime (s, [])).2.2 =
      add64 FrameTime 1) ∧
    GuiDrawLoopAnimate Animate Animations FrameTime s =
      ((GuiDrawLoopAnimate (recordAnimate Animate) Animations FrameTime (s, [])).1.1,
       (GuiDrawLoopAnimate (recordAnimate Animate) Animations FrameTime (s, [])).2.1,
       (GuiDrawLoopAnimate (recordAnimate Animate) Animations FrameTime (s, [])).2.2) := by
  obtain ⟨new, h1, h2, h3, h4, h5⟩ :=
    GuiDrawLoopAnimateLoop_log Animate FrameTime Animations [] s []
  unfold GuiDrawLoopAnimate
  simp only [List.nil_append] at h1 h4
  dsimp only
  rw [h5, h1, h4]
  refine ⟨h2, h3, rfl, ?_, rfl, rfl⟩
  have hs : (new.filter (fun c => !c.Result)).Sublist new := List.filter_sublist _
  have hm := hs.map (fun c => c.Animation)
  rw [h2] at hm
  exact hm

/-! ### Library construction -/

/-- The function `GuiLibDestruct` leaves the three I/O globals `NULL`, calls the
destructor of each device that was held, and touches nothing else. -/
theorem GuiLibDestruct_spec (g : LibGlobals) :
    (GuiLibDestruct g).mOutputContext = none ∧ (GuiLibDestruct g).mPointerContext = none ∧
    (GuiLibDestruct g).mKeyContext = none ∧
    (GuiLibDestruct g).Destructed = g.Destructed ++ g.devices := by
  obtain ⟨o, p, k, b, d, t, l⟩ := g
  cases o <;> cases p <;> cases k <;> simp [GuiLibDestruct, LibGlobals.devices]

/-- The check by halving covers every fraction of its range. -/
theorem easedSymRange_sound (k lo n : Nat) (h : easedSymRange k lo = true) (h1 : lo ≤ n)
    (h2 : n < lo + 2 ^ k) : easedSymAt n = true := by
  induction k generalizing lo with
  | zero =>
    have : n = lo := by simp only [pow_zero] at h2; omega
    rw [this]
    exact h
  | succ k ih =>
    rw [easedSymRange, Bool.and_eq_true] at h
    by_cases hn : n < lo + 2 ^ k
    · exact ih lo h.1 h1 hn
    · exact ih (lo + 2 ^ k) h.2 (by omega) (by rw [pow_succ] at h2; omega)

set_option maxRecDepth 1000000 in
/-- The check holds on all `4096` fractions. -/
theorem easedSymRange_all : easedSymRange 12 0 = true := by decide

/-- Mirrored eased fractions add up to `4096` less a deficit of at most `229`. -/
theorem easedFraction_mirror (a b : Nat) (hb : b < 4096)
    (hab : a + b = 4096 ∨ a + b = 4095) :
    easedFraction a + easedFraction b ≤ 4096 ∧ 3867 ≤ easedFraction a + easedFraction b := by
  have h := easedSymRange_sound 12 0 b easedSymRange_all (Nat.zero_le _) (by norm_num; omega)
  unfold easedSymAt at h
  simp only [Bool.and_eq_true, decide_eq_true_eq] at h
  obtain ⟨⟨⟨h1, h2⟩, h3⟩, h4⟩ := h
  rcases hab with e | e
  · have : a = 4096 - b := by omega
    rw [this]
    omega
  · have : a = 4095 - b := by omega
    rw [this]
    omega

/-- The fixed-point fractions of mirrored elapsed times add up to `4096` or `4095`. -/
theorem mirrored_quot (d D : Nat) (h0 : 0 < d) (h1 : d < D) :
    4096 * (D - d) / D < 4096 ∧
    (4096 * d / D + 4096 * (D - d) / D = 4096 ∨
     4096 * d / D + 4096 * (D - d) / D = 4095) := by
  have hD : 0 < D := by omega
  have a1 := Nat.div_mul_le_self (4096 * d) D
  have a2 := Nat.lt_div_mul_add (a := 4096 * d) hD
  have b1 := Nat.div_mul_le_self (4096 * (D - d)) D
  have b2 := Nat.lt_div_mul_add (a := 4096 * (D - d)) hD
  have e : 4096 * d + 4096 * (D - d) = 4096 * D := by omega
  have hlt : 4096 * (D - d) / D < 4096 := by
    rw [Nat.div_lt_iff_lt_mul hD]
    omega
  refine ⟨hlt, ?_⟩
  have hle : (4096 * d / D + 4096 * (D - d) / D) * D ≤ 4096 * D := by
    rw [Nat.add_mul]; omega
  have hge : 4096 * D < (4096 * d / D + 4096 * (D - d) / D + 2) * D := by
    rw [Nat.add_mul, Nat.add_mul]; omega
  have u := Nat.le_of_mul_le_mul_right hle hD
  have l := Nat.lt_of_mul_lt_mul_right hge
  omega

/-- The fractions that the smooth curve blends with at mirrored times add up to `4096`
less a deficit of at most `229`. -/
theorem smoothFraction_mirror (I : GUI_INTERPOLATION) (d : Nat) (hd : 0 < I.Duration)
    (hle : d ≤ I.Duration) :
    ∃ k, k ≤ 229 ∧
      smoothFraction I (I.StartTime + d) + smoothFraction I (I.StartTime + (I.Duration - d)) + k =
        4096 := by
  unfold smoothFraction
  by_cases h0 : d = 0
  · subst h0
    refine ⟨0, by omega, ?_⟩
    rw [if_pos (by omega), if_neg (by omega), if_pos (by omega)]
  · by_cases hD : d = I.Duration
    · refine ⟨0, by omega, ?_⟩
      rw [if_neg (by omega), if_pos (by omega), if_pos (by omega)]
    · rw [if_neg (by omega), if_neg (by omega), if_neg (by omega), if_neg (by omega)]
      have e1 : I.StartTime + d - I.StartTime = d := by omega
      have e2 : I.StartTime + (I.Duration - d) - I.StartTime = I.Duration - d := by omega
      rw [e1, e2]
      obtain ⟨hlt, hsum⟩ := mirrored_quot d I.Duration (by omega) (by omega)
      obtain ⟨u, l⟩ := easedFraction_mirror _ _ hlt hsum
      exact ⟨4096 - (easedFraction (4096 * d / I.Duration) +
        easedFraction (4096 * (I.Duration - d) / I.Duration)), by omega, by omega⟩

/-- C24 as stated fails: for the valid smooth descriptor `0 -> 1000000` of duration `2`
the value at the exact midpoint is `472656`, so that `Evaluate (StartTime + d) -
StartValue = 472656` and `EndValue - Evaluate (StartTime + Duration - d) = 527344` differ
by more than 5 % of the range, and the midpoint is `27344` below the mean `500000`; the
two do not agree even up to 1 % of the range plus 2 units. -/
theorem GuiGetInterpolatedValue_smooth_not_symmetric :
    ¬ (∀ (I : GUI_INTERPOLATION) (d : Nat), I.Valid →
        I.InterpolType = GUI_INTERPOL_TYPE.GuiInterpolTypeSmooth →
        I.StartValue < 1048576 → I.EndValue < 1048576 → d ≤ I.Duration →
        100 * |((GuiGetInterpolatedValue I (I.StartTime + d) : Int) - I.StartValue) -
            ((I.EndValue : Int) - GuiGetInterpolatedValue I (I.StartTime + (I.Duration - d)))| ≤
          |(I.EndValue : Int) - I.StartValue| + 200) := by
  intro h
  have h1 := h { InterpolType := GUI_INTERPOL_TYPE.GuiInterpolTypeSmooth, StartTime := 0,
                 Duration := 2, StartValue := 0, EndValue := 1000000 } 1
    (by decide) rfl (by decide) (by decide) (by decide)
  have e : GuiGetInterpolatedValue
      { InterpolType := GUI_INTERPOL_TYPE.GuiInterpolTypeSmooth, StartTime := 0,
        Duration := 2, StartValue := 0, EndValue := 1000000 } 1 = 472656 := by decide
  simp only [Nat.zero_add, Nat.add_sub_cancel, e] at h1
  norm_num at h1

/-- C24 (amended): for a valid smooth descriptor with values below `2^20` and a duration
below `2^32` (so that the elapsed time is not truncated), and for every elapsed time
`d <= Duration`, the rise `Evaluate (StartTime + d) - StartValue` and the mirrored
remainder `EndValue - Evaluate (StartTime + Duration - d)` differ by at most `229/4096`
of the range `|EndValue - StartValue|` plus 2 units; and at the exact midpoint of an even
duration the value is `(1936 * EndValue + 2160 * StartValue) / 4096`, the blend by the
eased fraction `1936/4096` rather than the arithmetic mean. -/
theorem GuiGetInterpolatedValue_smooth_symmetric (I : GUI_INTERPOLATION) (d : Nat)
    (hv : I.Valid) (hs : I.InterpolType = GUI_INTERPOL_TYPE.GuiInterpolTypeSmooth)
    (hS : I.StartValue < 1048576) (hE : I.EndValue < 1048576)
    (hD : I.Duration < 4294967296) (hle : d ≤ I.Duration) :
    4096 * |((GuiGetInterpolatedValue I (I.StartTime + d) : Int) - I.StartValue) -
        ((I.EndValue : Int) - GuiGetInterpolatedValue I (I.StartTime + (I.Duration - d)))| ≤
      229 * |(I.EndValue : Int) - I.StartValue| + 8192 ∧
    (I.Duration % 2 = 0 →
      GuiGetInterpolatedValue I (I.StartTime + I.Duration / 2) =
        (I.EndValue * 1936 + I.StartValue * 2160) / 4096) := by
  obtain ⟨_, hd, _, _, _⟩ := hv
  constructor
  · rw [GuiGetInterpolatedValue_smooth_eq I _ hd hs hS hE (by omega),
      GuiGetInterpolatedValue_smooth_eq I _ hd hs hS hE (by omega)]
    obtain ⟨k, hk, hsum⟩ := smoothFraction_mirror I d hd hle
    generalize smoothFraction I (I.StartTime + d) = A1 at hsum ⊢
    generalize smoothFraction I (I.StartTime + (I.Duration - d)) = A2 at hsum ⊢
    generalize I.StartValue = S at hS ⊢
    generalize I.EndValue = E at hE ⊢
    have hA2 : A2 = 4096 - k - A1 := by omega
    have hN : ((E * A1 + S * (4096 - A1) : Nat) : Int) + ((E * A2 + S * (4096 - A2) : Nat) : Int) =
        4096 * ((S : Int) + E) + (k : Int) * ((S : Int) - E) := by
      have c1 : ((4096 - A1 : Nat) : Int) = 4096 - (A1 : Int) := by omega
      have c2 : ((4096 - A2 : Nat) : Int) = (k : Int) + A1 := by omega
      have c3 : (A2 : Int) = 4096 - k - A1 := by omega
      push_cast
      rw [c1, c2, c3]
      ring
    have hkb : |(k : Int) * ((S : Int) - E)| ≤ 229 * |(E : Int) - S| := by
      rw [abs_mul, abs_sub_comm (S : Int) E, abs_of_nonneg (by omega : (0 : Int) ≤ k)]
      exact mul_le_mul_of_nonneg_right (by omega) (abs_nonneg _)
    generalize (k : Int) * ((S : Int) - E) = P at hN hkb
    generalize E * A1 + S * (4096 - A1) = N1 at hN ⊢
    generalize E * A2 + S * (4096 - A2) = N2 at hN ⊢
    have q1 : ((N1 / 4096 : Nat) : Int) = (N1 : Int) / 4096 := by omega
    have q2 : ((N2 / 4096 : Nat) : Int) = (N2 : Int) / 4096 := by omega
    rw [q1, q2]
    rw [abs_le] at hkb
    generalize |(E : Int) - S| = R at hkb ⊢
    rcases abs_cases ((N1 : Int) / 4096 - S - ((E : Int) - (N2 : Int) / 4096)) with h | h <;>
      rw [h.1] <;> omega
  · intro hev
    rw [GuiGetInterpolatedValue_smooth_eq I _ hd hs hS hE (by omega)]
    unfold smoothFraction
    rw [if_neg (by omega), if_neg (by omega)]
    have e1 : I.StartTime + I.Duration / 2 - I.StartTime = I.Duration / 2 := by omega
    have e2 : 4096 * (I.Duration / 2) = 2048 * I.Duration := by omega
    rw [e1, e2, Nat.mul_div_cancel _ hd]
    have e3 : easedFraction 2048 = 1936 := by decide
    rw [e3]

theorem GuiGetInterpolatedValue_smooth_symmetric_witness :
    GuiGetInterpolatedValue
      { InterpolType := GUI_INTERPOL_TYPE.GuiInterpolTypeSmooth, StartTime := 7,
        Duration := 10, StartValue := 10, EndValue := 100 } (7 + 10 / 2) =
      (100 * 1936 + 10 * 2160) / 4096 :=
  (GuiGetInterpolatedValue_smooth_symmetric
    { InterpolType := GUI_INTERPOL_TYPE.GuiInterpolTypeSmooth, StartTime := 7,
      Duration := 10, StartValue := 10, EndValue := 100 } 3
    (by decide) rfl (by decide) (by decide) (by decide) (by decide)).2 (by decide)

/-! ### The invariant of the damage queue -/

/-- The function `GuiRequestDraw` keeps the invariant of the queue for an in-screen
request, whichever path it takes. -/
theorem GuiRequestDraw_keeps_QueueInScreen (ScreenWidth ScreenHeight : Nat) (q : DrawQueue)
    (PosX PosY Width Height : Nat)
    (hW : ScreenWidth < 4294967296) (hH : ScreenHeight < 4294967296)
    (hq : QueueInScreen ScreenWidth ScreenHeight q)
    (hR : InScreen ScreenWidth ScreenHeight
      { X := PosX, Y := PosY, Width := Width, Height := Height }) :
    QueueInScreen ScreenWidth ScreenHeight (GuiRequestDraw q PosX PosY Width Height).1 := by
  obtain ⟨hlen, hn, hent⟩ := hq
  unfold GuiRequestDraw
  cases hl : GuiRequestDrawLoop q PosX PosY Width Height q.mNumValidDrawReqs 0 with
  | some q1 =>
    simp only
    obtain ⟨i, _, hi, hq1⟩ := GuiRequestDrawLoop_some_inv _ _ _ _ _ _ _ _ hl
    have hEi := hent i (by omega)
    have hcomb : GuiRequestDrawComb (q.entry i) PosX PosY Width Height =
        Bounding (q.entry i) { X := PosX, Y := PosY, Width := Width, Height := Height } := by
      unfold InScreen at hEi hR
      simp only at hR
      exact GuiRequestDrawComb_eq_Bounding _ _ _ _ _ hEi.1 hEi.2.1 hR.1 hR.2.1
        (by omega) (by omega) (by omega) (by omega)
    rw [hcomb] at hq1
    rw [hq1]
    refine ⟨by rw [List.length_set]; exact hlen, hn, ?_⟩
    intro k hk
    by_cases hki : k = i
    · rw [hki, entry_set_self _ _ _ _ (by omega)]
      exact InScreen_Bounding _ _ _ _ hEi hR
    · rw [entry_set_ne _ q.mNumValidDrawReqs _ _ _ _ (fun h => hki h.symm)]
      exact hent k hk
  | none =>
    by_cases h4 : q.mNumValidDrawReqs ≥ 4
    · rw [if_pos h4]
      exact ⟨hlen, hn, hent⟩
    · rw [if_neg h4]
      have hmod : (q.mNumValidDrawReqs + 1) % 256 = q.mNumValidDrawReqs + 1 :=
        Nat.mod_eq_of_lt (by omega)
      refine ⟨by simp only [List.length_set]; exact hlen, ?_, ?_⟩
      · show (q.mNumValidDrawReqs + 1) % 256 ≤ 4
        omega
      · intro k hk
        have hk2 : k < q.mNumValidDrawReqs + 1 := by
          have : k < (q.mNumValidDrawReqs + 1) % 256 := hk
          omega
        by_cases hkn : k = q.mNumValidDrawReqs
        · rw [hkn, entry_set_self _ _ _ _ (by omega)]
          exact hR
        · rw [entry_set_ne _ q.mNumValidDrawReqs _ _ _ _ (fun h => hkn h.symm)]
          exact hent k (by omega)

/-- The function `GuiRequestDrawCrop` either leaves the queue as it is or calls
`GuiRequestDraw` with an in-screen request, for any `INT64` position and `UINT32` size. -/
theorem GuiRequestDrawCrop_request (ScreenWidth ScreenHeight : Nat) (q : DrawQueue)
    (X Y : Int) (Width Height : Nat)
    (hW : ScreenWidth < 4294967296) (hH : ScreenHeight < 4294967296)
    (hX0 : -9223372036854775808 ≤ X) (hX1 : X < 9223372036854775808)
    (hY0 : -9223372036854775808 ≤ Y) (hY1 : Y < 9223372036854775808)
    (hw : Width < 4294967296) (hh : Height < 4294967296) :
    GuiRequestDrawCrop ScreenWidth ScreenHeight q X Y Width Height = (q, false) ∨
    ∃ R : GUI_DRAW_REQUEST, InScreen ScreenWidth ScreenHeight R ∧
      GuiRequestDrawCrop ScreenWidth ScreenHeight q X Y Width Height =
        GuiRequestDraw q R.X R.Y R.Width R.Height := by
  unfold GuiRequestDrawCrop
  dsimp only
  generalize hPX : (if 0 ≤ X then toUINT32 X else 0 : Nat) = PosX
  generalize hPY : (if 0 ≤ Y then toUINT32 Y else 0 : Nat) = PosY
  generalize hEW : (if 0 ≤ X then (Width : Int) else toINT64 (Width + X)) = EffWidth0
  generalize hEH : (if 0 ≤ Y then (Height : Int) else toINT64 (Height + Y)) = EffHeight0
  have hPXlt : PosX < 4294967296 := by
    rw [← hPX]
    unfold toUINT32
    split_ifs <;> omega
  have hPYlt : PosY < 4294967296 := by
    rw [← hPY]
    unfold toUINT32
    split_ifs <;> omega
  have hEWle : EffWidth0 ≤ Width := by
    rw [← hEW]
    split_ifs with h
    · exact le_refl _
    · rw [toINT64_of_range _ (by omega) (by omega)]; omega
  have hEHle : EffHeight0 ≤ Height := by
    rw [← hEH]
    split_ifs with h
    · exact le_refl _
    · rw [toINT64_of_range _ (by omega) (by omega)]; omega
  rw [toINT64_of_range ((ScreenWidth : Int) - PosX) (by omega) (by omega),
    toINT64_of_range ((ScreenHeight : Int) - PosY) (by omega) (by omega)]
  by_cases hc : min EffWidth0 ((ScreenWidth : Int) - PosX) ≤ 0 ∨
      min EffHeight0 ((ScreenHeight : Int) - PosY) ≤ 0
  · rw [if_pos hc]
    exact Or.inl rfl
  · rw [if_neg hc]
    refine Or.inr ⟨⟨PosX, PosY, toUINT32 (min EffWidth0 ((ScreenWidth : Int) - PosX)),
      toUINT32 (min EffHeight0 ((ScreenHeight : Int) - PosY))⟩, ?_, rfl⟩
    have e1 := toUINT32_of_range (min EffWidth0 ((ScreenWidth : Int) - PosX)) (by omega)
      (by omega)
    have e2 := toUINT32_of_range (min EffHeight0 ((ScreenHeight : Int) - PosY)) (by omega)
      (by omega)
    unfold InScreen
    simp only
    omega

/-- C31: on a screen whose width and height are `UINT32`, if the queue has at most 4
valid entries in its array of 4 and every valid entry has positive width and height and
lies inside the screen, then the same holds after `GuiRequestDrawCrop` with any `INT64`
position and `UINT32` size, after `GuiRequestDraw` of any in-screen rectangle (merged or
appended), and after the cursor request of `GuiOverlayPointer` for a pointer inside the
screen and a cursor image of positive size; and under the invariant every valid entry
satisfies the in-screen assertions of `GuiDrawToBuffer` and `GuiDrawToBufferFill`. -/
theorem QueueInScreen_preserved (ScreenWidth ScreenHeight : Nat) (q : DrawQueue)
    (hW : ScreenWidth < 4294967296) (hH : ScreenHeight < 4294967296)
    (hq : QueueInScreen ScreenWidth ScreenHeight q) :
    (∀ (X Y : Int) (Width Height : Nat),
      -9223372036854775808 ≤ X → X < 9223372036854775808 →
      -9223372036854775808 ≤ Y → Y < 9223372036854775808 →
      Width < 4294967296 → Height < 4294967296 →
      QueueInScreen ScreenWidth ScreenHeight
        (GuiRequestDrawCrop ScreenWidth ScreenHeight q X Y Width Height).1) ∧
    (∀ PosX PosY Width Height : Nat,
      InScreen ScreenWidth ScreenHeight
        { X := PosX, Y := PosY, Width := Width, Height := Height } →
      QueueInScreen ScreenWidth ScreenHeight (GuiRequestDraw q PosX PosY Width Height).1) ∧
    (∀ (σ : Type) (GuiBlendPixelSolid : σ → Nat → Nat → σ)
      (GuiBlendPixelOpaque : σ → Nat → Nat → Nat → σ) (s : σ)
      (CursorWidth CursorHeight : Nat) (PointerState : GUI_POINTER_STATE) (g : FlushGlobals),
      0 < CursorWidth → 0 < CursorHeight →
      PointerState.X < ScreenWidth → PointerState.Y < ScreenHeight → g.Queue = q →
      QueueInScreen ScreenWidth ScreenHeight
        (GuiOverlayPointer GuiBlendPixelSolid GuiBlendPixelOpaque CursorWidth
          CursorHeight ScreenWidth ScreenHeight PointerState s g).2.1.Queue) ∧
    (∀ i, i < q.mNumValidDrawReqs → DrawAssertions ScreenWidth ScreenHeight (q.entry i)) := by
  refine ⟨?_, ?_, ?_, ?_⟩
  · intro X Y Width Height hX0 hX1 hY0 hY1 hw hh
    rcases GuiRequestDrawCrop_request ScreenWidth ScreenHeight q X Y Width Height hW hH
      hX0 hX1 hY0 hY1 hw hh with h | ⟨R, hR, h⟩
    · rw [h]
      exact hq
    · rw [h]
      exact GuiRequestDraw_keeps_QueueInScreen _ _ _ _ _ _ _ hW hH hq hR
  · intro PosX PosY Width Height hR
    exact GuiRequestDraw_keeps_QueueInScreen _ _ _ _ _ _ _ hW hH hq hR
  · intro σ Solid Opaque s CursorWidth CursorHeight P g hcw hch hPx hPy hg
    unfold GuiOverlayPointer
    simp only
    rw [hg]
    apply GuiRequestDraw_keeps_QueueInScreen _ _ _ _ _ _ _ hW hH hq
    rw [sub32_of_le _ _ (by omega) hW, sub32_of_le _ _ (by omega) hH]
    unfold InScreen
    simp only
    omega
  · intro i hi
    have h := hq.2.2 i hi
    unfold InScreen at h
    unfold DrawAssertions
    omega

theorem QueueInScreen_preserved_witness :
    QueueInScreen 100 100 ⟨1, [⟨0, 0, 10, 10⟩, default, default, default]⟩ ∧
    QueueInScreen 100 100
      (GuiRequestDrawCrop 100 100 ⟨1, [⟨0, 0, 10, 10⟩, default, default, default]⟩
        (-5) 95 20 20).1 ∧
    (GuiRequestDrawCrop 100 100 ⟨1, [⟨0, 0, 10, 10⟩, default, default, default]⟩
        (-5) 95 20 20).1 =
      ⟨2, [⟨0, 0, 10, 10⟩, ⟨0, 95, 15, 5⟩, default, default]⟩ :=
  ⟨by decide,
   (QueueInScreen_preserved 100 100 ⟨1, [⟨0, 0, 10, 10⟩, default, default, default]⟩
      (by decide) (by decide) (by decide)).1 (-5) 95 20 20
      (by decide) (by decide) (by decide) (by decide) (by decide) (by decide),
   by decide⟩

/-! ### Idempotence of `GuiRequestDraw` -/

/-- The bounding rectangle of a rectangle with itself, and of a bounding rectangle with
one of its two rectangles. -/
theorem Bounding_self (R : GUI_DRAW_REQUEST) : Bounding R R = R := by
  obtain ⟨x, y, w, h⟩ := R
  simp only [Bounding, GUI_DRAW_REQUEST.mk.injEq]
  omega

theorem Bounding_absorb (E R : GUI_DRAW_REQUEST) : Bounding (Bounding E R) R = Bounding E R := by
  simp only [Bounding, GUI_DRAW_REQUEST.mk.injEq]
  omega

/-- Writing back the array element that was read changes nothing. -/
theorem set_entry_self (l : List GUI_DRAW_REQUEST) (i : Nat) (h : i < l.length) :
    l.set i (l.getD i default) = l := by
  apply List.ext_getElem (by rw [List.length_set])
  intro k h1 h2
  rw [List.getElem_set]
  split
  · rename_i hik
    subst hik
    rw [List.getD_eq_getElem _ _ h]
  · rfl

/-- A rectangle whose bounding rectangle with `R` is itself passes the merge criterion
against `R`. -/
theorem MergeCriterion_of_absorb (B R : GUI_DRAW_REQUEST) (h : Bounding B R = B) :
    MergeCriterion B R := by
  unfold MergeCriterion
  rw [h]
  exact Nat.le_add_right _ _

/-- A request that merges into slot `i` with a rectangle that absorbs it merges into
slot `i` again and leaves the queue as it is. -/
theorem GuiRequestDraw_again (ScreenWidth ScreenHeight : Nat) (q : DrawQueue)
    (R : GUI_DRAW_REQUEST) (i : Nat)
    (hs : ScreenWidth * ScreenHeight < 2147483648)
    (hlen : i < q.mDrawRequests.length) (hi : i < q.mNumValidDrawReqs)
    (hB : InScreen ScreenWidth ScreenHeight (q.entry i))
    (hR : InScreen ScreenWidth ScreenHeight R)
    (habs : Bounding (q.entry i) R = q.entry i)
    (hbefore : ∀ j, j < i → GuiRequestDrawMerges (q.entry j) R.X R.Y R.Width R.Height = false) :
    GuiRequestDraw q R.X R.Y R.Width R.Height = (q, false) := by
  have hm := GuiRequestDrawMerges_iff ScreenWidth ScreenHeight (q.entry i) R.X R.Y R.Width
    R.Height hs hB hR
  have hmi : MergesInto q R i :=
    ⟨hi, hm.1.2 (MergeCriterion_of_absorb _ _ habs), hbefore⟩
  rw [GuiRequestDraw_of_MergesInto _ _ _ hmi, hm.2]
  have e : Bounding (q.entry i) { X := R.X, Y := R.Y, Width := R.Width, Height := R.Height } =
      q.entry i := habs
  rw [e]
  obtain ⟨n, l⟩ := q
  simp only [Prod.mk.injEq, DrawQueue.mk.injEq, true_and, and_true]
  unfold DrawQueue.entry
  exact set_entry_self l i hlen

/-- C33: on a queue whose array has 4 elements, of which the `n <= 4` valid ones are
in-screen (positive size, screen area below `2^31`), and for an in-screen request `R`,
submitting `R` to `GuiRequestDraw` a second time leaves the queue (entries and count) as
it is after the first submission, with the same `ASSERT (FALSE)` flag. -/
theorem GuiRequestDraw_idempotent (ScreenWidth ScreenHeight : Nat) (q : DrawQueue)
    (R : GUI_DRAW_REQUEST)
    (hs : ScreenWidth * ScreenHeight < 2147483648)
    (hlen : q.mDrawRequests.length = 4) (hn : q.mNumValidDrawReqs ≤ 4)
    (hq : ∀ i, i < q.mNumValidDrawReqs → InScreen ScreenWidth ScreenHeight (q.entry i))
    (hR : InScreen ScreenWidth ScreenHeight R) :
    GuiRequestDraw (GuiRequestDraw q R.X R.Y R.Width R.Height).1 R.X R.Y R.Width R.Height =
      GuiRequestDraw q R.X R.Y R.Width R.Height := by
  cases hl : GuiRequestDrawLoop q R.X R.Y R.Width R.Height q.mNumValidDrawReqs 0 with
  | some q1 =>
    -- the first call merges into some slot
    obtain ⟨i, _, hi, hq1⟩ := GuiRequestDrawLoop_some_inv _ _ _ _ _ _ _ _ hl
    have h1 : GuiRequestDraw q R.X R.Y R.Width R.Height = (q1, false) := by
      unfold GuiRequestDraw
      rw [hl]
    rw [h1]
    simp only
    by_cases hex : ∃ j, j < i ∧ GuiRequestDrawMerges (q.entry j) R.X R.Y R.Width R.Height = true
    · -- an earlier slot passes the test: then the loop stopped there, not at `i`
      obtain ⟨j, hj, hjm⟩ := hex
      -- take the least such slot
      have hfind : ∃ k, k < i ∧ GuiRequestDrawMerges (q.entry k) R.X R.Y R.Width R.Height = true ∧
          ∀ m, m < k → GuiRequestDrawMerges (q.entry m) R.X R.Y R.Width R.Height = false := by
        classical
        have hP : ∃ k, k < i ∧
            GuiRequestDrawMerges (q.entry k) R.X R.Y R.Width R.Height = true := ⟨j, hj, hjm⟩
        refine ⟨Nat.find hP, (Nat.find_spec hP).1, (Nat.find_spec hP).2, ?_⟩
        intro m hm
        have := Nat.find_min hP hm
        have hmi : m < i := lt_trans hm (Nat.find_spec hP).1
        cases hv : GuiRequestDrawMerges (q.entry m) R.X R.Y R.Width R.Height with
        | false => rfl
        | true => exact absurd ⟨hmi, hv⟩ this
      obtain ⟨k, hk, hkm, hkb⟩ := hfind
      have hq1' := GuiRequestDrawLoop_some q R.X R.Y R.Width R.Height q.mNumValidDrawReqs 0 k
        (Nat.zero_le _) (by omega) hkm (fun m _ hm => hkb m hm)
      rw [hl] at hq1'
      simp only [Option.some.injEq] at hq1'
      have hk4 : k < q.mDrawRequests.length := by omega
      have hEk := hq k (by omega)
      have hmk := GuiRequestDrawMerges_iff ScreenWidth ScreenHeight (q.entry k) R.X R.Y R.Width
        R.Height hs hEk hR
      have hent : q1.entry k = Bounding (q.entry k) R := by
        rw [hq1', entry_set_self _ _ _ _ hk4, hmk.2]
      apply GuiRequestDraw_again ScreenWidth ScreenHeight q1 R k hs
      · rw [hq1', List.length_set]; exact hk4
      · rw [hq1']; exact (by omega : k < q.mNumValidDrawReqs)
      · rw [hent]; exact InScreen_Bounding _ _ _ _ hEk hR
      · exact hR
      · rw [hent]; exact Bounding_absorb _ _
      · intro m hm
        rw [hq1', entry_set_ne _ q.mNumValidDrawReqs _ _ _ _ (by omega : k ≠ m)]
        exact hkb m hm
    · have hnone : ∀ j, j < i →
          GuiRequestDrawMerges (q.entry j) R.X R.Y R.Width R.Height = false := by
        intro j hj
        cases hv : GuiRequestDrawMerges (q.entry j) R.X R.Y R.Width R.Height with
        | false => rfl
        | true => exact absurd ⟨j, hj, hv⟩ hex
      have hi4 : i < q.mDrawRequests.length := by omega
      have hEi := hq i (by omega)
      have hmi := GuiRequestDrawMerges_iff ScreenWidth ScreenHeight (q.entry i) R.X R.Y R.Width
        R.Height hs hEi hR
      have hent : q1.entry i = Bounding (q.entry i) R := by
        rw [hq1, entry_set_self _ _ _ _ hi4, hmi.2]
      apply GuiRequestDraw_again ScreenWidth ScreenHeight q1 R i hs
      · rw [hq1, List.length_set]; exact hi4
      · rw [hq1]; exact (by omega : i < q.mNumValidDrawReqs)
      · rw [hent]; exact InScreen_Bounding _ _ _ _ hEi hR
      · exact hR
      · rw [hent]; exact Bounding_absorb _ _
      · intro m hm
        rw [hq1, entry_set_ne _ q.mNumValidDrawReqs _ _ _ _ (by omega : i ≠ m)]
        exact hnone m hm
  | none =>
    have hall := (GuiRequestDrawLoop_eq_none_iff q R.X R.Y R.Width R.Height
      q.mNumValidDrawReqs 0).1 hl
    by_cases h4 : q.mNumValidDrawReqs ≥ 4
    · have h1 : GuiRequestDraw q R.X R.Y R.Width R.Height = (q, true) := by
        unfold GuiRequestDraw
        rw [hl]
        simp only [if_pos h4]
      rw [h1]
      exact h1
    · have hmod : (q.mNumValidDrawReqs + 1) % 256 = q.mNumValidDrawReqs + 1 :=
        Nat.mod_eq_of_lt (by omega)
      have h1 : GuiRequestDraw q R.X R.Y R.Width R.Height =
          ({ mNumValidDrawReqs := q.mNumValidDrawReqs + 1,
             mDrawRequests := q.mDrawRequests.set q.mNumValidDrawReqs R }, false) := by
        unfold GuiRequestDraw
        rw [hl]
        simp only [if_neg h4, hmod]
      rw [h1]
      simp only
      have hent : DrawQueue.entry
          ⟨q.mNumValidDrawReqs + 1, q.mDrawRequests.set q.mNumValidDrawReqs R⟩
          q.mNumValidDrawReqs = R :=
        entry_set_self _ _ _ _ (by omega)
      apply GuiRequestDraw_again ScreenWidth ScreenHeight _ R q.mNumValidDrawReqs hs
      · simp only [List.length_set]; omega
      · exact Nat.lt_succ_self _
      · rw [hent]; exact hR
      · exact hR
      · rw [hent]; exact Bounding_self R
      · intro m hm
        rw [entry_set_ne _ q.mNumValidDrawReqs _ _ _ _ (by omega : q.mNumValidDrawReqs ≠ m)]
        exact hall m (Nat.zero_le _) (by omega)

theorem GuiRequestDraw_idempotent_witness :
    GuiRequestDraw (GuiRequestDraw ⟨1, [⟨0, 0, 10, 10⟩, default, default, default]⟩
        30 30 5 5).1 30 30 5 5 =
      GuiRequestDraw ⟨1, [⟨0, 0, 10, 10⟩, default, default, default]⟩ 30 30 5 5 ∧
    (GuiRequestDraw ⟨1, [⟨0, 0, 10, 10⟩, default, default, default]⟩ 30 30 5 5).1 =
      ⟨2, [⟨0, 0, 10, 10⟩, ⟨30, 30, 5, 5⟩, default, default]⟩ :=
  ⟨GuiRequestDraw_idempotent 100 100 ⟨1, [⟨0, 0, 10, 10⟩, default, default, default]⟩
      ⟨30, 30, 5, 5⟩ (by decide) (by decide) (by decide)
      (fun i hi => by
        have h0 : i = 0 := Nat.lt_one_iff.1 hi
        subst h0
        decide)
      (by decide),
   by decide⟩

/-! ### The interpolated value stays between the two values -/

/-- A blend of two values by a fraction of at most `4096` lies between them. -/
theorem blend_between (S E A : Nat) (hA : A ≤ 4096) :
    min S E ≤ (E * A + S * (4096 - A)) / 4096 ∧
    (E * A + S * (4096 - A)) / 4096 ≤ max S E := by
  have hM1 : S ≤ max S E := le_max_left _ _
  have hM2 : E ≤ max S E := le_max_right _ _
  have hm1 : min S E ≤ S := min_le_left _ _
  have hm2 : min S E ≤ E := min_le_right _ _
  generalize max S E = M at hM1 hM2 ⊢
  generalize min S E = m at hm1 hm2 ⊢
  have u1 : E * A ≤ M * A := Nat.mul_le_mul_right _ hM2
  have u2 : S * (4096 - A) ≤ M * (4096 - A) := Nat.mul_le_mul_right _ hM1
  have l1 : m * A ≤ E * A := Nat.mul_le_mul_right _ hm2
  have l2 : m * (4096 - A) ≤ S * (4096 - A) := Nat.mul_le_mul_right _ hm1
  have eM : M * A + M * (4096 - A) = M * 4096 := by
    rw [← Nat.mul_add]
    congr 1
    omega
  have em : m * A + m * (4096 - A) = m * 4096 := by
    rw [← Nat.mul_add]
    congr 1
    omega
  constructor
  · rw [Nat.le_div_iff_mul_le (by norm_num)]
    omega
  · apply Nat.div_le_of_le_mul
    omega

/-- The fixed-point time that `GuiGetInterpolatedValue` blends with is a fraction of at
most `4095` for either kind, for every quotient below `4096`. -/
theorem GuiInterpolAnimTime_range (T : GUI_INTERPOL_TYPE) (Quot : Nat) (hq : Quot < 4096) :
    ∃ A : Nat, A ≤ 4095 ∧ GuiInterpolAnimTime T Quot = (A : Int) := by
  cases T with
  | GuiInterpolTypeSmooth =>
    exact ⟨easedFraction Quot, easedFraction_le Quot hq, GuiInterpolAnimTime_smooth Quot hq⟩
  | GuiInterpolTypeLinear =>
    refine ⟨Quot, by omega, ?_⟩
    unfold GuiInterpolAnimTime
    dsimp only
    exact toINT32_of_range (Quot : Int) (by omega) (by omega)

/-- C32: for every valid descriptor of either kind with `StartValue` and `EndValue` below
`2^20` and every `CurrentTime`, the result of `GuiGetInterpolatedValue` lies between the
smaller and the larger of the two values, inclusive; and for every fixed-point fraction
below `4096` the eased fraction that the smooth kind blends with lies between `0` and
`4096`. -/
theorem GuiGetInterpolatedValue_between (I : GUI_INTERPOLATION) (CurrentTime : Nat)
    (hv : I.Valid) (hS : I.StartValue < 1048576) (hE : I.EndValue < 1048576) :
    (min I.StartValue I.EndValue ≤ GuiGetInterpolatedValue I CurrentTime ∧
      GuiGetInterpolatedValue I CurrentTime ≤ max I.StartValue I.EndValue) ∧
    (∀ Quot : Nat, Quot < 4096 →
      0 ≤ GuiInterpolAnimTime GUI_INTERPOL_TYPE.GuiInterpolTypeSmooth Quot ∧
      GuiInterpolAnimTime GUI_INTERPOL_TYPE.GuiInterpolTypeSmooth Quot ≤ 4096) := by
  obtain ⟨_, hd, _, _, _⟩ := hv
  constructor
  · unfold GuiGetInterpolatedValue
    by_cases h1 : CurrentTime ≤ I.StartTime
    · rw [if_pos h1]
      exact ⟨min_le_left _ _, le_max_left _ _⟩
    · rw [if_neg h1]
      dsimp only
      have hdt : (CurrentTime - I.StartTime) % 4294967296 < 4294967296 :=
        Nat.mod_lt _ (by norm_num)
      generalize (CurrentTime - I.StartTime) % 4294967296 = DeltaTime at hdt ⊢
      by_cases h2 : DeltaTime ≥ I.Duration
      · rw [if_pos h2]
        exact ⟨min_le_right _ _, le_max_right _ _⟩
      · rw [if_neg h2,
          Nat.mod_eq_of_lt (by omega : 4096 * DeltaTime < 18446744073709551616)]
        have hq : 4096 * DeltaTime / I.Duration < 4096 := by
          rw [Nat.div_lt_iff_lt_mul hd]
          omega
        obtain ⟨A, hA, hAeq⟩ := GuiInterpolAnimTime_range I.InterpolType _ hq
        rw [hAeq]
        have e : toUINT32 (A : Int) = A := by
          have := toUINT32_of_range (A : Int) (by omega) (by omega)
          omega
        rw [e, blend32_eq _ _ _ hS hE (by omega)]
        exact blend_between _ _ _ (by omega)
  · intro Quot hq
    rw [GuiInterpolAnimTime_smooth Quot hq]
    have := easedFraction_le Quot hq
    omega

theorem GuiGetInterpolatedValue_between_witness :
    min 10 100 ≤ GuiGetInterpolatedValue
        { InterpolType := GUI_INTERPOL_TYPE.GuiInterpolTypeSmooth, StartTime := 7,
          Duration := 10, StartValue := 10, EndValue := 100 } 4294967310 ∧
      GuiGetInterpolatedValue
        { InterpolType := GUI_INTERPOL_TYPE.GuiInterpolTypeSmooth, StartTime := 7,
          Duration := 10, StartValue := 10, EndValue := 100 } 4294967310 ≤ max 10 100 :=
  (GuiGetInterpolatedValue_between
    { InterpolType := GUI_INTERPOL_TYPE.GuiInterpolTypeSmooth, StartTime := 7,
      Duration := 10, StartValue := 10, EndValue := 100 } 4294967310
    (by decide) (by decide) (by decide)).1

/-! ### Which user patches reach the patcher -/

/-- One iteration of the loop of `OcKernelApplyPatches` with a recording callback: the
patch is appended to the log when it is selected and passes the test of the loop. -/
theorem OcKernelApplyPatchesStep_log {κ : Type}
    (TargetIsKernel : List Nat → Bool) (VersionDiffers : OC_BLOB → Bool)
    (PatcherInitContextFromPrelinked : List Nat → Option κ)
    (IsKernelPatch : Bool) (Patcher : Option κ)
    (hP : IsKernelPatch = true → Patcher.isSome = true)
    (l : List PATCHER_GENERIC_PATCH) (UserPatch : OC_KERNEL_PATCH_ENTRY) :
    OcKernelApplyPatchesStep TargetIsKernel VersionDiffers PatcherInitContextFromPrelinked
        recordPatch IsKernelPatch Patcher l UserPatch =
      if OcKernelPatchSelected TargetIsKernel VersionDiffers PatcherInitContextFromPrelinked
            IsKernelPatch UserPatch &&
          !OcKernelPatchIsBorked UserPatch then
        l ++ [OcKernelBuildPatch UserPatch]
      else l := by
  unfold OcKernelApplyPatchesStep OcKernelPatchSelected
  dsimp only
  cases hD : UserPatch.Disabled <;>
    cases hT : (TargetIsKernel UserPatch.Identifier.Data != IsKernelPatch) <;>
    cases hV : VersionDiffers UserPatch.MatchKernel <;>
    cases hK : IsKernelPatch <;>
    cases hB : OcKernelPatchIsBorked UserPatch <;>
    simp_all [bne, recordPatch] <;>
    first
    | (cases hC : PatcherInitContextFromPrelinked UserPatch.Identifier.Data <;> simp_all)
    | (cases hC : Patcher <;> simp_all)

/-- The loop of `OcKernelApplyPatches` with a recording callback. -/
theorem OcKernelApplyPatches_foldl_log {κ : Type}
    (TargetIsKernel : List Nat → Bool) (VersionDiffers : OC_BLOB → Bool)
    (PatcherInitContextFromPrelinked : List Nat → Option κ)
    (IsKernelPatch : Bool) (Patcher : Option κ)
    (hP : IsKernelPatch = true → Patcher.isSome = true)
    (Patches : List OC_KERNEL_PATCH_ENTRY) (l : List PATCHER_GENERIC_PATCH) :
    Patches.foldl
        (OcKernelApplyPatchesStep TargetIsKernel VersionDiffers PatcherInitContextFromPrelinked
          recordPatch IsKernelPatch Patcher) l =
      l ++ (Patches.filter (fun UserPatch =>
        OcKernelPatchSelected TargetIsKernel VersionDiffers PatcherInitContextFromPrelinked
            IsKernelPatch UserPatch &&
          !OcKernelPatchIsBorked UserPatch)).map OcKernelBuildPatch := by
  induction Patches generalizing l with
  | nil => simp
  | cons P Ps ih =>
    rw [List.foldl_cons, ih,
      OcKernelApplyPatchesStep_log TargetIsKernel VersionDiffers PatcherInitContextFromPrelinked
        IsKernelPatch Patcher hP]
    by_cases h : (OcKernelPatchSelected TargetIsKernel VersionDiffers
        PatcherInitContextFromPrelinked IsKernelPatch P && !OcKernelPatchIsBorked P) = true
    · rw [if_pos h]
      simp only [List.filter_cons, h, if_true, List.map_cons, List.append_assoc,
        List.singleton_append]
    · rw [if_neg h]
      simp only [List.filter_cons, h, Bool.false_eq_true, if_false]

/-- The patches that `OcKernelApplyPatches` hands to `PatcherApplyGenericPatch`, in
order: those of the selected user patches that pass the test of the loop. -/
theorem OcKernelApplyPatches_log {κ : Type}
    (TargetIsKernel : List Nat → Bool) (VersionDiffers : OC_BLOB → Bool)
    (PatcherInitContextFromBuffer : Option κ)
    (PatcherInitContextFromPrelinked : List Nat → Option κ)
    (IsKernelPatch : Bool) (Patches : List OC_KERNEL_PATCH_ENTRY) (Quirks : OC_KERNEL_QUIRKS)
    (hP : IsKernelPatch = true → PatcherInitContextFromBuffer.isSome = true) :
    OcKernelApplyPatches TargetIsKernel VersionDiffers PatcherInitContextFromBuffer
        PatcherInitContextFromPrelinked recordPatch (fun s _ => s) IsKernelPatch Patches
        Quirks [] =
      (Patches.filter (fun UserPatch =>
        OcKernelPatchSelected TargetIsKernel VersionDiffers PatcherInitContextFromPrelinked
            IsKernelPatch UserPatch &&
          !OcKernelPatchIsBorked UserPatch)).map OcKernelBuildPatch := by
  unfold OcKernelApplyPatches
  have hq : ∀ s : List PATCHER_GENERIC_PATCH,
      OcKernelApplyQuirks (fun s _ => s) Quirks s = s := by
    intro s
    unfold OcKernelApplyQuirks
    simp only [ite_self]
  cases IsKernelPatch with
  | true =>
    have h := hP rfl
    cases hB : PatcherInitContextFromBuffer with
    | none => rw [hB] at h; exact absurd h (by simp)
    | some P0 =>
      simp only [Option.isNone_some, Bool.and_false, Bool.false_eq_true, if_false, if_true,
        Bool.not_true]
      rw [OcKernelApplyPatches_foldl_log TargetIsKernel VersionDiffers
        PatcherInitContextFromPrelinked true (some P0) (fun _ => rfl), List.nil_append]
  | false =>
    simp only [Bool.false_and, Bool.false_eq_true, if_false, Bool.not_false, if_true, hq]
    rw [OcKernelApplyPatches_foldl_log TargetIsKernel VersionDiffers
      PatcherInitContextFromPrelinked false none (fun h => absurd h (by simp)),
      List.nil_append]

/-- The test of the loop in arithmetic terms. -/
theorem OcKernelPatchIsBorked_iff (P : OC_KERNEL_PATCH_ENTRY) :
    OcKernelPatchIsBorked P = false ↔
      (P.Replace.Size ≠ 0 ∧ (P.Base.Size = 0 → P.Find.Size = P.Replace.Size) ∧
       (P.Mask.Size > 0 → P.Find.Size = P.Mask.Size) ∧
       (P.ReplaceMask.Size > 0 → P.Find.Size = P.ReplaceMask.Size)) := by
  unfold OcKernelPatchIsBorked
  simp only [Bool.or_eq_false_iff, Bool.and_eq_false_iff, decide_eq_false_iff_not,
    Decidable.not_not]
  constructor
  · rintro ⟨⟨⟨h1, h2⟩, h3⟩, h4⟩
    refine ⟨h1, fun h => ?_, fun h => ?_, fun h => ?_⟩
    · rcases h2 with h2 | h2
      · exact absurd h h2
      · exact h2
    · rcases h3 with h3 | h3
      · exact absurd h h3
      · exact h3
    · rcases h4 with h4 | h4
      · exact absurd h h4
      · exact h4
  · rintro ⟨h1, h2, h3, h4⟩
    refine ⟨⟨⟨h1, ?_⟩, ?_⟩, ?_⟩
    · by_cases h : P.Base.Size = 0
      · exact Or.inr (h2 h)
      · exact Or.inl h
    · by_cases h : P.Mask.Size > 0
      · exact Or.inr (h3 h)
      · exact Or.inl h
    · by_cases h : P.ReplaceMask.Size > 0
      · exact Or.inr (h4 h)
      · exact Or.inl h

/-- The test of the loop rejects only patches that a documented condition rejects, and
it agrees with the documented conditions on every patch without a symbolic base and on
every patch whose find and replace data have the same size. -/
theorem OcKernelPatchIsBorked_documented (P : OC_KERNEL_PATCH_ENTRY) :
    (OcKernelPatchIsBorked P = true → DocumentedRejection P) ∧
    (P.Base.Size = 0 ∨ P.Find.Size = P.Replace.Size →
      (OcKernelPatchIsBorked P = true ↔ DocumentedRejection P)) ∧
    (OcKernelPatchIsBorked P = false ∧ DocumentedRejection P ↔
      P.Base.Size > 0 ∧ P.Replace.Size ≠ 0 ∧ P.Find.Size ≠ P.Replace.Size ∧
      (P.Mask.Size > 0 → P.Find.Size = P.Mask.Size) ∧
      (P.ReplaceMask.Size > 0 → P.Find.Size = P.ReplaceMask.Size)) := by
  have hb := OcKernelPatchIsBorked_iff P
  unfold DocumentedRejection
  cases h : OcKernelPatchIsBorked P with
  | false =>
    rw [h] at hb
    have hb' := hb.1 rfl
    obtain ⟨h1, h2, h3, h4⟩ := hb'
    refine ⟨fun h => by simp at h, fun hc => ⟨fun h => by simp at h, fun hd => ?_⟩, ?_⟩
    · exfalso
      omega
    · constructor
      · rintro ⟨_, hd⟩
        refine ⟨?_, h1, ?_, h3, h4⟩ <;> omega
      · rintro ⟨g1, g2, g3, g4, g5⟩
        exact ⟨rfl, Or.inr (Or.inr (Or.inl g3))⟩
  | true =>
    rw [h] at hb
    have hn : ¬ (P.Replace.Size ≠ 0 ∧ (P.Base.Size = 0 → P.Find.Size = P.Replace.Size) ∧
       (P.Mask.Size > 0 → P.Find.Size = P.Mask.Size) ∧
       (P.ReplaceMask.Size > 0 → P.Find.Size = P.ReplaceMask.Size)) :=
      fun hc => by simpa using hb.2 hc
    have hd : P.Replace.Size = 0 ∨ (P.Base.Size = 0 ∧ P.Find.Size = 0) ∨
        P.Find.Size ≠ P.Replace.Size ∨
        (P.Mask.Size > 0 ∧ P.Find.Size ≠ P.Mask.Size) ∨
        (P.ReplaceMask.Size > 0 ∧ P.Find.Size ≠ P.ReplaceMask.Size) := by
      by_contra hc
      apply hn
      omega
    refine ⟨fun _ => hd, fun _ => ⟨fun _ => hd, fun _ => rfl⟩, ?_⟩
    constructor
    · rintro ⟨hf, _⟩
      simp at hf
    · rintro ⟨g1, g2, g3, g4, g5⟩
      exfalso
      apply hn
      exact ⟨g2, fun h0 => by omega, g4, g5⟩

/-- On a list of user patches none of which combines a symbolic base with find data of
another size than the replace data, `OcKernelApplyPatches` hands to
`PatcherApplyGenericPatch`, in order, the patches built from the user patches that are
enabled, match target and version, have a patcher context, and fall under none of the
documented rejection conditions. -/
theorem OcKernelApplyPatches_documented_enforced {κ : Type}
    (TargetIsKernel : List Nat → Bool) (VersionDiffers : OC_BLOB → Bool)
    (PatcherInitContextFromBuffer : Option κ)
    (PatcherInitContextFromPrelinked : List Nat → Option κ)
    (IsKernelPatch : Bool) (Patches : List OC_KERNEL_PATCH_ENTRY) (Quirks : OC_KERNEL_QUIRKS)
    (hP : IsKernelPatch = true → PatcherInitContextFromBuffer.isSome = true)
    (hB : ∀ P ∈ Patches, P.Base.Size = 0 ∨ P.Find.Size = P.Replace.Size) :
    OcKernelApplyPatches TargetIsKernel VersionDiffers PatcherInitContextFromBuffer
        PatcherInitContextFromPrelinked recordPatch (fun s _ => s) IsKernelPatch Patches
        Quirks [] =
      (Patches.filter (fun UserPatch =>
        OcKernelPatchSelected TargetIsKernel VersionDiffers PatcherInitContextFromPrelinked
            IsKernelPatch UserPatch &&
          decide (¬ DocumentedRejection UserPatch))).map OcKernelBuildPatch := by
  rw [OcKernelApplyPatches_log _ _ _ _ _ _ _ hP]
  congr 1
  apply List.filter_congr
  intro P hPm
  congr 1
  have h := (OcKernelPatchIsBorked_documented P).2.1 (hB P hPm)
  cases hb : OcKernelPatchIsBorked P with
  | true =>
    have hd : DocumentedRejection P := h.1 hb
    simp [hd]
  | false =>
    have hd : ¬ DocumentedRejection P := fun hd => by
      have := h.2 hd
      rw [hb] at this
      exact Bool.noConfusion this
    simp [hd]

/-- C34, the code at a failing input: an enabled patch for the kernel whose version
matches, with a symbolic base (`_sym`), 3 bytes of find data and 5 bytes of replace data
falls under the documented rejection condition "find and replace mismatch in size", yet
the test of the loop lets it through, and `PatcherApplyGenericPatch` receives the 3
bytes of find data together with `Size = 5`. -/
theorem OcKernelApplyPatches_base_size_mismatch_handed :
    DocumentedRejection
      { Disabled := false, Identifier := ⟨7, [107, 101, 114, 110, 101, 108, 0]⟩,
        MatchKernel := ⟨0, []⟩, Base := ⟨5, [95, 115, 121, 109, 0]⟩, Find := ⟨3, [1, 2, 3]⟩,
        Replace := ⟨5, [9, 9, 9, 9, 9]⟩, Mask := ⟨0, []⟩, ReplaceMask := ⟨0, []⟩,
        Count := 0, Skip := 0, Limit := 0 } ∧
    OcKernelApplyPatches (fun Target => Target == [107, 101, 114, 110, 101, 108, 0])
        (fun _ => false) (some ()) (fun _ => none) recordPatch (fun s _ => s) true
        [{ Disabled := false, Identifier := ⟨7, [107, 101, 114, 110, 101, 108, 0]⟩,
           MatchKernel := ⟨0, []⟩, Base := ⟨5, [95, 115, 121, 109, 0]⟩,
           Find := ⟨3, [1, 2, 3]⟩, Replace := ⟨5, [9, 9, 9, 9, 9]⟩, Mask := ⟨0, []⟩,
           ReplaceMask := ⟨0, []⟩, Count := 0, Skip := 0, Limit := 0 }]
        ⟨false, false, false, false⟩ [] =
      [{ Base := some [95, 115, 121, 109, 0], Find := some [1, 2, 3],
         Replace := [9, 9, 9, 9, 9], Mask := none, ReplaceMask := none, Size := 5,
         Count := 0, Skip := 0, Limit := 0 }] := by
  decide

/-! ### The kernel version string -/

/-- The loop of `OcKernelReadDarwinVersion` on a buffer `Done ++ Todo` of which `Done`
has been written: it appends to `Done` the kernel bytes from `Offset` on, cut at the
first `':'`, at the end of the kernel, or after `Remaining` characters, and leaves the
rest of `Todo` as it is. -/
theorem OcKernelReadDarwinVersionLoop_spec (Kernel : List Nat)
    (hK : Kernel.length < 2147483648) (Remaining : Nat) (Done Todo : List Nat) (Offset : Nat)
    (hO : Offset < 2147483648) (hT : Remaining < Todo.length)
    (hD : Done.length + Remaining < 4294967296) :
    OcKernelReadDarwinVersionLoop Kernel Kernel.length Remaining Done.length (Offset : Int)
        (Done ++ Todo) =
      (Done ++ ((Kernel.drop Offset).takeWhile (fun c => decide (c ≠ 58))).take Remaining ++
        Todo.drop (((Kernel.drop Offset).takeWhile
          (fun c => decide (c ≠ 58))).take Remaining).length,
       Done.length + (((Kernel.drop Offset).takeWhile
          (fun c => decide (c ≠ 58))).take Remaining).length) := by
  induction Remaining generalizing Done Todo Offset with
  | zero => simp [OcKernelReadDarwinVersionLoop]
  | succ r ih =>
    rw [OcKernelReadDarwinVersionLoop]
    have e1 : toUINT32 (Offset : Int) = Offset := by
      have := toUINT32_of_range (Offset : Int) (by omega) (by omega)
      omega
    rw [e1, Int.toNat_ofNat]
    by_cases hge : Offset ≥ Kernel.length
    · rw [if_pos (Or.inl hge), List.drop_eq_nil_of_le hge]
      simp
    · have hlt : Offset < Kernel.length := by omega
      rw [List.getD_eq_getElem _ _ hlt, List.drop_eq_getElem_cons hlt]
      by_cases hc : Kernel[Offset] = 58
      · rw [if_pos (Or.inr hc), List.takeWhile_cons_of_neg (by simp [hc])]
        simp
      · rw [if_neg (by rintro (h | h); exact hge h; exact hc h),
          List.takeWhile_cons_of_pos (by simp [hc]), List.take_succ_cons]
        cases Todo with
        | nil => simp at hT
        | cons x Xs =>
          have e2 : toINT32 ((Offset : Int) + 1) = ((Offset + 1 : Nat) : Int) := by
            rw [toINT32_of_range _ (by omega) (by omega)]
            rfl
          have e3 : add32 Done.length 1 = (Done ++ [Kernel[Offset]]).length := by
            rw [add32_of_lt _ _ (by omega), List.length_append]
            rfl
          have e4 : (Done ++ x :: Xs).set Done.length Kernel[Offset] =
              (Done ++ [Kernel[Offset]]) ++ Xs := by
            rw [List.set_append_right _ _ (le_refl _), Nat.sub_self, List.set_cons_zero,
              List.append_assoc]
            rfl
          rw [e2, e3, e4, ih (Done ++ [Kernel[Offset]]) Xs (Offset + 1) (by omega)
            (by simp only [List.length_cons] at hT; omega)
            (by rw [List.length_append]; simp only [List.length_singleton]; omega)]
          simp only [List.append_assoc, List.singleton_append, List.length_cons,
            List.length_append, List.length_singleton, List.length_nil, List.drop_succ_cons,
            Prod.mk.injEq, true_and]
          omega

/-- The string of a buffer that holds the characters `S`, then NUL. -/
theorem AsciiString_append_nul (S Rest : List Nat) :
    AsciiString (S ++ 0 :: Rest) = AsciiString S := by
  unfold AsciiString
  induction S with
  | nil => simp
  | cons a S ih =>
    by_cases h : a = 0
    · simp [h]
    · simp only [List.cons_append]
      rw [List.takeWhile_cons_of_pos (by simp [h]), List.takeWhile_cons_of_pos (by simp [h]), ih]

/-- A string without NUL is held whole. -/
theorem AsciiString_of_no_nul (S : List Nat) (h : 0 ∉ S) : AsciiString S = S := by
  unfold AsciiString
  rw [List.takeWhile_eq_self_iff]
  intro a ha
  simp only [ne_eq, decide_eq_true_eq]
  intro h0
  exact h (h0 ▸ ha)

/-- The expected characters are at most `DarwinVersionSize - 1` and none of them is
`':'`. -/
theorem DarwinVersionExpected_bounds
    (FindPattern : List Nat → Option (List Nat) → Nat → List Nat → Nat → Int → Int)
    (Kernel : List Nat) (KernelSize DarwinVersionSize : Nat) :
    (DarwinVersionExpected FindPattern Kernel KernelSize DarwinVersionSize).length ≤
      DarwinVersionSize - 1 ∧
    58 ∉ DarwinVersionExpected FindPattern Kernel KernelSize DarwinVersionSize := by
  unfold DarwinVersionExpected
  split_ifs
  · exact ⟨Nat.zero_le _, List.not_mem_nil _⟩
  · refine ⟨List.length_take_le _ _, fun h => ?_⟩
    have h1 := List.mem_of_mem_take h
    have h2 := List.mem_takeWhile_imp h1
    simp at h2

/-- C35: for a kernel of fewer than `2^31` bytes (so that every offset is an `INT32`),
whatever `FindPattern` returns within `INT32`, and for every buffer of `DarwinVersionSize
>= 1` characters, `OcKernelReadDarwinVersion` leaves in the buffer the expected
characters (none when the pattern is not found, otherwise the kernel bytes from the
offset of the match on, cut at the first `':'`, at the end of the kernel, or after
`DarwinVersionSize - 1` characters), followed by NUL, followed by the untouched rest of
the buffer; the expected characters are at most `DarwinVersionSize - 1` and none is
`':'`; and the string that the buffer then holds is the expected characters up to their
first NUL, that is all of them when no kernel byte among them is NUL. -/
theorem OcKernelReadDarwinVersion_spec
    (FindPattern : List Nat → Option (List Nat) → Nat → List Nat → Nat → Int → Int)
    (Kernel : List Nat) (KernelSize : Nat) (DarwinVersion : List Nat) (DarwinVersionSize : Nat)
    (hK : KernelSize = Kernel.length) (hK31 : KernelSize < 2147483648)
    (hO : FindPattern DarwinKernelVersionPattern none 22 Kernel KernelSize 0 < 2147483648)
    (h1 : 1 ≤ DarwinVersionSize) (h32 : DarwinVersionSize < 4294967296)
    (hbuf : DarwinVersion.length = DarwinVersionSize) :
    OcKernelReadDarwinVersion FindPattern Kernel KernelSize DarwinVersion DarwinVersionSize =
      DarwinVersionExpected FindPattern Kernel KernelSize DarwinVersionSize ++
        0 :: DarwinVersion.drop
          ((DarwinVersionExpected FindPattern Kernel KernelSize DarwinVersionSize).length + 1) ∧
    (DarwinVersionExpected FindPattern Kernel KernelSize DarwinVersionSize).length ≤
      DarwinVersionSize - 1 ∧
    58 ∉ DarwinVersionExpected FindPattern Kernel KernelSize DarwinVersionSize ∧
    58 ∉ AsciiString (OcKernelReadDarwinVersion FindPattern Kernel KernelSize DarwinVersion
      DarwinVersionSize) ∧
    (AsciiString (OcKernelReadDarwinVersion FindPattern Kernel KernelSize DarwinVersion
      DarwinVersionSize)).length ≤ DarwinVersionSize - 1 ∧
    AsciiString (OcKernelReadDarwinVersion FindPattern Kernel KernelSize DarwinVersion
      DarwinVersionSize) =
      AsciiString (DarwinVersionExpected FindPattern Kernel KernelSize DarwinVersionSize) ∧
    (0 ∉ DarwinVersionExpected FindPattern Kernel KernelSize DarwinVersionSize →
      AsciiString (OcKernelReadDarwinVersion FindPattern Kernel KernelSize DarwinVersion
        DarwinVersionSize) =
        DarwinVersionExpected FindPattern Kernel KernelSize DarwinVersionSize) := by
  obtain ⟨hlen, hcolon⟩ := DarwinVersionExpected_bounds FindPattern Kernel KernelSize
    DarwinVersionSize
  have hmain : OcKernelReadDarwinVersion FindPattern Kernel KernelSize DarwinVersion
      DarwinVersionSize =
      DarwinVersionExpected FindPattern Kernel KernelSize DarwinVersionSize ++
        0 :: DarwinVersion.drop
          ((DarwinVersionExpected FindPattern Kernel KernelSize DarwinVersionSize).length +
            1) := by
    unfold OcKernelReadDarwinVersion DarwinVersionExpected
    dsimp only
    generalize FindPattern DarwinKernelVersionPattern none 22 Kernel KernelSize 0 = Offset at hO
    by_cases hneg : Offset < 0
    · rw [if_pos hneg, if_pos hneg]
      cases DarwinVersion with
      | nil => simp at hbuf; omega
      | cons x Xs => simp
    · rw [if_neg hneg, if_neg hneg]
      obtain ⟨o, rfl⟩ := Int.eq_ofNat_of_zero_le (by omega : 0 ≤ Offset)
      rw [Int.toNat_ofNat, sub32_of_le _ _ h1 h32, hK]
      have hl := OcKernelReadDarwinVersionLoop_spec Kernel (by omega) (DarwinVersionSize - 1)
        [] DarwinVersion o (by omega) (by omega) (by simp only [List.length_nil]; omega)
      simp only [List.length_nil, List.nil_append, Nat.zero_add] at hl
      rw [hl]
      dsimp only
      generalize hS : ((Kernel.drop o).takeWhile (fun c => decide (c ≠ 58))).take
        (DarwinVersionSize - 1) = S
      have hSl : S.length ≤ DarwinVersionSize - 1 := by
        rw [← hS]
        exact List.length_take_le _ _
      rw [List.set_append_right _ _ (le_refl _), Nat.sub_self]
      have hne : S.length < DarwinVersion.length := by omega
      rw [List.drop_eq_getElem_cons hne, List.set_cons_zero]
  refine ⟨hmain, hlen, hcolon, ?_, ?_, ?_, ?_⟩
  · rw [hmain, AsciiString_append_nul]
    intro h
    exact hcolon ((List.takeWhile_sublist _).subset h)
  · rw [hmain, AsciiString_append_nul]
    exact le_trans (List.Sublist.length_le (List.takeWhile_sublist _)) hlen
  · rw [hmain, AsciiString_append_nul]
  · intro h0
    rw [hmain, AsciiString_append_nul]
    exact AsciiString_of_no_nul _ h0

theorem OcKernelReadDarwinVersion_spec_witness :
    DarwinVersionExpected (fun _ _ _ _ _ _ => 1) [0, 68, 97, 114, 58, 7] 6 8 = [68, 97, 114] ∧
    OcKernelReadDarwinVersion (fun _ _ _ _ _ _ => 1) [0, 68, 97, 114, 58, 7] 6
        [1, 1, 1, 1, 1, 1, 1, 1] 8 =
      DarwinVersionExpected (fun _ _ _ _ _ _ => 1) [0, 68, 97, 114, 58, 7] 6 8 ++
        0 :: List.drop
          ((DarwinVersionExpected (fun _ _ _ _ _ _ => 1) [0, 68, 97, 114, 58, 7] 6 8).length + 1)
          [1, 1, 1, 1, 1, 1, 1, 1] ∧
    OcKernelReadDarwinVersion (fun _ _ _ _ _ _ => 1) [0, 68, 97, 114, 58, 7] 6
        [1, 1, 1, 1, 1, 1, 1, 1] 8 = [68, 97, 114, 0, 1, 1, 1, 1] :=
  ⟨by decide,
   (OcKernelReadDarwinVersion_spec (fun _ _ _ _ _ _ => 1) [0, 68, 97, 114, 58, 7] 6
      [1, 1, 1, 1, 1, 1, 1, 1] 8 (by decide) (by decide) (by decide) (by decide) (by decide)
      (by decide)).1,
   by decide⟩

end OpenCanopy
